import Mathlib

/-!
Verification development for the diag360 backend: a shallow embedding of
the workbook ingestion pipeline (`app/cli/ingest_workbook.py`) and of the
score aggregation service (`app/services/score_service.py`), together with
theorems settling the specified properties of the system.

Python values are modelled by the `Cell` type below; pandas "NaN/None"
cells are `Cell.null` or `Cell.float PyFloat.nan`.  Machine floats are
modelled as exact rationals plus the special values `inf`, `ninf`, `nan`;
binary rounding of decimal literals is not modelled (all concrete inputs
used in the theorems are exactly representable), but overflow of a parsed
magnitude to an infinity — which is what makes `int(float(...))` raise
`OverflowError` — is modelled with the threshold `2 ^ 1024`.
-/

namespace Diag360

/-- Model of a Python float: an exact rational or one of the IEEE special
values. -/
inductive PyFloat where
  | finite (q : ℚ)
  | inf
  | ninf
  | nan
deriving Repr, DecidableEq

/-- Model of a Python value held in a pandas cell (`dtype=object`): the
missing markers `None`/`NaN`, a string, an int, or a float. -/
inductive Cell where
  | null
  | str (s : String)
  | int (n : ℤ)
  | float (f : PyFloat)
deriving Repr, DecidableEq

/-- Model of `pd.isna` on a scalar cell. -/
def Cell.isna : Cell → Bool
  | .null => true
  | .float .nan => true
  | _ => false

/-- Python whitespace as stripped by `str.strip()`. -/
def isPySpace (c : Char) : Bool :=
  (c == ' ') || (c == '\t') || (c == '\n') || (c == '\r') || (c == '\x0b') || (c == '\x0c')

/-- Python `str.strip()` on a character list. -/
def pyTrimChars (cs : List Char) : List Char :=
  ((cs.dropWhile isPySpace).reverse.dropWhile isPySpace).reverse

/-- Python `str.strip()`. -/
def pyTrim (s : String) : String :=
  String.mk (pyTrimChars s.toList)

/-- Python `str.lower()` (ASCII case folding suffices for this data). -/
def pyLower (s : String) : String :=
  String.mk (s.toList.map Char.toLower)

/-- Python slicing `s[:n]`. -/
def strTake (s : String) (n : ℕ) : String :=
  String.mk (s.toList.take n)

/-- Python slicing `s[n:]`. -/
def strDrop (s : String) (n : ℕ) : String :=
  String.mk (s.toList.drop n)

/-- Lexicographic code-point order on character lists, the order Python
uses to compare strings. -/
def strLeChars : List Char → List Char → Bool
  | [], _ => true
  | _ :: _, [] => false
  | a :: as, b :: bs =>
    if a.toNat < b.toNat then true
    else if b.toNat < a.toNat then false
    else strLeChars as bs

/-- Python string comparison `a <= b`. -/
def pyStrLe (a b : String) : Bool :=
  strLeChars a.toList b.toList

/-- Rational comparison by cross multiplication (agrees with `≤` on
`ℚ`). -/
def ratLeB (a b : ℚ) : Bool :=
  decide (a.num * (b.den : ℤ) ≤ b.num * (a.den : ℤ))

/-- Truncation toward zero, the semantics of Python `int()` applied to a
finite float or decimal. -/
def truncRat (q : ℚ) : ℤ :=
  q.num.tdiv (q.den : ℤ)

/-- String of all-decimal-digit characters, nonempty: Python `str.isdigit`
restricted to ASCII digits (the only digits produced by the workbook). -/
def pyIsDigit (s : String) : Bool :=
  s.length != 0 && s.toList.all Char.isDigit

/-- Value of a list of decimal digit characters. -/
def digitsVal (cs : List Char) : ℕ :=
  cs.foldl (fun a c => 10 * a + (c.toNat - 48)) 0

/-- Value of an all-digit string. -/
def digitsToNat (s : String) : ℕ :=
  digitsVal s.toList

/-- Python `f"{n:03d}"` for a natural number. -/
def pad3 (n : ℕ) : String :=
  let s := toString n
  if s.length < 3 then String.mk (List.replicate (3 - s.length) '0') ++ s else s

/-- Decimal rendering of a rational that is an exact decimal (every binary
float is), used when `str` is applied to a float cell; Python's shortest
round-trip repr and scientific notation for extreme magnitudes are not
modelled (no theorem renders a float cell). -/
def pyRatStr (q : ℚ) : String :=
  let sign := if q < 0 then "-" else ""
  let a : ℚ := |q|
  match (List.range 401).find? (fun k => (a * (10 : ℚ) ^ k).den == 1) with
  | some 0 => sign ++ toString a.num ++ ".0"
  | some k =>
      let s := toString (a * (10 : ℚ) ^ k).num
      let s := String.mk (List.replicate (k + 1 - s.length) '0') ++ s
      sign ++ strTake s (s.length - k) ++ "." ++ strDrop s (s.length - k)
  | none => sign ++ toString a.num ++ "/" ++ toString a.den

/-- Model of Python `str()` on a float. -/
def pyFloatStr : PyFloat → String
  | .finite q => pyRatStr q
  | .inf => "inf"
  | .ninf => "-inf"
  | .nan => "nan"

/-- Model of Python `str()` on a non-isna cell value. -/
def pyStr : Cell → String
  | .null => "None"
  | .str s => s
  | .int n => toString n
  | .float f => pyFloatStr f

/-- Embedding of `normalise_str`: `None` for missing cells, else the
trimmed text unless it is empty or a textual null marker. -/
def normalise_str (v : Cell) : Option String :=
  if v.isna then none
  else
    let text := pyTrim (pyStr v)
    if text = "" ∨ pyLower text = "nan" ∨ pyLower text = "none" then none
    else some text

/-- Signed digit run with no surrounding whitespace: optional sign
followed by one or more digits. -/
def parseIntChars (cs : List Char) : Option ℤ :=
  let (neg, ds) :=
    match cs with
    | '-' :: t => (true, t)
    | '+' :: t => (false, t)
    | t => (false, t)
  if ds.isEmpty || !(ds.all Char.isDigit) then none
  else some (if neg then -(digitsVal ds : ℤ) else (digitsVal ds : ℤ))

/-- Grammar of a Python int literal as accepted by `int(str)`: optional
sign followed by one or more digits after stripping whitespace (underscore
separators are not modelled; the workbook never produces them). -/
def parsePyInt (s : String) : Option ℤ :=
  parseIntChars (pyTrimChars s.toList)

/-- Mantissa `digits [. digits]` with at least one digit, scaled by a
power of ten. -/
def parseMantissa (m : List Char) (z : ℤ) : Option ℚ :=
  match m.splitOnP (fun c => c == '.') with
  | [ip] =>
    if ip.isEmpty || !(ip.all Char.isDigit) then none
    else some ((digitsVal ip : ℚ) * (10 : ℚ) ^ z)
  | [ip, fp] =>
    if (ip.isEmpty && fp.isEmpty) || !(ip.all Char.isDigit) || !(fp.all Char.isDigit) then none
    else
      some (((digitsVal ip : ℚ) + (digitsVal fp : ℚ) / (10 : ℚ) ^ fp.length) * (10 : ℚ) ^ z)
  | _ => none

/-- Grammar of an unsigned decimal literal `digits [. digits] [e|E [sign]
digits]` with at least one mantissa digit, evaluated exactly. -/
def parseUnsignedDecimal (cs : List Char) : Option ℚ :=
  match cs.splitOnP (fun c => c == 'e' || c == 'E') with
  | [m] => parseMantissa m 0
  | [m, e] =>
    match parseIntChars e with
    | some z => parseMantissa m z
    | none => none
  | _ => none

/-- Signed exact decimal literal. -/
def parseSignedDecimal (s : String) : Option ℚ :=
  match s.toList with
  | '-' :: t => (parseUnsignedDecimal t).map (fun q => -q)
  | '+' :: t => parseUnsignedDecimal t
  | t => parseUnsignedDecimal t

/-- Doubles overflow to an infinity past this magnitude; the exact
round-to-nearest boundary (2^1024 - 2^970) is approximated by 2^1024,
which no concrete input of this development straddles. -/
def floatMax : ℚ := (2 : ℚ) ^ (1024 : ℕ)

/-- Model of Python `float(str)`: strip, optional sign, special tokens
`inf`/`infinity`/`nan`, else an exact decimal literal with overflow to an
infinity. -/
def pyFloatOfString (s : String) : Option PyFloat :=
  let core := pyTrimChars s.toList
  let (neg, body) :=
    match core with
    | '-' :: t => (true, t)
    | '+' :: t => (false, t)
    | t => (false, t)
  let low := body.map Char.toLower
  if low = "inf".toList ∨ low = "infinity".toList then some (if neg then .ninf else .inf)
  else if low = "nan".toList then some .nan
  else
    match parseUnsignedDecimal body with
    | none => none
    | some q =>
      if floatMax ≤ q then some (if neg then .ninf else .inf)
      else some (.finite (if neg then -q else q))

/-- Python `text.endswith(".0")`. -/
def endsWithDotZero (s : String) : Bool :=
  match s.toList.reverse with
  | '0' :: '.' :: _ => true
  | _ => false

/-- Embedding of `normalise_code`.  Exceptions escaping the function are
modelled with `Except`: the `.0` branch calls `int(float(text))`, which
raises `OverflowError` when the float is infinite; `ValueError` and
`InvalidOperation` are caught and yield the original text. -/
def normalise_code (v : Cell) : Except String (Option String) :=
  match normalise_str v with
  | none => .ok none
  | some text =>
    if (pyLower text).toList.contains 'e' then
      match parseSignedDecimal text with
      | some d => .ok (some (toString (truncRat d)))
      | none => .ok (some text)
    else if endsWithDotZero text then
      match pyFloatOfString text with
      | some (.finite q) => .ok (some (toString (truncRat q)))
      | some .inf => .error "OverflowError"
      | some .ninf => .error "OverflowError"
      | some .nan => .ok (some text)
      | none => .ok (some text)
    else
      match parsePyInt text with
      | some n => .ok (some (toString n))
      | none => .ok (some text)

/-- Removal of every space character, the effect of
`suffix.strip().replace(" ", "")` on a trimmed suffix. -/
def stripSpaces (s : String) : String :=
  String.mk (s.toList.filter (fun c => ¬ (c = ' ')))

/-- Python `text.startswith("i")`. -/
def startsWithI (s : String) : Bool :=
  match s.toList with
  | c :: _ => c == 'i'
  | [] => false

/-- Embedding of `normalise_indicator_id`. -/
def normalise_indicator_id (v : Cell) : Option String :=
  match normalise_str v with
  | none => none
  | some t =>
    let text := pyLower t
    if startsWithI text ∧ pyIsDigit (stripSpaces (pyTrim (strDrop text 1))) then
      some ("i" ++ pad3 (digitsToNat (stripSpaces (pyTrim (strDrop text 1)))))
    else if pyIsDigit text then
      some ("i" ++ pad3 (digitsToNat text))
    else some text

/-- The spec's description of `normalise_indicator_id`: lower-case, strip
an optional leading `i` prefix together with the interior spaces of the
prefixed token, re-render a pure-integer remainder as `i` plus a
zero-padded 3-digit number, otherwise return the lower-cased trimmed
text unchanged (null for null/blank input). -/
def indicatorIdSpec (v : Cell) : Option String :=
  match normalise_str v with
  | none => none
  | some t =>
    let text := pyLower t
    let core := if startsWithI text then stripSpaces (pyTrim (strDrop text 1)) else text
    if pyIsDigit core then some ("i" ++ pad3 (digitsToNat core)) else some text

/-- Embedding of `to_int`, which computes `int(float(value))` guarded by
`pd.isna` and a `(TypeError, ValueError)` handler; an infinite float (or
an int too large to convert to float) makes `int`/`float` raise
`OverflowError`, which the handler does not catch. -/
def to_int (v : Cell) : Except String (Option ℤ) :=
  if v.isna then .ok none
  else
    match v with
    | .null => .ok none
    | .int n => if floatMax ≤ (n.natAbs : ℚ) then .error "OverflowError" else .ok (some n)
    | .float (.finite q) => .ok (some (truncRat q))
    | .float .inf => .error "OverflowError"
    | .float .ninf => .error "OverflowError"
    | .float .nan => .ok none
    | .str s =>
      match pyFloatOfString s with
      | none => .ok none
      | some (.finite q) => .ok (some (truncRat q))
      | some .inf => .error "OverflowError"
      | some .ninf => .error "OverflowError"
      | some .nan => .ok none

/-- Embedding of `to_float` with the same exception model. -/
def to_float (v : Cell) : Except String (Option PyFloat) :=
  if v.isna then .ok none
  else
    match v with
    | .null => .ok none
    | .int n => if floatMax ≤ (n.natAbs : ℚ) then .error "OverflowError" else .ok (some (.finite (n : ℚ)))
    | .float f => .ok (some f)
    | .str s =>
      match pyFloatOfString s with
      | none => .ok none
      | some f => .ok (some f)

/-- Embedding of the private helper `_flag`: true iff the normalized text
is one of the fixed truthy tokens. -/
def flagOf (v : Cell) : Bool :=
  match normalise_str v with
  | none => false
  | some text =>
    (pyLower text == "x") || (pyLower text == "1") || (pyLower text == "true") || (pyLower text == "oui")

/-! ### Keyed tables

Database tables (and Python dicts) are modelled as association lists with
at most one entry per key; `mupsert` is the primary-key merge ("insert or
overwrite in place"), `mmodify` the in-place update of an existing row. -/

variable {K : Type} [DecidableEq K] {V : Type}

/-- First value stored under a key. -/
def mlookup : List (K × V) → K → Option V
  | [], _ => none
  | (k1, v) :: t, k => if k1 = k then some v else mlookup t k

/-- Primary-key upsert: replace the value in place, or append a new row. -/
def mupsert : List (K × V) → K → V → List (K × V)
  | [], k, v => [(k, v)]
  | (k1, v1) :: t, k, v => if k1 = k then (k, v) :: t else (k1, v1) :: mupsert t k v

/-- In-place update of the row under a key, when present. -/
def mmodify (k : K) (f : V → V) : List (K × V) → List (K × V)
  | [] => []
  | (k1, v1) :: t => if k1 = k then (k1, f v1) :: t else (k1, v1) :: mmodify k f t

/-- Key list of a table. -/
def mkeys (m : List (K × V)) : List K := m.map Prod.fst

/-- Each key appears at most once. -/
def NodupKeys (m : List (K × V)) : Prop := (mkeys m).Nodup

/-! ### Sheets and rows -/

/-- A sheet as read by `pd.read_excel(..., dtype=object)`: column labels
and cell rows. -/
structure DataFrame where
  cols : List String
  data : List (List Cell)
deriving Repr, DecidableEq

/-- A row dictionary as yielded by `iter_rows` (column names stripped). -/
abbrev Row := List (String × Cell)

/-- Embedding of `row.get(c)`: `dict(zip(columns, values))` keeps the last
value under a duplicated column, and a missing key yields `None`. -/
def rowGet (r : Row) (c : String) : Cell :=
  match (r.filter (fun p => p.1 == c)).getLast? with
  | some p => p.2
  | none => Cell.null

/-- Embedding of `iter_rows`: strip the column labels and zip them with
each row of values. -/
def iter_rows (df : DataFrame) : List Row :=
  df.data.map (fun vs => (df.cols.map pyTrim).zip vs)

/-- Python `a or b` on optional values whose present form is always
truthy (normalized strings are never empty). -/
def pyOr {α : Type} (a b : Option α) : Option α :=
  match a with
  | none => b
  | some x => some x

/-! ### Entity records and the store

Record fields mirror the SQLAlchemy model columns written by the
ingestion module; server-managed columns (`date_import`, `updated_at`,
`meta`) are outside the pipeline's writes and are not modelled here.
`session.merge` on a transient object copies exactly the attributes the
constructor set, so columns the ingestion never passes (for example
`Need.indicator_ids` in `ingest_needs`) keep their stored value; each
builder's record constructor receives that preserved part as `carry`. -/

structure NeedR where
  label : String
  category : Option String
  description : Option String
  indicator_ids : List String
deriving Repr, DecidableEq

structure ObjectiveR where
  label : String
  description : Option String
  indicator_ids : List String
deriving Repr, DecidableEq

structure IndicatorTypeR where
  label : String
  description : Option String
  indicator_ids : List String
deriving Repr, DecidableEq

structure IndicatorR where
  label : String
  description : Option String
  primary_source : Option String
  primary_url : Option String
  api_available : Bool
  secondary_source : Option String
  secondary_url : Option String
  value_type : Option String
  unit : Option String
  need_ids : List String
  objective_ids : List String
  type_ids : List String
deriving Repr, DecidableEq

structure EpciR where
  department_code : Option String
  region_code : Option String
  label : String
  legal_form : Option String
  population_communal : Option ℤ
  population_total : Option ℤ
  area_km2 : Option PyFloat
  urbanised_area_km2 : Option PyFloat
  density_per_km2 : Option PyFloat
  department_count : Option ℤ
  region_count : Option ℤ
  member_count : Option ℤ
  delegate_count : Option ℤ
  competence_count : Option ℤ
  fiscal_potential : Option PyFloat
  grant_global : Option PyFloat
  grant_compensation : Option PyFloat
  grant_intercommunality : Option PyFloat
  seat_city : Option String
  source : Option String
deriving Repr, DecidableEq

/-- Composite fact key `(epci_id, indicator_id, year)`. -/
abbrev FactKey := String × String × ℤ

structure IndicatorValueR where
  value : Option PyFloat
  unit : Option String
  source : Option String
  libelle_epci : Option String
deriving Repr, DecidableEq

structure IndicatorScoreR where
  indicator_score : Option PyFloat
  need_id : Option String
  need_score : Option PyFloat
  objective_id : Option String
  objective_score : Option PyFloat
  type_id : Option String
  type_score : Option PyFloat
  global_score : Option PyFloat
  libelle_epci : Option String
deriving Repr, DecidableEq

/-- The relational store touched by the ingestion pipeline. -/
structure Store where
  needs : List (String × NeedR)
  objectives : List (String × ObjectiveR)
  indicator_types : List (String × IndicatorTypeR)
  indicators : List (String × IndicatorR)
  epcis : List (String × EpciR)
  values : List (FactKey × IndicatorValueR)
  scores : List (FactKey × IndicatorScoreR)
deriving Repr, DecidableEq

/-- The empty store. -/
def Store.empty : Store := ⟨[], [], [], [], [], [], []⟩

/-! ### Generic row-by-row upsert fold

Every "one row, one merge" builder has the shape: compute the row's
primary key (possibly raising), skip the row if it is unusable, otherwise
build a record — whose preserved part `carry` comes from the existing row
— and merge it by key.  `tableFold` is the pure shape, `tableFoldE` the
exception-raising one; both are characterized below through `applyRows`. -/

section TableFold

variable {K C V : Type} [DecidableEq K]

/-- One staged write: a key together with the record as a function of the
preserved `carry`. -/
abbrev Write (K C V : Type) := Option (K × (C → V))

/-- Application of one staged write to a table. -/
def applyRow (carryO : Option V → C) (t : List (K × V)) : Write K C V → List (K × V)
  | none => t
  | some (k, g) => mupsert t k (g (carryO (mlookup t k)))

/-- Application of a sequence of staged writes. -/
def applyRows (carryO : Option V → C) (t : List (K × V)) (l : List (Write K C V)) :
    List (K × V) :=
  l.foldl (applyRow carryO) t

/-- Pure builder fold. -/
def tableFold (idOf : Row → Option K) (carryO : Option V → C) (mk : Row → C → V)
    (t : List (K × V)) (rows : List Row) : List (K × V) :=
  rows.foldl (fun t r =>
    match idOf r with
    | none => t
    | some k => mupsert t k (mk r (carryO (mlookup t k)))) t

/-- Exception-raising builder fold: the key computation and the record
construction may raise, in source order; the first exception aborts the
sheet. -/
def tableFoldE (idOf : Row → Except String (Option K)) (carryO : Option V → C)
    (mkE : Row → Except String (C → V)) :
    List (K × V) → List Row → Except String (List (K × V))
  | t, [] => .ok t
  | t, r :: rs =>
    match idOf r with
    | .error e => .error e
    | .ok none => tableFoldE idOf carryO mkE t rs
    | .ok (some k) =>
      match mkE r with
      | .error e => .error e
      | .ok g => tableFoldE idOf carryO mkE (mupsert t k (g (carryO (mlookup t k)))) rs

/-- Staged writes of a pure builder. -/
def writesOf (idOf : Row → Option K) (mk : Row → C → V) (rows : List Row) :
    List (Write K C V) :=
  rows.map (fun r => (idOf r).map (fun k => (k, mk r)))

/-- Staged writes of an exception-raising builder; the first exception
raised while scanning the sheet is returned. -/
def writesOfE (idOf : Row → Except String (Option K))
    (mkE : Row → Except String (C → V)) : List Row → Except String (List (Write K C V))
  | [] => .ok []
  | r :: rs =>
    match idOf r with
    | .error e => .error e
    | .ok none => (writesOfE idOf mkE rs).map (fun l => none :: l)
    | .ok (some k) =>
      match mkE r with
      | .error e => .error e
      | .ok g => (writesOfE idOf mkE rs).map (fun l => some (k, g) :: l)

/-- Last staged write at a key (later writes win). -/
def lastWrite : List (Write K C V) → K → Option (C → V)
  | [], _ => none
  | o :: l, k =>
    match lastWrite l k with
    | some g => some g
    | none =>
      match o with
      | some (k1, g) => if k1 = k then some g else none
      | none => none

/-- Every staged record preserves the carry it was built from. -/
def CarryStable (carryO : Option V → C) (l : List (Write K C V)) : Prop :=
  ∀ o ∈ l, ∀ k g, o = some (k, g) → ∀ c, carryO (some (g c)) = c

/-- Last row of a sheet carrying a given primary key. -/
def lastRowWith (idOf : Row → Option K) : List Row → K → Option Row
  | [], _ => none
  | r :: rs, k =>
    match lastRowWith idOf rs k with
    | some r2 => some r2
    | none => if idOf r = some k then some r else none

/-- Keys a sequence of staged writes adds to a table whose key set is
`ks`, in first-write order. -/
def newKeys (ks : List K) : List (Write K C V) → List K
  | [] => []
  | some (k, _) :: l => if k ∈ ks then newKeys ks l else k :: newKeys (k :: ks) l
  | none :: l => newKeys ks l

/-- Keys written by a sequence of staged writes. -/
def writtenKeys (l : List (Write K C V)) : List K :=
  l.filterMap (fun o => o.map Prod.fst)

end TableFold

/-! ### Entity sheet builders -/

/-- Python `sorted` on a duplicate-free list of strings (code-point
lexicographic order). -/
def sortedStr (l : List String) : List String :=
  l.mergeSort pyStrLe

def needIdOf (r : Row) : Option String :=
  normalise_str (rowGet r "ID_besoins")

def needCarry : Option NeedR → List String
  | some n => n.indicator_ids
  | none => []

def needMk (r : Row) (carry : List String) : NeedR :=
  { label := (normalise_str (rowGet r "Libellé")).getD ""
    category := pyOr (normalise_str (rowGet r "Type_de_besoins"))
      (normalise_str (rowGet r "Catégorie"))
    description := normalise_str (rowGet r "Description")
    indicator_ids := carry }

/-- Embedding of `ingest_needs`. -/
def ingest_needs (s : Store) (df : DataFrame) : Store :=
  { s with needs := tableFold needIdOf needCarry needMk s.needs (iter_rows df) }

def objectiveIdOf (r : Row) : Option String :=
  normalise_str (rowGet r "ID_Objectifs")

def objectiveCarry : Option ObjectiveR → List String
  | some o => o.indicator_ids
  | none => []

def objectiveMk (r : Row) (carry : List String) : ObjectiveR :=
  { label := (normalise_str (rowGet r "Libellé")).getD ""
    description := normalise_str (rowGet r "Description")
    indicator_ids := carry }

/-- Embedding of `ingest_objectives`. -/
def ingest_objectives (s : Store) (df : DataFrame) : Store :=
  { s with objectives := tableFold objectiveIdOf objectiveCarry objectiveMk s.objectives (iter_rows df) }

def typeIdOf (r : Row) : Option String :=
  pyOr (normalise_str (rowGet r "ID_")) (normalise_str (rowGet r "ID_Type"))

def typeCarry : Option IndicatorTypeR → List String
  | some o => o.indicator_ids
  | none => []

def typeMk (r : Row) (carry : List String) : IndicatorTypeR :=
  { label := (normalise_str (rowGet r "Libellé")).getD ""
    description := normalise_str (rowGet r "Description")
    indicator_ids := carry }

/-- Embedding of `ingest_indicator_types`. -/
def ingest_indicator_types (s : Store) (df : DataFrame) : Store :=
  { s with indicator_types :=
      tableFold typeIdOf typeCarry typeMk s.indicator_types (iter_rows df) }

def indicatorIdOf (r : Row) : Option String :=
  normalise_indicator_id (rowGet r "ID_indicateurs")

/-- Relationship caches preserved by the indicator merge. -/
structure IndicatorCarry where
  need_ids : List String
  objective_ids : List String
  type_ids : List String
deriving Repr, DecidableEq

def indicatorCarry : Option IndicatorR → IndicatorCarry
  | some i => ⟨i.need_ids, i.objective_ids, i.type_ids⟩
  | none => ⟨[], [], []⟩

def indicatorMk (r : Row) (carry : IndicatorCarry) : IndicatorR :=
  { label := (normalise_str (rowGet r "Libellé_indicateurs")).getD ""
    description := normalise_str (rowGet r "Description")
    primary_source := normalise_str (rowGet r "Domaine_Source_principale")
    primary_url := normalise_str (rowGet r "URL Source_Principale")
    api_available := (normalise_str (rowGet r "API disponible")).isSome
    secondary_source := normalise_str (rowGet r "Domaine_Source_secondaire")
    secondary_url := normalise_str (rowGet r "URL_Source_Secondaire")
    value_type := normalise_str (rowGet r "TYPE DE VALEUR")
    unit := normalise_str (rowGet r "Unité")
    need_ids := carry.need_ids
    objective_ids := carry.objective_ids
    type_ids := carry.type_ids }

/-- Embedding of `ingest_indicators`; note that the source computes the
persisted `api_available` as `bool(normalise_str(...))`, truth of the
normalized text, not via the `_flag` truthy-token test. -/
def ingest_indicators (s : Store) (df : DataFrame) : Store :=
  { s with indicators := tableFold indicatorIdOf indicatorCarry indicatorMk s.indicators (iter_rows df) }

/-! ### Link sheet builders -/

/-- Embedding of `defaultdict(set)` with `d[k].add(x)`: insertion-ordered
keys, duplicate-free value lists. -/
def addLink : List (String × List String) → String → String → List (String × List String)
  | [], k, x => [(k, [x])]
  | (k1, xs) :: t, k, x =>
    if k1 = k then (k1, if x ∈ xs then xs else xs ++ [x]) :: t
    else (k1, xs) :: addLink t k x

/-- Embedding of `dict.setdefault`. -/
def setDefault (m : List (String × String)) (k v : String) : List (String × String) :=
  match mlookup m k with
  | some _ => m
  | none => m ++ [(k, v)]

/-- Needs referenced by one link row: the base column (or first alternate)
plus the five alternates, restricted to needs existing in the store. -/
def rowNeeds (needKeys : List String) (r : Row) : List String :=
  let base := pyOr (normalise_str (rowGet r "ID_Besoin")) (normalise_str (rowGet r "Besoin 1"))
  let extras := ["Besoin 1", "Besoin 2", "Besoin 3", "Besoin 4", "Besoin 5"].filterMap
    (fun c => normalise_str (rowGet r c))
  let needs := (match base with
    | some b => [b]
    | none => []) ++ extras
  needs.filter (fun n => n ∈ needKeys)

structure NeedLinkAcc where
  ind2needs : List (String × List String)
  need2inds : List (String × List String)
  needCats : List (String × String)
deriving Repr, DecidableEq

/-- Body of the per-need loop of `ingest_indicator_need_links`. -/
def needLinkInner (ind : String) (category : Option String) (a : NeedLinkAcc) (n : String) :
    NeedLinkAcc :=
  { ind2needs := addLink a.ind2needs ind n
    need2inds := addLink a.need2inds n ind
    needCats :=
      match category with
      | some c => setDefault a.needCats n c
      | none => a.needCats }

def needLinkStep (needKeys : List String) (acc : NeedLinkAcc) (r : Row) : NeedLinkAcc :=
  match normalise_indicator_id (rowGet r "ID_Indicateurs") with
  | none => acc
  | some ind =>
    let needs := rowNeeds needKeys r
    if needs.isEmpty then acc
    else
      let category := pyOr (normalise_str (rowGet r "Type_de_besoins"))
        (normalise_str (rowGet r "Type de besoins"))
      needs.foldl (needLinkInner ind category) acc

def needLinkAcc (needKeys : List String) (rows : List Row) : NeedLinkAcc :=
  rows.foldl (needLinkStep needKeys) ⟨[], [], []⟩

/-- Whether some row of the link sheet links the need `n` (through an
indicator id that normalizes). -/
def linkedNeed (needKeys : List String) : List Row → String → Bool
  | [], _ => false
  | r :: rs, n =>
    match normalise_indicator_id (rowGet r "ID_Indicateurs") with
    | none => linkedNeed needKeys rs n
    | some _ => decide (n ∈ rowNeeds needKeys r) || linkedNeed needKeys rs n

/-- Category assigned to a need by the link sheet under first-seen-wins:
the category of the first row that links the need and carries one. -/
def firstCatFor (needKeys : List String) : List Row → String → Option String
  | [], _ => none
  | r :: rs, n =>
    match normalise_indicator_id (rowGet r "ID_Indicateurs") with
    | none => firstCatFor needKeys rs n
    | some _ =>
      let needs := rowNeeds needKeys r
      if needs.isEmpty then firstCatFor needKeys rs n
      else
        match pyOr (normalise_str (rowGet r "Type_de_besoins"))
          (normalise_str (rowGet r "Type de besoins")) with
        | some c => if n ∈ needs then some c else firstCatFor needKeys rs n
        | none => firstCatFor needKeys rs n

/-- Write-back of the indicator side of the need links (`session.get` on
an id absent from the table returns `None` and the entry is skipped). -/
def needWriteBackInd (acc : NeedLinkAcc) (s : Store) : Store :=
  acc.ind2needs.foldl (fun st p =>
    { st with indicators :=
        mmodify p.1 (fun ind => { ind with need_ids := sortedStr p.2 }) st.indicators }) s

/-- Write-back of the need side of the need links: the sorted indicator
set, and the sheet's first-seen category when there is one. -/
def needWriteBackNeed (acc : NeedLinkAcc) (s : Store) : Store :=
  acc.need2inds.foldl (fun st p =>
    { st with needs :=
        mmodify p.1 (fun nd =>
          { nd with
            indicator_ids := sortedStr p.2
            category :=
              match mlookup acc.needCats p.1 with
              | some c => some c
              | none => nd.category }) st.needs }) s

/-- Embedding of `ingest_indicator_need_links`: accumulate the two
directed maps and the first-seen categories, then write back both
sides. -/
def ingest_indicator_need_links (s : Store) (df : DataFrame) : Store :=
  needWriteBackNeed (needLinkAcc (mkeys s.needs) (iter_rows df))
    (needWriteBackInd (needLinkAcc (mkeys s.needs) (iter_rows df)) s)

/-- Whether the accumulated link map records `v` among the values of
key `k`. -/
def linkMem (m : List (String × List String)) (k v : String) : Bool :=
  match mlookup m k with
  | some l => decide (v ∈ l)
  | none => false

structure LinkAcc where
  fwd : List (String × List String)
  rev : List (String × List String)
deriving Repr, DecidableEq

def addPair (a : LinkAcc) (i x : String) : LinkAcc :=
  ⟨addLink a.fwd i x, addLink a.rev x i⟩

def objLinkStep (objectiveKeys : List String) (acc : LinkAcc) (r : Row) : LinkAcc :=
  match normalise_indicator_id (rowGet r "ID_Indicateurs") with
  | none => acc
  | some ind =>
    [("o1", rowGet r "o1_Subsistance"),
     ("o2", rowGet r "o2_Gestion-de-crise"),
     ("o3", rowGet r "o3_Soutenabilité")].foldl (fun a p =>
      if p.1 ∈ objectiveKeys ∧ flagOf p.2 then addPair a ind p.1 else a) acc

def objLinkAcc (objectiveKeys : List String) (rows : List Row) : LinkAcc :=
  rows.foldl (objLinkStep objectiveKeys) ⟨[], []⟩

def objWriteBackInd (acc : LinkAcc) (s : Store) : Store :=
  acc.fwd.foldl (fun st p =>
    { st with indicators :=
        mmodify p.1 (fun ind => { ind with objective_ids := sortedStr p.2 }) st.indicators }) s

def objWriteBackObj (acc : LinkAcc) (s : Store) : Store :=
  acc.rev.foldl (fun st p =>
    { st with objectives :=
        mmodify p.1 (fun ob => { ob with indicator_ids := sortedStr p.2 }) st.objectives }) s

/-- Embedding of `ingest_indicator_objective_links`. -/
def ingest_indicator_objective_links (s : Store) (df : DataFrame) : Store :=
  objWriteBackObj (objLinkAcc (mkeys s.objectives) (iter_rows df))
    (objWriteBackInd (objLinkAcc (mkeys s.objectives) (iter_rows df)) s)

def typeLinkStep (typeKeys : List String) (acc : LinkAcc) (r : Row) : LinkAcc :=
  match normalise_indicator_id (rowGet r "ID_indicateurs") with
  | none => acc
  | some ind =>
    [("Typ1", flagOf (rowGet r "Typ1_Etat")),
     ("Typ2", flagOf (rowGet r "Typ2_Action"))].foldl (fun a p =>
      if p.2 ∧ p.1 ∈ typeKeys then addPair a ind p.1 else a) acc

def typeLinkAcc (typeKeys : List String) (rows : List Row) : LinkAcc :=
  rows.foldl (typeLinkStep typeKeys) ⟨[], []⟩

def typeWriteBackInd (acc : LinkAcc) (s : Store) : Store :=
  acc.fwd.foldl (fun st p =>
    { st with indicators :=
        mmodify p.1 (fun ind => { ind with type_ids := sortedStr p.2 }) st.indicators }) s

def typeWriteBackType (acc : LinkAcc) (s : Store) : Store :=
  acc.rev.foldl (fun st p =>
    { st with indicator_types :=
        mmodify p.1 (fun ty => { ty with indicator_ids := sortedStr p.2 }) st.indicator_types }) s

/-- Embedding of `ingest_indicator_type_links`. -/
def ingest_indicator_type_links (s : Store) (df : DataFrame) : Store :=
  typeWriteBackType (typeLinkAcc (mkeys s.indicator_types) (iter_rows df))
    (typeWriteBackInd (typeLinkAcc (mkeys s.indicator_types) (iter_rows df)) s)

/-! ### Territorial-unit sheet builder -/

/-- Column renaming `str(c).strip().lower()` applied by `ingest_epcis`. -/
def lowerCols (df : DataFrame) : DataFrame :=
  ⟨df.cols.map (fun c => pyLower (pyTrim c)), df.data⟩

def epciIdOf (r : Row) : Except String (Option String) :=
  normalise_code (rowGet r "siren")

/-- The one Epci column never written by the workbook ingestion. -/
def epciCarry : Option EpciR → Option String
  | some e => e.region_code
  | none => none

def epciMkE (r : Row) : Except String (Option String → EpciR) := do
  let dept ← normalise_code (rowGet r "dept")
  let popc ← to_int (rowGet r "total_pop_mun")
  let popt ← to_int (rowGet r "total_pop_tot")
  let area ← to_float (rowGet r "superficie_km2")
  let urb ← to_float (rowGet r "superficie_urbanisee_km2")
  let dens ← to_float (rowGet r "densite_par_km2")
  let ndep ← to_int (rowGet r "nb_departements")
  let nreg ← to_int (rowGet r "nb_regions")
  let nmem ← to_int (rowGet r "nb_membres")
  let ndel ← to_int (rowGet r "nb_delegues")
  let ncomp ← to_int (rowGet r "nb_competences")
  let fisc ← to_float (rowGet r "potentiel_fiscal")
  let dglob ← to_float (rowGet r "dotation_globale")
  let dcomp ← to_float (rowGet r "dotation_compensation")
  let dint ← to_float (rowGet r "dotation_intercommunalite")
  pure (fun regionCode =>
    { department_code := dept
      region_code := regionCode
      label := (normalise_str (rowGet r "epci_libellé")).getD ""
      legal_form := normalise_str (rowGet r "nature_juridique")
      population_communal := popc
      population_total := popt
      area_km2 := area
      urbanised_area_km2 := urb
      density_per_km2 := dens
      department_count := ndep
      region_count := nreg
      member_count := nmem
      delegate_count := ndel
      competence_count := ncomp
      fiscal_potential := fisc
      grant_global := dglob
      grant_compensation := dcomp
      grant_intercommunality := dint
      seat_city := normalise_str (rowGet r "ville_siege")
      source := some "Excel/Table EPCI" })

/-- Embedding of `ingest_epcis`. -/
def ingest_epcis (s : Store) (df : DataFrame) : Except String Store :=
  (tableFoldE epciIdOf epciCarry epciMkE s.epcis (iter_rows (lowerCols df))).map
    (fun t => { s with epcis := t })

/-! ### Tabular reshaper -/

/-- Embedding of `_normalise_columns`. -/
def normaliseColumns (df : DataFrame) : DataFrame :=
  ⟨df.cols.map pyTrim, df.data⟩

/-- NFKD normalization followed by combining-mark removal, modelled for
the Latin-1 accented letters occurring in the workbook headers (other
characters pass through unchanged). -/
def accentFold (c : Char) : Char :=
  if c ∈ ['é', 'è', 'ê', 'ë'] then 'e'
  else if c ∈ ['à', 'â', 'ä'] then 'a'
  else if c ∈ ['î', 'ï'] then 'i'
  else if c ∈ ['ô', 'ö'] then 'o'
  else if c ∈ ['ù', 'û', 'ü'] then 'u'
  else if c = 'ç' then 'c'
  else if c ∈ ['É', 'È', 'Ê', 'Ë'] then 'E'
  else if c ∈ ['À', 'Â', 'Ä'] then 'A'
  else if c ∈ ['Î', 'Ï'] then 'I'
  else if c ∈ ['Ô', 'Ö'] then 'O'
  else if c ∈ ['Ù', 'Û', 'Ü'] then 'U'
  else if c = 'Ç' then 'C'
  else c

/-- Python `while "__" in text: text = text.replace("__", "_")`, which
collapses every run of underscores to a single one. -/
def squeezeUnderscores : List Char → List Char
  | [] => []
  | [c] => [c]
  | c1 :: c2 :: t =>
    if c1 = '_' ∧ c2 = '_' then squeezeUnderscores (c2 :: t)
    else c1 :: squeezeUnderscores (c2 :: t)

/-- Embedding of `_normalize_column_name`. -/
def normalizeColumnName (name : String) : String :=
  let folded := String.mk (name.toList.map accentFold)
  let replaced := String.mk (folded.toList.map (fun c => if c = ' ' ∨ c = '-' then '_' else c))
  String.mk (squeezeUnderscores (replaced.toList.map Char.toLower))

/-- Embedding of `_detect_epci_column`: scan for a unit-id candidate,
raising `ValueError` when none matches. -/
def detect_epci_column (df : DataFrame) : Except String String :=
  match df.cols.find? (fun c =>
      normalizeColumnName c == "id_epci" || normalizeColumnName c == "code_epci") with
  | some c => .ok c
  | none => .error "ValueError: colonne ID_EPCI introuvable dans la Table Valeurs"

/-- Embedding of `_detect_epci_label_column`. -/
def detect_epci_label_column (df : DataFrame) : Option String :=
  df.cols.find? (fun c => normalizeColumnName c == "libelle_epci")

/-- Embedding of `_detect_indicator_columns`: every column whose stripped
name starts with `i` case-insensitively. -/
def detect_indicator_columns (df : DataFrame) : List String :=
  df.cols.filter (fun c => startsWithI (pyLower (pyTrim c)))

def renameCol (old new : String) (cols : List String) : List String :=
  cols.map (fun c => if c = old then new else c)

/-- Keep-first deduplication (elements already seen are dropped). -/
def dedupFirstAux {α : Type} [DecidableEq α] (seen : List α) : List α → List α
  | [] => []
  | a :: t => if a ∈ seen then dedupFirstAux seen t else a :: dedupFirstAux (a :: seen) t

/-- Keep-first deduplication, the semantics of `drop_duplicates`. -/
def dedupFirst {α : Type} [DecidableEq α] (l : List α) : List α :=
  dedupFirstAux [] l

/-- Embedding of `_attach_epci_metadata`: rename the detected columns to
their canonical names and extract the deduplicated unit metadata rows. -/
def attachEpciMetadata (df : DataFrame) (idCol : String) (labelCol : Option String) :
    DataFrame × List Row :=
  let cols1 := if idCol = "ID_EPCI" then df.cols else renameCol idCol "ID_EPCI" df.cols
  let cols2 :=
    match labelCol with
    | some lc => if lc = "LIBELLE_EPCI" then cols1 else renameCol lc "LIBELLE_EPCI" cols1
    | none => cols1
  let df2 : DataFrame := ⟨cols2, df.data⟩
  let metaCols :=
    match labelCol with
    | some _ => ["ID_EPCI", "LIBELLE_EPCI"]
    | none => ["ID_EPCI"]
  let metaRows := dedupFirst ((iter_rows df2).map (fun r => metaCols.map (fun c => (c, rowGet r c))))
  (df2, metaRows)

/-- Melted long rows before the NA drop: one row per (value column, sheet
row), carrying the id column, the column name as `indicator_id` and the
cell value. -/
def meltRows (df : DataFrame) (valueCols : List String) (idCol valueName : String) : List Row :=
  valueCols.flatMap (fun c =>
    (iter_rows df).map (fun r => [(idCol, rowGet r idCol), ("indicator_id", Cell.str c), (valueName, rowGet r c)]))

/-- Embedding of `_melt_indicator_values`: melt then drop rows whose
value or unit id is NA; a value column absent from the frame makes pandas
raise `KeyError`. -/
def melt_indicator_values (df : DataFrame) (valueCols : List String)
    (idCol valueName : String) : Except String (List Row) :=
  if valueCols.all (fun c => c ∈ df.cols) ∧ idCol ∈ df.cols then
    .ok ((meltRows df valueCols idCol valueName).filter
      (fun r => !(rowGet r valueName).isna && !(rowGet r idCol).isna))
  else .error "KeyError: value_vars absentes du DataFrame"

/-- Embedding of `long_df.merge(metadata, on=ID_EPCI, how=left)`. -/
def mergeMeta (long : List Row) (meta : List Row) : List Row :=
  long.flatMap (fun r =>
    let key := rowGet r "ID_EPCI"
    let ms := meta.filter (fun m => rowGet m "ID_EPCI" == key)
    if ms.isEmpty then [r ++ [("LIBELLE_EPCI", Cell.null)]]
    else ms.map (fun m => r ++ [("LIBELLE_EPCI", rowGet m "LIBELLE_EPCI")]))

/-! ### Fact sheet builders -/

def valueIdOf (r : Row) : Except String (Option FactKey) := do
  let epci ← normalise_code (rowGet r "ID_EPCI")
  match epci, normalise_indicator_id (rowGet r "indicator_id") with
  | some e, some i => pure (some (e, i, 0))
  | _, _ => pure none

/-- The one value-fact column never written by the workbook ingestion. -/
def valueCarry : Option IndicatorValueR → Option String
  | some v => v.unit
  | none => none

def valueMkE (r : Row) : Except String (Option String → IndicatorValueR) := do
  let value ← to_float (rowGet r "value")
  pure (fun unitCarry =>
    { value := value
      unit := unitCarry
      source := some "Excel/Table Valeurs"
      libelle_epci := normalise_str (rowGet r "LIBELLE_EPCI") })

/-- Embedding of `ingest_indicator_values` (the source's local bindings
`df`, `label_column`, `indicator_cols`, `metadata` are inlined). -/
def ingest_indicator_values (s : Store) (df : DataFrame) : Except String Store := do
  let idCol ← detect_epci_column (normaliseColumns df)
  if (detect_indicator_columns (normaliseColumns df)).isEmpty then pure s
  else do
    let long ← melt_indicator_values
      (attachEpciMetadata (normaliseColumns df) idCol
        (detect_epci_label_column (normaliseColumns df))).1
      (detect_indicator_columns (normaliseColumns df)) "ID_EPCI" "value"
    let t ← tableFoldE valueIdOf valueCarry valueMkE s.values
      (mergeMeta long
        (attachEpciMetadata (normaliseColumns df) idCol
          (detect_epci_label_column (normaliseColumns df))).2)
    pure { s with values := t }

/-- Score-fact columns never written by the workbook ingestion (they come
from the score-calculation producers). -/
structure ScoreCarry where
  need_id : Option String
  need_score : Option PyFloat
  objective_id : Option String
  objective_score : Option PyFloat
  type_id : Option String
  type_score : Option PyFloat
  global_score : Option PyFloat
deriving Repr, DecidableEq

def scoreCarry : Option IndicatorScoreR → ScoreCarry
  | some v => ⟨v.need_id, v.need_score, v.objective_id, v.objective_score,
      v.type_id, v.type_score, v.global_score⟩
  | none => ⟨none, none, none, none, none, none, none⟩

def scoreMkE (r : Row) : Except String (ScoreCarry → IndicatorScoreR) := do
  let score ← to_float (rowGet r "score")
  pure (fun c =>
    { indicator_score := score
      need_id := c.need_id
      need_score := c.need_score
      objective_id := c.objective_id
      objective_score := c.objective_score
      type_id := c.type_id
      type_score := c.type_score
      global_score := c.global_score
      libelle_epci := normalise_str (rowGet r "LIBELLE_EPCI") })

/-- Embedding of `ingest_indicator_scores` (local bindings inlined as in
`ingest_indicator_values`). -/
def ingest_indicator_scores (s : Store) (df : DataFrame) : Except String Store := do
  let idCol ← detect_epci_column (normaliseColumns df)
  if (detect_indicator_columns (normaliseColumns df)).isEmpty then pure s
  else do
    let long ← melt_indicator_values
      (attachEpciMetadata (normaliseColumns df) idCol
        (detect_epci_label_column (normaliseColumns df))).1
      (detect_indicator_columns (normaliseColumns df)) "ID_EPCI" "score"
    let t ← tableFoldE valueIdOf scoreCarry scoreMkE s.scores
      (mergeMeta long
        (attachEpciMetadata (normaliseColumns df) idCol
          (detect_epci_label_column (normaliseColumns df))).2)
    pure { s with scores := t }

/-! ### Ingestion orchestrator -/

/-- A workbook: the ten known tabs in `SHEETS_MAPPING` order, each
possibly absent (an absent tab is skipped with a warning). -/
structure Workbook where
  besoins : Option DataFrame
  objectifs : Option DataFrame
  type_indicateurs : Option DataFrame
  indicateurs_sources : Option DataFrame
  corr_besoins : Option DataFrame
  corr_objectifs : Option DataFrame
  corr_types : Option DataFrame
  epci : Option DataFrame
  valeurs : Option DataFrame
  scores_indicateurs : Option DataFrame
deriving Repr, DecidableEq

def sheetStep (f : Store → DataFrame → Except String Store)
    (dfo : Option DataFrame) (s : Store) : Except String Store :=
  match dfo with
  | none => .ok s
  | some df => f s df

def pureSheet (f : Store → DataFrame → Store) : Store → DataFrame → Except String Store :=
  fun s df => .ok (f s df)

/-- Sequencing of the ten sheet builders against one session, in
`SHEETS_MAPPING` order; the first exception aborts the run. -/
def runSheets (s : Store) (wb : Workbook) : Except String Store := do
  let s ← sheetStep (pureSheet ingest_needs) wb.besoins s
  let s ← sheetStep (pureSheet ingest_objectives) wb.objectifs s
  let s ← sheetStep (pureSheet ingest_indicator_types) wb.type_indicateurs s
  let s ← sheetStep (pureSheet ingest_indicators) wb.indicateurs_sources s
  let s ← sheetStep (pureSheet ingest_indicator_need_links) wb.corr_besoins s
  let s ← sheetStep (pureSheet ingest_indicator_objective_links) wb.corr_objectifs s
  let s ← sheetStep (pureSheet ingest_indicator_type_links) wb.corr_types s
  let s ← sheetStep ingest_epcis wb.epci s
  let s ← sheetStep ingest_indicator_values wb.valeurs s
  let s ← sheetStep ingest_indicator_scores wb.scores_indicateurs s
  pure s

/-- Embedding of `ingest_workbook`'s transaction: on success the staged
state is committed exactly once; on any exception the transaction is
rolled back — the visible store is unchanged — and the exception is
re-raised.  The result is the visible store, the re-raised exception if
any, and the number of commits performed. -/
def ingest_workbook (s : Store) (wb : Workbook) : Store × Option String × ℕ :=
  match runSheets s wb with
  | .ok s2 => (s2, none, 1)
  | .error e => (s, some e, 0)

/-! ### Score aggregation engine (read side)

The aggregation service reads the persisted `score_indicateur` rows; its
SQL `Numeric` values are modelled as exact rationals, and the
server-maintained `updated_at` timestamp as a natural number. -/

structure ScoreFact where
  epci_id : String
  indicator_id : String
  year : ℤ
  indicator_score : Option ℚ
  need_id : Option String
  need_score : Option ℚ
  objective_id : Option String
  objective_score : Option ℚ
  type_id : Option String
  type_score : Option ℚ
  global_score : Option ℚ
  updated_at : ℕ
deriving Repr, DecidableEq

/-- The columns of the `epci` table read by the service. -/
structure EpciRef where
  id : String
  label : String
  department_code : Option String
  region_code : Option String
deriving Repr, DecidableEq

/-- Embedding of `_resolve_year`: the explicit year, else the maximum
year across all score facts, else the sentinel 0. -/
def resolve_year (facts : List ScoreFact) (yearArg : Option ℤ) : ℤ :=
  match yearArg with
  | some y => y
  | none => ((facts.map (fun f => f.year)).max?).getD 0

/-- SQL `avg` over a column: nulls are skipped, and the aggregate is null
when no non-null value remains. -/
def sqlAvg (xs : List (Option ℚ)) : Option ℚ :=
  let vs := xs.filterMap id
  if vs.isEmpty then none else some (vs.sum / (vs.length : ℚ))

/-- SQL `LIKE` with a `%...%` pattern on lower-cased operands, i.e.
case-insensitive substring match (wildcards inside the search string are
not modelled; no claim exercises them). -/
def likeMatch (s q : String) : Bool :=
  decide (List.IsInfix (pyLower q).toList (pyLower s).toList)

structure ScoreSummaryRow where
  epci_id : String
  epci_label : String
  department_code : Option String
  region_code : Option String
  global_score : Option ℚ
  indicator_count : ℕ
  updated_at : Option ℕ
deriving Repr, DecidableEq

/-- Group key of the summary subquery: unit id, label, department and
region, all functionally determined by the unit id when the unit table
has unique ids. -/
abbrev SummaryKey := String × String × Option String × Option String

/-- Inner join of the target year's score facts with their unit row,
optionally restricted by the case-insensitive search. -/
def summaryJoined (epcis : List EpciRef) (facts : List ScoreFact)
    (search : Option String) (y : ℤ) : List (ScoreFact × EpciRef) :=
  match search with
  | none =>
    (facts.filter (fun f => f.year = y)).flatMap (fun f =>
      (epcis.filter (fun e => e.id = f.epci_id)).map (fun e => (f, e)))
  | some q =>
    if q = "" then
      (facts.filter (fun f => f.year = y)).flatMap (fun f =>
        (epcis.filter (fun e => e.id = f.epci_id)).map (fun e => (f, e)))
    else
      ((facts.filter (fun f => f.year = y)).flatMap (fun f =>
        (epcis.filter (fun e => e.id = f.epci_id)).map (fun e => (f, e)))).filter
        (fun p => likeMatch p.2.label q || likeMatch p.1.epci_id q)

/-- One group of the summary subquery. -/
def summaryGroup (epcis : List EpciRef) (facts : List ScoreFact)
    (search : Option String) (y : ℤ) (k : SummaryKey) : List (ScoreFact × EpciRef) :=
  (summaryJoined epcis facts search y).filter (fun p =>
    (p.1.epci_id, p.2.label, p.2.department_code, p.2.region_code) = k)

/-- Embedding of the grouped summary subquery shared by `list_scores` and
`get_score_detail`: join score facts of the target year to their unit,
optionally filter by the case-insensitive search, and aggregate per
group (unit id, label, department, region) — `avg` of the per-fact
`global_score` column, `count` of the (non-null) indicator ids, `max` of
`updated_at`. -/
def summaryRow (epcis : List EpciRef) (facts : List ScoreFact)
    (search : Option String) (y : ℤ) (k : SummaryKey) : ScoreSummaryRow :=
  { epci_id := k.1
    epci_label := k.2.1
    department_code := k.2.2.1
    region_code := k.2.2.2
    global_score := sqlAvg ((summaryGroup epcis facts search y k).map
      (fun p => p.1.global_score))
    indicator_count := (summaryGroup epcis facts search y k).length
    updated_at := ((summaryGroup epcis facts search y k).map
      (fun p => p.1.updated_at)).max? }

/-- The grouped summary subquery shared by `list_scores` and
`get_score_detail`: the distinct group keys of the year's joined facts,
each aggregated by `summaryRow`. -/
def summarySubquery (epcis : List EpciRef) (facts : List ScoreFact)
    (search : Option String) (y : ℤ) : List ScoreSummaryRow :=
  (dedupFirst ((summaryJoined epcis facts search y).map (fun p =>
    (p.1.epci_id, p.2.label, p.2.department_code, p.2.region_code)))).map
    (summaryRow epcis facts search y)

structure ScoreListResponse where
  items : List ScoreSummaryRow
  total : ℕ
deriving Repr, DecidableEq

/-- Ordering for `order_by = score`: descending, nulls last. -/
def scoreDescNullsLast (a b : Option ℚ) : Bool :=
  match a, b with
  | some x, some y => ratLeB y x
  | some _, none => true
  | none, some _ => false
  | none, none => true

/-- Embedding of `list_scores`. -/
def list_scores (epcis : List EpciRef) (facts : List ScoreFact)
    (search : Option String) (limit offset : ℕ) (order_by : String)
    (yearArg : Option ℤ) : ScoreListResponse :=
  let y := resolve_year facts yearArg
  let rows := summarySubquery epcis facts search y
  let total := rows.length
  if total = 0 then ⟨[], 0⟩
  else
    let sorted :=
      if order_by = "score" then
        rows.mergeSort (fun a b => scoreDescNullsLast a.global_score b.global_score)
      else if order_by = "code" then rows.mergeSort (fun a b => pyStrLe a.epci_id b.epci_id)
      else rows.mergeSort (fun a b => pyStrLe a.epci_label b.epci_label)
    ⟨(sorted.drop offset).take limit, total⟩

structure AggregatedScore where
  id : String
  label : Option String
  score : Option ℚ
deriving Repr, DecidableEq

/-- Ascending order on outer-joined labels (SQL `ASC`, nulls last as in
PostgreSQL's default). -/
def optLabelLe (a b : Option String) : Bool :=
  match a, b with
  | some x, some y => pyStrLe x y
  | some _, none => true
  | none, some _ => false
  | none, none => true

/-- Embedding of one rolled-up list of `get_score_detail`: the unit's
facts of the target year whose relation id is non-null, grouped by the
relation id (with the outer-joined label), aggregated with `avg` over the
corresponding sub-score column, ordered by label. -/
def rollup (rel : ScoreFact → Option String) (sub : ScoreFact → Option ℚ)
    (refLabels : List (String × String)) (facts : List ScoreFact)
    (y : ℤ) (u : String) : List AggregatedScore :=
  ((dedupFirst ((facts.filter (fun f =>
      f.year = y ∧ f.epci_id = u ∧ (rel f).isSome)).filterMap rel)).map (fun n =>
    { id := n
      label := mlookup refLabels n
      score := sqlAvg (((facts.filter (fun f =>
          f.year = y ∧ f.epci_id = u ∧ (rel f).isSome)).filter
        (fun f => rel f = some n)).map sub) })).mergeSort
    (fun a b => optLabelLe a.label b.label)

structure IndicatorScoreDetailRow where
  indicator_id : String
  indicator_label : String
  indicator_score : Option ℚ
  need_id : Option String
  need_label : Option String
  need_score : Option ℚ
  objective_id : Option String
  objective_label : Option String
  objective_score : Option ℚ
  type_id : Option String
  type_label : Option String
  type_score : Option ℚ
deriving Repr, DecidableEq

/-- Embedding of the per-indicator rows of `get_score_detail` (inner join
with the indicator table, outer joins with the three axes, ordered by
indicator label). -/
def detailIndicators (indicatorLabels needLabels objectiveLabels typeLabels : List (String × String))
    (facts : List ScoreFact) (y : ℤ) (u : String) : List IndicatorScoreDetailRow :=
  let fs := facts.filter (fun f => f.year = y ∧ f.epci_id = u)
  let joined := fs.filterMap (fun f =>
    (mlookup indicatorLabels f.indicator_id).map (fun lbl =>
      { indicator_id := f.indicator_id
        indicator_label := lbl
        indicator_score := f.indicator_score
        need_id := f.need_id
        need_label := f.need_id.bind (mlookup needLabels)
        need_score := f.need_score
        objective_id := f.objective_id
        objective_label := f.objective_id.bind (mlookup objectiveLabels)
        objective_score := f.objective_score
        type_id := f.type_id
        type_label := f.type_id.bind (mlookup typeLabels)
        type_score := f.type_score
        : IndicatorScoreDetailRow }))
  joined.mergeSort (fun a b => pyStrLe a.indicator_label b.indicator_label)

structure ScoreDetail where
  summary : ScoreSummaryRow
  needs : List AggregatedScore
  objectives : List AggregatedScore
  types : List AggregatedScore
  indicators : List IndicatorScoreDetailRow
deriving Repr, DecidableEq

/-- Embedding of `get_score_detail`: summary restricted to one unit
(`ValueError` when no fact row joins for that unit and year), plus the
three rolled-up lists and the per-indicator rows. -/
def get_score_detail (epcis : List EpciRef)
    (indicatorLabels needLabels objectiveLabels typeLabels : List (String × String))
    (facts : List ScoreFact) (u : String) (yearArg : Option ℤ) :
    Except String ScoreDetail :=
  let y := resolve_year facts yearArg
  let srows := summarySubquery epcis (facts.filter (fun f => f.epci_id = u)) none y
  match srows.head? with
  | none => .error "ValueError: EPCI not found"
  | some summary =>
    .ok
      { summary := summary
        needs := rollup (fun f => f.need_id) (fun f => f.need_score) needLabels facts y u
        objectives := rollup (fun f => f.objective_id) (fun f => f.objective_score)
          objectiveLabels facts y u
        types := rollup (fun f => f.type_id) (fun f => f.type_score) typeLabels facts y u
        indicators := detailIndicators indicatorLabels needLabels objectiveLabels typeLabels
          facts y u }

/-! ### Concrete score-fact fixtures for the aggregation theorems -/

/-! ### Concrete link-sheet fixtures for the relationship-graph theorems -/

/-- A link sheet with one row tying indicator i001 to need b1. -/
def c1Sheet : DataFrame :=
  ⟨["ID_Indicateurs", "ID_Besoin"], [[Cell.str "i001", Cell.str "b1"]]⟩

/-- A store holding need b1 and no indicator at all. -/
def c1exStore : Store :=
  { Store.empty with needs := [("b1", ⟨"Besoin un", none, none, []⟩)] }

/-- A bare indicator record for i001. -/
def c1wInd0 : IndicatorR :=
  { label := "Ind un", description := none, primary_source := none, primary_url := none
    api_available := false, secondary_source := none, secondary_url := none
    value_type := none, unit := none, need_ids := [], objective_ids := [], type_ids := [] }

/-- A store holding both need b1 and indicator i001. -/
def c1wStore : Store :=
  { Store.empty with
      needs := [("b1", ⟨"Besoin un", none, none, []⟩)]
      indicators := [("i001", c1wInd0)] }

/-- The need row b1 after the link sheet write-back. -/
def c1NeedPost : NeedR :=
  { label := "Besoin un", category := none, description := none
    indicator_ids := sortedStr ["i001"] }

/-- The indicator row i001 after the need-link write-back. -/
def c1IndPost : IndicatorR :=
  { c1wInd0 with need_ids := sortedStr ["b1"] }

/-- A link sheet whose one row ties indicator i001 to need b1, objective
o1 and type Typ1 at once (each builder reads its own columns). -/
def c1Sheet2 : DataFrame :=
  ⟨["ID_Indicateurs", "ID_Besoin", "o1_Subsistance", "ID_indicateurs", "Typ1_Etat"],
    [[Cell.str "i001", Cell.str "b1", Cell.str "x", Cell.str "i001", Cell.str "x"]]⟩

/-- A store holding need b1, objective o1, type Typ1 and indicator i001. -/
def c1wStore2 : Store :=
  { Store.empty with
      needs := [("b1", ⟨"Besoin un", none, none, []⟩)]
      objectives := [("o1", ⟨"Subsistance", none, []⟩)]
      indicator_types := [("Typ1", ⟨"Etat", none, []⟩)]
      indicators := [("i001", c1wInd0)] }

/-- The objective row o1 after the objective-link write-back. -/
def c1ObjPost : ObjectiveR :=
  { label := "Subsistance", description := none, indicator_ids := sortedStr ["i001"] }

/-- The type row Typ1 after the type-link write-back. -/
def c1TypePost : IndicatorTypeR :=
  { label := "Etat", description := none, indicator_ids := sortedStr ["i001"] }

/-- The indicator row i001 after the objective-link write-back. -/
def c1IndPostO : IndicatorR :=
  { c1wInd0 with objective_ids := sortedStr ["o1"] }

/-- The indicator row i001 after the type-link write-back. -/
def c1IndPostT : IndicatorR :=
  { c1wInd0 with type_ids := sortedStr ["Typ1"] }

/-- A reference row for territorial unit A. -/
def epciA : EpciRef :=
  { id := "A", label := "Unit A", department_code := none, region_code := none }

/-- A reference row for territorial unit U. -/
def epciU : EpciRef :=
  { id := "U", label := "Unit U", department_code := none, region_code := none }

/-- Two score facts of unit A for 2025 whose indicator-level scores are 80
and 60 while the persisted global_score column is null on both. -/
def c3exFacts : List ScoreFact :=
  [{ epci_id := "A", indicator_id := "i001", year := 2025, indicator_score := some 80
     need_id := none, need_score := none, objective_id := none, objective_score := none
     type_id := none, type_score := none, global_score := none, updated_at := 5 },
   { epci_id := "A", indicator_id := "i002", year := 2025, indicator_score := some 60
     need_id := none, need_score := none, objective_id := none, objective_score := none
     type_id := none, type_score := none, global_score := none, updated_at := 5 }]

/-- A single score fact of unit A for 2025. -/
def c3wFacts : List ScoreFact :=
  [{ epci_id := "A", indicator_id := "i001", year := 2025, indicator_score := some 80
     need_id := none, need_score := none, objective_id := none, objective_score := none
     type_id := none, type_score := none, global_score := none, updated_at := 7 }]

/-- Two score facts of unit U for 2025 linked to need N, with
indicator-level scores 80 and 60 but a null need_score column. -/
def c4exFacts : List ScoreFact :=
  [{ epci_id := "U", indicator_id := "i001", year := 2025, indicator_score := some 80
     need_id := some "N", need_score := none, objective_id := none, objective_score := none
     type_id := none, type_score := none, global_score := none, updated_at := 1 },
   { epci_id := "U", indicator_id := "i002", year := 2025, indicator_score := some 60
     need_id := some "N", need_score := none, objective_id := none, objective_score := none
     type_id := none, type_score := none, global_score := none, updated_at := 2 }]

/-- Two score facts of unit U for 2025 linked to need N whose need_score
column holds 80 and 60. -/
def c4wFacts : List ScoreFact :=
  [{ epci_id := "U", indicator_id := "i001", year := 2025, indicator_score := none
     need_id := some "N", need_score := some 80, objective_id := none, objective_score := none
     type_id := none, type_score := none, global_score := none, updated_at := 1 },
   { epci_id := "U", indicator_id := "i002", year := 2025, indicator_score := none
     need_id := some "N", need_score := some 60, objective_id := none, objective_score := none
     type_id := none, type_score := none, global_score := none, updated_at := 2 }]

/-! ### Replay (idempotence) infrastructure

The second import of the same workbook is analysed through the rows each
sheet contributes and the per-table shapes of the builders. -/

/-- Rows contributed by a possibly-absent sheet. -/
def sheetRows : Option DataFrame → List Row
  | none => []
  | some df => iter_rows df

/-- One sheet of the pure prefix of the run: skipped when absent. -/
def applySheet (g : Store → DataFrame → Store) (dfo : Option DataFrame) (s : Store) : Store :=
  match dfo with
  | none => s
  | some df => g s df

/-- The table-level shape shared by every link write-back: each
accumulator entry updates its own row in place. -/
def modTable {P V : Type} (ps : List (String × P)) (u : String → P → V → V)
    (t : List (String × V)) : List (String × V) :=
  ps.foldl (fun tb p => mmodify p.1 (u p.1 p.2) tb) t

/-- The need-side update of the need-link write-back. -/
def needUpd (cats : List (String × String)) (k : String) (xs : List String)
    (nd : NeedR) : NeedR :=
  { nd with
    indicator_ids := sortedStr xs
    category :=
      match mlookup cats k with
      | some c => some c
      | none => nd.category }

/-- The indicator-side update of the need-link write-back. -/
def indNeedUpd (k : String) (xs : List String) (ind : IndicatorR) : IndicatorR :=
  { ind with need_ids := sortedStr xs }

/-- The indicator-side update of the objective-link write-back. -/
def indObjUpd (k : String) (xs : List String) (ind : IndicatorR) : IndicatorR :=
  { ind with objective_ids := sortedStr xs }

/-- The indicator-side update of the type-link write-back. -/
def indTypeUpd (k : String) (xs : List String) (ind : IndicatorR) : IndicatorR :=
  { ind with type_ids := sortedStr xs }

/-- The objective-side update of the objective-link write-back. -/
def objUpd (k : String) (xs : List String) (ob : ObjectiveR) : ObjectiveR :=
  { ob with indicator_ids := sortedStr xs }

/-- The type-side update of the type-link write-back. -/
def typeUpd (k : String) (xs : List String) (ty : IndicatorTypeR) : IndicatorTypeR :=
  { ty with indicator_ids := sortedStr xs }

/-- Every table of the store has SQL-primary-key-like distinct keys. -/
def WellKeyed (s : Store) : Prop :=
  NodupKeys s.needs ∧ NodupKeys s.objectives ∧ NodupKeys s.indicator_types ∧
    NodupKeys s.indicators ∧ NodupKeys s.epcis ∧ NodupKeys s.values ∧ NodupKeys s.scores

/-- A one-sheet workbook holding a single need row. -/
def c2Workbook : Workbook :=
  { besoins := some ⟨["ID_besoins", "Libellé"], [[Cell.str "b1", Cell.str "Besoin un"]]⟩
    objectifs := none, type_indicateurs := none, indicateurs_sources := none
    corr_besoins := none, corr_objectifs := none, corr_types := none
    epci := none, valeurs := none, scores_indicateurs := none }

/-- The state the one-sheet workbook produces from the empty store. -/
def c2Target : Store :=
  { Store.empty with needs := [("b1", ⟨"Besoin un", none, none, []⟩)] }

/-! ## General lemmas about the table and fold primitives -/

section MapLemmas

variable {K : Type} [DecidableEq K] {V : Type}

theorem mlookup_mupsert_self (m : List (K × V)) (k : K) (v : V) :
    mlookup (mupsert m k v) k = some v := by
  induction m with
  | nil => simp [mupsert, mlookup]
  | cons h t ih =>
    by_cases hk : h.1 = k <;> simp [mupsert, mlookup, hk, ih]

theorem mlookup_mupsert_ne (m : List (K × V)) (k k1 : K) (v : V) (h : k ≠ k1) :
    mlookup (mupsert m k v) k1 = mlookup m k1 := by
  induction m with
  | nil => simp [mupsert, mlookup, h]
  | cons p t ih =>
    by_cases hk : p.1 = k
    · simp [mupsert, mlookup, hk, h]
    · simp only [mupsert, if_neg hk, mlookup]
      by_cases hk1 : p.1 = k1 <;> simp [hk1, ih]

theorem mlookup_mmodify_self (m : List (K × V)) (k : K) (f : V → V) :
    mlookup (mmodify k f m) k = (mlookup m k).map f := by
  induction m with
  | nil => simp [mmodify, mlookup]
  | cons p t ih =>
    by_cases hk : p.1 = k <;> simp [mmodify, mlookup, hk, ih]

theorem mlookup_mmodify_ne (m : List (K × V)) (k k1 : K) (f : V → V) (h : k ≠ k1) :
    mlookup (mmodify k f m) k1 = mlookup m k1 := by
  induction m with
  | nil => simp [mmodify, mlookup]
  | cons p t ih =>
    by_cases hk : p.1 = k
    · simp [mmodify, mlookup, hk, h, Ne.symm h]
    · simp only [mmodify, if_neg hk, mlookup]
      by_cases hk1 : p.1 = k1 <;> simp [hk1, ih]

theorem mkeys_nil : mkeys ([] : List (K × V)) = [] := rfl

theorem mkeys_cons (p : K × V) (t : List (K × V)) : mkeys (p :: t) = p.1 :: mkeys t := rfl

theorem mkeys_mupsert_mem (m : List (K × V)) (k : K) (v : V) (h : k ∈ mkeys m) :
    mkeys (mupsert m k v) = mkeys m := by
  induction m with
  | nil => simp [mkeys_nil] at h
  | cons p t ih =>
    rw [mkeys_cons, List.mem_cons] at h
    by_cases hk : p.1 = k
    · rw [show mupsert (p :: t) k v = (k, v) :: t from by simp [mupsert, hk]]
      rw [mkeys_cons, mkeys_cons, hk]
    · have ht : k ∈ mkeys t := h.resolve_left (fun h1 => hk h1.symm)
      rw [show mupsert (p :: t) k v = p :: mupsert t k v from by simp [mupsert, hk]]
      rw [mkeys_cons, mkeys_cons, ih ht]

theorem mkeys_mupsert_not_mem (m : List (K × V)) (k : K) (v : V) (h : ¬ k ∈ mkeys m) :
    mkeys (mupsert m k v) = mkeys m ++ [k] := by
  induction m with
  | nil => simp [mupsert, mkeys_nil, mkeys_cons]
  | cons p t ih =>
    rw [mkeys_cons, List.mem_cons] at h
    push_neg at h
    rw [show mupsert (p :: t) k v = p :: mupsert t k v from by simp [mupsert, Ne.symm h.1]]
    rw [mkeys_cons, mkeys_cons, ih h.2, List.cons_append]

theorem mkeys_mmodify (m : List (K × V)) (k : K) (f : V → V) :
    mkeys (mmodify k f m) = mkeys m := by
  induction m with
  | nil => simp [mmodify]
  | cons p t ih =>
    by_cases hk : p.1 = k <;> simp [mmodify, mkeys, hk] <;>
      simpa [mkeys] using ih

theorem mlookup_mem_keys (m : List (K × V)) (k : K) (h : k ∈ mkeys m) :
    (mlookup m k).isSome := by
  induction m with
  | nil => simp [mkeys] at h
  | cons p t ih =>
    by_cases hk : p.1 = k
    · simp [mlookup, hk]
    · simp only [mkeys, List.map_cons, List.mem_cons] at h
      rcases h with h | h
      · exact absurd h.symm hk
      · simp [mlookup, hk, ih h]

theorem mlookup_not_mem_keys (m : List (K × V)) (k : K) (h : ¬ k ∈ mkeys m) :
    mlookup m k = none := by
  induction m with
  | nil => simp [mlookup]
  | cons p t ih =>
    simp only [mkeys, List.map_cons, List.mem_cons] at h
    push_neg at h
    simp [mlookup, Ne.symm h.1, ih h.2]

theorem nodupKeys_mupsert (m : List (K × V)) (k : K) (v : V) (h : NodupKeys m) :
    NodupKeys (mupsert m k v) := by
  by_cases hk : k ∈ mkeys m
  · unfold NodupKeys
    rw [mkeys_mupsert_mem m k v hk]
    exact h
  · unfold NodupKeys
    rw [mkeys_mupsert_not_mem m k v hk]
    simpa [List.nodup_append] using ⟨h, hk⟩

theorem nodupKeys_mmodify (m : List (K × V)) (k : K) (f : V → V) (h : NodupKeys m) :
    NodupKeys (mmodify k f m) := by
  unfold NodupKeys
  rw [mkeys_mmodify]
  exact h

/-- Two tables with no duplicate keys, the same key order and the same
lookups are equal. -/
theorem table_ext (m1 m2 : List (K × V)) (h1 : NodupKeys m1)
    (hk : mkeys m1 = mkeys m2)
    (hl : ∀ k, mlookup m1 k = mlookup m2 k) : m1 = m2 := by
  induction m1 generalizing m2 with
  | nil =>
    cases m2 with
    | nil => rfl
    | cons p t => simp [mkeys] at hk
  | cons p t ih =>
    cases m2 with
    | nil => simp [mkeys] at hk
    | cons p2 t2 =>
      simp only [mkeys, List.map_cons, List.cons.injEq] at hk
      have hfst : p.1 = p2.1 := hk.1
      have hvl := hl p.1
      simp [mlookup, hfst] at hvl
      have hp : p = p2 := Prod.ext hfst hvl
      have h1t : NodupKeys t := by
        simpa [NodupKeys, mkeys] using (List.nodup_cons.mp h1).2
      have hnp : ¬ p.1 ∈ mkeys t := by
        simpa [mkeys] using (List.nodup_cons.mp h1).1
      refine congrArg₂ (· :: ·) hp (ih t2 h1t hk.2 ?_)
      intro k
      by_cases hkp : k = p.1
      · have hmk : mkeys t = mkeys t2 := hk.2
        rw [hkp, mlookup_not_mem_keys t p.1 hnp,
          mlookup_not_mem_keys t2 p.1 (hmk ▸ hnp)]
      · have hpk : ¬ p.1 = k := fun h => hkp h.symm
        have hp2k : ¬ p2.1 = k := by
          rw [← hfst]
          exact hpk
        have hlk := hl k
        simpa [mlookup, hpk, hp2k] using hlk

end MapLemmas

section FoldLemmas

variable {K C V : Type} [DecidableEq K]

theorem tableFold_eq_applyRows (idOf : Row → Option K) (carryO : Option V → C)
    (mk : Row → C → V) (t : List (K × V)) (rows : List Row) :
    tableFold idOf carryO mk t rows = applyRows carryO t (writesOf idOf mk rows) := by
  induction rows generalizing t with
  | nil => rfl
  | cons r rs ih =>
    simp only [tableFold, List.foldl_cons, writesOf, List.map_cons, applyRows] at *
    cases h : idOf r <;> simp [h, applyRow, ih, tableFold, applyRows, writesOf]

theorem tableFoldE_eq_applyRows (idOf : Row → Except String (Option K))
    (carryO : Option V → C) (mkE : Row → Except String (C → V))
    (t : List (K × V)) (rows : List Row) :
    tableFoldE idOf carryO mkE t rows
      = (writesOfE idOf mkE rows).map (applyRows carryO t) := by
  induction rows generalizing t with
  | nil => rfl
  | cons r rs ih =>
    cases hid : idOf r with
    | error e => simp [tableFoldE, writesOfE, hid, Except.map]
    | ok o =>
      cases o with
      | none =>
        rw [show tableFoldE idOf carryO mkE t (r :: rs)
            = tableFoldE idOf carryO mkE t rs from by simp [tableFoldE, hid]]
        rw [ih t]
        simp only [writesOfE, hid]
        cases hw : writesOfE idOf mkE rs <;> simp [Except.map, applyRows, applyRow]
      | some k =>
        cases hmk : mkE r with
        | error e => simp [tableFoldE, writesOfE, hid, hmk, Except.map]
        | ok g =>
          rw [show tableFoldE idOf carryO mkE t (r :: rs)
              = tableFoldE idOf carryO mkE (mupsert t k (g (carryO (mlookup t k)))) rs
              from by simp [tableFoldE, hid, hmk]]
          rw [ih]
          simp only [writesOfE, hid, hmk]
          cases hw : writesOfE idOf mkE rs <;> simp [Except.map, applyRows, applyRow]

theorem applyRows_lookup (carryO : Option V → C) (t : List (K × V))
    (l : List (Write K C V)) (hst : CarryStable carryO l) (k : K) :
    mlookup (applyRows carryO t l) k
      = match lastWrite l k with
        | some g => some (g (carryO (mlookup t k)))
        | none => mlookup t k := by
  induction l generalizing t with
  | nil => rfl
  | cons o l ih =>
    have hst1 : CarryStable carryO l := fun o h => hst o (List.mem_cons_of_mem _ h)
    rw [show applyRows carryO t (o :: l) = applyRows carryO (applyRow carryO t o) l from rfl]
    rw [ih (applyRow carryO t o) hst1]
    cases hlast : lastWrite l k with
    | some g =>
      have hc : carryO (mlookup (applyRow carryO t o) k) = carryO (mlookup t k) := by
        match o with
        | none => rfl
        | some (k1, g1) =>
          by_cases hk1 : k1 = k
          · subst hk1
            rw [show applyRow carryO t (some (k1, g1))
                = mupsert t k1 (g1 (carryO (mlookup t k1))) from rfl]
            rw [mlookup_mupsert_self]
            exact hst (some (k1, g1)) (List.mem_cons_self _ _) k1 g1 rfl _
          · rw [show applyRow carryO t (some (k1, g1))
                = mupsert t k1 (g1 (carryO (mlookup t k1))) from rfl]
            rw [mlookup_mupsert_ne _ _ _ _ hk1]
      simp [lastWrite, hlast, hc]
    | none =>
      match o with
      | none => simp [lastWrite, hlast, applyRow]
      | some (k1, g1) =>
        by_cases hk1 : k1 = k
        · subst hk1
          simp [lastWrite, hlast, applyRow, mlookup_mupsert_self]
        · simp [lastWrite, hlast, applyRow, hk1, mlookup_mupsert_ne _ _ _ _ hk1]

theorem newKeys_congr (ks1 ks2 : List K) (l : List (Write K C V))
    (h : ∀ x, x ∈ ks1 ↔ x ∈ ks2) : newKeys ks1 l = newKeys ks2 l := by
  induction l generalizing ks1 ks2 with
  | nil => rfl
  | cons o l ih =>
    match o with
    | none => simpa [newKeys] using ih ks1 ks2 h
    | some (k, g) =>
      by_cases hk : k ∈ ks1
      · simp [newKeys, hk, (h k).mp hk, ih ks1 ks2 h]
      · have hk2 : ¬ k ∈ ks2 := fun hc => hk ((h k).mpr hc)
        simp only [newKeys, if_neg hk, if_neg hk2]
        refine congrArg (k :: ·) (ih (k :: ks1) (k :: ks2) ?_)
        intro x
        simp [h x]

theorem applyRows_keys (carryO : Option V → C) (t : List (K × V))
    (l : List (Write K C V)) :
    mkeys (applyRows carryO t l) = mkeys t ++ newKeys (mkeys t) l := by
  induction l generalizing t with
  | nil => simp [applyRows, newKeys]
  | cons o l ih =>
    rw [show applyRows carryO t (o :: l) = applyRows carryO (applyRow carryO t o) l from rfl]
    match o with
    | none => simpa [newKeys, applyRow] using ih t
    | some (k, g) =>
      by_cases hk : k ∈ mkeys t
      · rw [ih, show applyRow carryO t (some (k, g))
            = mupsert t k (g (carryO (mlookup t k))) from rfl]
        rw [mkeys_mupsert_mem _ _ _ hk]
        simp [newKeys, hk]
      · rw [ih, show applyRow carryO t (some (k, g))
            = mupsert t k (g (carryO (mlookup t k))) from rfl]
        rw [mkeys_mupsert_not_mem _ _ _ hk]
        rw [newKeys_congr (mkeys t ++ [k]) (k :: mkeys t) l (by intro x; simp [or_comm])]
        simp [newKeys, hk]

theorem newKeys_eq_nil (ks : List K) (l : List (Write K C V))
    (h : ∀ k ∈ writtenKeys l, k ∈ ks) : newKeys ks l = [] := by
  induction l generalizing ks with
  | nil => rfl
  | cons o l ih =>
    match o with
    | none =>
      refine ih ks (fun k hk => h k ?_)
      simpa [writtenKeys] using hk
    | some (k, g) =>
      have hk : k ∈ ks := h k (by simp [writtenKeys])
      simp only [newKeys, if_pos hk]
      refine ih ks (fun x hx => h x ?_)
      simpa [writtenKeys] using Or.inr hx

theorem nodupKeys_applyRows (carryO : Option V → C) (t : List (K × V))
    (l : List (Write K C V)) (h : NodupKeys t) :
    NodupKeys (applyRows carryO t l) := by
  induction l generalizing t with
  | nil => exact h
  | cons o l ih =>
    rw [show applyRows carryO t (o :: l) = applyRows carryO (applyRow carryO t o) l from rfl]
    refine ih _ ?_
    match o with
    | none => exact h
    | some (k, g) => exact nodupKeys_mupsert _ _ _ h

end FoldLemmas

/-! ## Claim C9: canonical indicator id -/

theorem startsWithI_not_digit (s : String) (h : startsWithI s = true) :
    pyIsDigit s = false := by
  unfold startsWithI at h
  unfold pyIsDigit
  cases hc : s.toList with
  | nil => rw [hc] at h; simp at h
  | cons c rest =>
    rw [hc] at h
    have hcc : c = 'i' := by simpa using h
    rw [hcc, List.all_cons, show Char.isDigit 'i' = false from rfl,
      Bool.false_and, Bool.and_false]

/-- C9: `normalise_indicator_id` maps the spellings "i7", "I 007", "7",
"i007" to "i007"; in general it lower-cases, strips an optional leading
"i" prefix together with the prefixed token's interior spaces, re-renders
a pure-integer remainder as `i` plus a zero-padded 3-digit number, and
otherwise returns the lower-cased trimmed text unchanged (null for
null/blank input) — i.e. it agrees with `indicatorIdSpec` everywhere. -/
theorem c9_normalise_indicator_id :
    (∀ v, normalise_indicator_id v = indicatorIdSpec v)
    ∧ normalise_indicator_id (Cell.str "i7") = some "i007"
    ∧ normalise_indicator_id (Cell.str "I 007") = some "i007"
    ∧ normalise_indicator_id (Cell.str "7") = some "i007"
    ∧ normalise_indicator_id (Cell.str "i007") = some "i007"
    ∧ normalise_indicator_id Cell.null = none
    ∧ normalise_indicator_id (Cell.str "   ") = none := by
  refine ⟨?_, rfl, rfl, rfl, rfl, rfl, rfl⟩
  intro v
  unfold normalise_indicator_id indicatorIdSpec
  cases hns : normalise_str v with
  | none => rfl
  | some t =>
    simp only
    by_cases hi : startsWithI (pyLower t) = true
    · by_cases hd : pyIsDigit (stripSpaces (pyTrim (strDrop (pyLower t) 1))) = true
      · simp [hi, hd]
      · simp [hi, hd, startsWithI_not_digit _ hi]
    · simp [hi]

/-! ## Claim C8: totality of the numeric coercions -/

/-- C8 counterexample: `to_int("inf")` computes `int(float("inf"))`,
whose `OverflowError` is not caught by the `(TypeError, ValueError)`
handler — the coercion does raise on this input. -/
theorem c8_counterexample :
    to_int (Cell.str "inf") = Except.error "OverflowError" := rfl

/-- C8 amended: `to_int` and `to_float` never raise the caught
`TypeError`/`ValueError` — for every input they return a number or null,
except that an input whose float conversion overflows (an infinite float,
or a magnitude at least 2^1024) raises `OverflowError`. -/
theorem c8_amended (v : Cell) :
    (to_int v = .error "OverflowError" ∨ ∃ r, to_int v = .ok r)
    ∧ (to_float v = .error "OverflowError" ∨ ∃ r, to_float v = .ok r) := by
  constructor
  · cases v with
    | null => exact Or.inr ⟨none, rfl⟩
    | int n =>
      by_cases hn : floatMax ≤ ((n.natAbs : ℚ))
      · exact Or.inl (by simp [to_int, Cell.isna, hn])
      · exact Or.inr ⟨some n, by simp [to_int, Cell.isna, hn]⟩
    | float f =>
      cases f with
      | finite q => exact Or.inr ⟨some (truncRat q), by simp [to_int, Cell.isna]⟩
      | inf => exact Or.inl (by simp [to_int, Cell.isna])
      | ninf => exact Or.inl (by simp [to_int, Cell.isna])
      | nan => exact Or.inr ⟨none, by simp [to_int, Cell.isna]⟩
    | str s =>
      cases hp : pyFloatOfString s with
      | none => exact Or.inr ⟨none, by simp [to_int, Cell.isna, hp]⟩
      | some f =>
        cases f with
        | finite q => exact Or.inr ⟨some (truncRat q), by simp [to_int, Cell.isna, hp]⟩
        | inf => exact Or.inl (by simp [to_int, Cell.isna, hp])
        | ninf => exact Or.inl (by simp [to_int, Cell.isna, hp])
        | nan => exact Or.inr ⟨none, by simp [to_int, Cell.isna, hp]⟩
  · cases v with
    | null => exact Or.inr ⟨none, rfl⟩
    | int n =>
      by_cases hn : floatMax ≤ ((n.natAbs : ℚ))
      · exact Or.inl (by simp [to_float, Cell.isna, hn])
      · exact Or.inr ⟨some (.finite (n : ℚ)), by simp [to_float, Cell.isna, hn]⟩
    | float f =>
      cases f with
      | finite q => exact Or.inr ⟨some (.finite q), by simp [to_float, Cell.isna]⟩
      | inf => exact Or.inr ⟨some .inf, by simp [to_float, Cell.isna]⟩
      | ninf => exact Or.inr ⟨some .ninf, by simp [to_float, Cell.isna]⟩
      | nan => exact Or.inr ⟨none, by simp [to_float, Cell.isna]⟩
    | str s =>
      cases hp : pyFloatOfString s with
      | none => exact Or.inr ⟨none, by simp [to_float, Cell.isna, hp]⟩
      | some f => exact Or.inr ⟨some f, by simp [to_float, Cell.isna, hp]⟩

/-! ## Builder characterization lemmas -/

section BuilderLemmas

variable {K C V : Type} [DecidableEq K]

theorem tableFoldE_nil (idOf : Row → Except String (Option K)) (carryO : Option V → C)
    (mkE : Row → Except String (C → V)) (t : List (K × V)) :
    tableFoldE idOf carryO mkE t [] = .ok t := by
  conv_lhs => unfold tableFoldE

theorem tableFoldE_cons (idOf : Row → Except String (Option K)) (carryO : Option V → C)
    (mkE : Row → Except String (C → V)) (t : List (K × V)) (r : Row) (rs : List Row) :
    tableFoldE idOf carryO mkE t (r :: rs)
      = match idOf r with
        | .error e => .error e
        | .ok none => tableFoldE idOf carryO mkE t rs
        | .ok (some k) =>
          match mkE r with
          | .error e => .error e
          | .ok g => tableFoldE idOf carryO mkE (mupsert t k (g (carryO (mlookup t k)))) rs := by
  conv_lhs => unfold tableFoldE

theorem lastWrite_writesOf (idOf : Row → Option K) (mk : Row → C → V)
    (rows : List Row) (k : K) :
    lastWrite (writesOf idOf mk rows) k = (lastRowWith idOf rows k).map (fun r => mk r) := by
  induction rows with
  | nil => rfl
  | cons r rs ih =>
    show lastWrite ((idOf r).map (fun k => (k, mk r)) :: writesOf idOf mk rs) k = _
    rw [show lastWrite ((idOf r).map (fun k => (k, mk r)) :: writesOf idOf mk rs) k
        = (match lastWrite (writesOf idOf mk rs) k with
          | some g => some g
          | none =>
            match (idOf r).map (fun k => (k, mk r)) with
            | some (k1, g) => if k1 = k then some g else none
            | none => none) from rfl, ih]
    cases h : lastRowWith idOf rs k with
    | some r2 => simp [lastRowWith, h]
    | none =>
      cases hid : idOf r with
      | none => simp [lastRowWith, h, hid]
      | some k1 =>
        by_cases hk : k1 = k
        · subst hk
          simp [lastRowWith, h, hid]
        · simp [lastRowWith, h, hid, hk]

theorem carryStable_writesOf (idOf : Row → Option K) (carryO : Option V → C)
    (mk : Row → C → V) (rows : List Row)
    (hmk : ∀ r c, carryO (some (mk r c)) = c) :
    CarryStable carryO (writesOf idOf mk rows) := by
  intro o ho k g heq c
  rcases List.mem_map.mp ho with ⟨r, _, hr⟩
  subst hr
  cases hid : idOf r with
  | none => rw [hid] at heq; cases heq
  | some k1 =>
    rw [hid] at heq
    have hg : g = mk r := by
      have := (Option.some.injEq _ _).mp heq
      exact (Prod.mk.injEq _ _ _ _).mp this |>.2.symm ▸ rfl
    have : (k1, mk r) = (k, g) := (Option.some.injEq _ _).mp heq
    have hg2 : mk r = g := ((Prod.mk.injEq _ _ _ _).mp this).2
    rw [← hg2]
    exact hmk r c

/-- Lookup after a pure builder fold: the record of the last matching
row, built over the carry preserved from the pre-existing entry. -/
theorem tableFold_lookup (idOf : Row → Option K) (carryO : Option V → C)
    (mk : Row → C → V) (t : List (K × V)) (rows : List Row) (k : K)
    (hmk : ∀ r c, carryO (some (mk r c)) = c) :
    mlookup (tableFold idOf carryO mk t rows) k
      = match lastRowWith idOf rows k with
        | some r => some (mk r (carryO (mlookup t k)))
        | none => mlookup t k := by
  rw [tableFold_eq_applyRows,
    applyRows_lookup carryO t _ (carryStable_writesOf idOf carryO mk rows hmk) k,
    lastWrite_writesOf]
  cases lastRowWith idOf rows k <;> simp

end BuilderLemmas

/-! ## Replay lemmas: applying the same staged writes twice -/

section ReplayLemmas

variable {K C V : Type} [DecidableEq K]

theorem lastWrite_cons_found (o : Write K C V) (l : List (Write K C V)) (k : K)
    (g2 : C → V) (hl : lastWrite l k = some g2) : lastWrite (o :: l) k = some g2 := by
  rw [show lastWrite (o :: l) k
      = (match lastWrite l k with
         | some g => some g
         | none =>
           match o with
           | some (k1, g) => if k1 = k then some g else none
           | none => none) from rfl, hl]

theorem lastWrite_cons_none_some (k1 : K) (g1 : C → V) (l : List (Write K C V)) (k : K)
    (hl : lastWrite l k = none) :
    lastWrite (some (k1, g1) :: l) k = if k1 = k then some g1 else none := by
  rw [show lastWrite (some (k1, g1) :: l) k
      = (match lastWrite l k with
         | some g => some g
         | none =>
           match (some (k1, g1) : Write K C V) with
           | some (k2, g2) => if k2 = k then some g2 else none
           | none => none) from rfl, hl]

theorem lastWrite_cons_none_none (l : List (Write K C V)) (k : K)
    (hl : lastWrite l k = none) : lastWrite ((none : Write K C V) :: l) k = none := by
  rw [show lastWrite ((none : Write K C V) :: l) k
      = (match lastWrite l k with
         | some g => some g
         | none =>
           match (none : Write K C V) with
           | some (k1, g) => if k1 = k then some g else none
           | none => none) from rfl, hl]

theorem lastWrite_mem (l : List (Write K C V)) (k : K) (g : C → V)
    (h : lastWrite l k = some g) : some (k, g) ∈ l := by
  induction l with
  | nil => cases h
  | cons o l ih =>
    cases hl : lastWrite l k with
    | some g2 =>
      rw [lastWrite_cons_found o l k g2 hl] at h
      have hg : g2 = g := Option.some.inj h
      subst hg
      exact List.mem_cons_of_mem _ (ih hl)
    | none =>
      cases o with
      | none =>
        rw [lastWrite_cons_none_none l k hl] at h
        cases h
      | some p =>
        obtain ⟨k1, g1⟩ := p
        rw [lastWrite_cons_none_some k1 g1 l k hl] at h
        by_cases hk : k1 = k
        · rw [if_pos hk] at h
          subst hk
          rw [← Option.some.inj h]
          exact List.mem_cons_self _ _
        · rw [if_neg hk] at h
          cases h

theorem mem_keys_applyRows (carryO : Option V → C) (t : List (K × V))
    (l : List (Write K C V)) (k : K) (h : k ∈ mkeys t) :
    k ∈ mkeys (applyRows carryO t l) := by
  rw [applyRows_keys]
  exact List.mem_append_left _ h

theorem writtenKeys_mem_applyRows (carryO : Option V → C) (t : List (K × V))
    (l : List (Write K C V)) (k : K) (h : k ∈ writtenKeys l) :
    k ∈ mkeys (applyRows carryO t l) := by
  induction l generalizing t with
  | nil => simp [writtenKeys] at h
  | cons o l ih =>
    cases o with
    | none =>
      have h2 : k ∈ writtenKeys l := by simpa [writtenKeys] using h
      rw [show applyRows carryO t (none :: l) = applyRows carryO t l from rfl]
      exact ih t h2
    | some p =>
      obtain ⟨k1, g⟩ := p
      have h2 : k = k1 ∨ k ∈ writtenKeys l := by simpa [writtenKeys] using h
      rw [show applyRows carryO t (some (k1, g) :: l)
          = applyRows carryO (mupsert t k1 (g (carryO (mlookup t k1)))) l from rfl]
      rcases h2 with rfl | h2
      · apply mem_keys_applyRows
        by_cases hk : k ∈ mkeys t
        · rw [mkeys_mupsert_mem _ _ _ hk]
          exact hk
        · rw [mkeys_mupsert_not_mem _ _ _ hk]
          exact List.mem_append_right _ (List.mem_singleton.mpr rfl)
      · exact ih _ h2

theorem applyRows_keys_stable (carryO : Option V → C) (t : List (K × V))
    (l : List (Write K C V)) (h : ∀ k ∈ writtenKeys l, k ∈ mkeys t) :
    mkeys (applyRows carryO t l) = mkeys t := by
  rw [applyRows_keys, newKeys_eq_nil _ _ h, List.append_nil]

theorem applyRows_idem (carryO : Option V → C) (t : List (K × V)) (l : List (Write K C V))
    (hst : CarryStable carryO l) (hnd : NodupKeys t) :
    applyRows carryO (applyRows carryO t l) l = applyRows carryO t l := by
  apply table_ext _ _ (nodupKeys_applyRows _ _ _ (nodupKeys_applyRows _ _ _ hnd))
  · apply applyRows_keys_stable
    intro k hk
    exact writtenKeys_mem_applyRows _ _ _ _ hk
  · intro k
    have hinner := applyRows_lookup carryO t l hst k
    rw [applyRows_lookup _ _ _ hst k]
    cases hlw : lastWrite l k with
    | none => simp [hlw]
    | some g =>
      simp only [hlw] at hinner ⊢
      rw [hinner]
      have hcs := hst (some (k, g)) (lastWrite_mem l k g hlw) k g rfl
        (carryO (mlookup t k))
      rw [hcs]

theorem tableFold_keys (idOf : Row → Option K) (carryO : Option V → C) (mk : Row → C → V)
    (t : List (K × V)) (rows : List Row) :
    mkeys (tableFold idOf carryO mk t rows)
      = mkeys t ++ newKeys (mkeys t) (writesOf idOf mk rows) := by
  rw [tableFold_eq_applyRows, applyRows_keys]

theorem tableFold_nodup (idOf : Row → Option K) (carryO : Option V → C) (mk : Row → C → V)
    (t : List (K × V)) (rows : List Row) (h : NodupKeys t) :
    NodupKeys (tableFold idOf carryO mk t rows) := by
  rw [tableFold_eq_applyRows]
  exact nodupKeys_applyRows _ _ _ h

theorem tableFold_idem (idOf : Row → Option K) (carryO : Option V → C) (mk : Row → C → V)
    (t : List (K × V)) (rows : List Row)
    (hmk : ∀ r c, carryO (some (mk r c)) = c) (hnd : NodupKeys t) :
    tableFold idOf carryO mk (tableFold idOf carryO mk t rows) rows
      = tableFold idOf carryO mk t rows := by
  simp only [tableFold_eq_applyRows]
  exact applyRows_idem _ _ _ (carryStable_writesOf idOf carryO mk rows hmk) hnd

theorem stage_again_keys (idOf : Row → Option K) (carryO : Option V → C) (mk : Row → C → V)
    (rows : List Row) (x B : List (K × V))
    (hkeys : ∀ k ∈ mkeys (tableFold idOf carryO mk x rows), k ∈ mkeys B) :
    mkeys (tableFold idOf carryO mk B rows) = mkeys B := by
  rw [tableFold_eq_applyRows]
  apply applyRows_keys_stable
  intro k hk
  apply hkeys
  rw [tableFold_eq_applyRows]
  exact writtenKeys_mem_applyRows _ _ _ _ hk

theorem carryStable_writesOfE (idOf : Row → Except String (Option K)) (carryO : Option V → C)
    (mkE : Row → Except String (C → V)) (rows : List Row) (ws : List (Write K C V))
    (hmk : ∀ r g, mkE r = .ok g → ∀ c, carryO (some (g c)) = c)
    (h : writesOfE idOf mkE rows = .ok ws) : CarryStable carryO ws := by
  induction rows generalizing ws with
  | nil =>
    rw [show writesOfE idOf mkE ([] : List Row) = .ok [] from rfl] at h
    obtain rfl := Except.ok.inj h
    intro o ho k g hg c
    exact absurd ho (List.not_mem_nil o)
  | cons r rs ih =>
    rw [show writesOfE idOf mkE (r :: rs)
        = (match idOf r with
           | .error e => .error e
           | .ok none => (writesOfE idOf mkE rs).map (fun l => none :: l)
           | .ok (some k) =>
             match mkE r with
             | .error e => .error e
             | .ok g => (writesOfE idOf mkE rs).map (fun l => some (k, g) :: l)) from rfl] at h
    cases hid : idOf r with
    | error e =>
      rw [hid] at h
      cases h
    | ok o0 =>
      rw [hid] at h
      cases o0 with
      | none =>
        cases hrs : writesOfE idOf mkE rs with
        | error e =>
          rw [hrs] at h
          cases h
        | ok l =>
          rw [hrs] at h
          obtain rfl := Except.ok.inj h
          intro o ho k g hg c
          rcases List.mem_cons.mp ho with rfl | ho2
          · cases hg
          · exact ih l hrs o ho2 k g hg c
      | some k1 =>
        cases hmk1 : mkE r with
        | error e =>
          rw [hmk1] at h
          cases h
        | ok g1 =>
          rw [hmk1] at h
          cases hrs : writesOfE idOf mkE rs with
          | error e =>
            rw [hrs] at h
            cases h
          | ok l =>
            rw [hrs] at h
            obtain rfl := Except.ok.inj h
            intro o ho k g hg c
            rcases List.mem_cons.mp ho with rfl | ho2
            · have hkg := Option.some.inj hg
              have hg1 : g1 = g := congrArg Prod.snd hkg
              exact hg1 ▸ hmk r g1 hmk1 c
            · exact ih l hrs o ho2 k g hg c

theorem tableFoldE_ok_shape (idOf : Row → Except String (Option K)) (carryO : Option V → C)
    (mkE : Row → Except String (C → V)) (t : List (K × V)) (rows : List Row)
    (tb : List (K × V)) (h : tableFoldE idOf carryO mkE t rows = .ok tb) :
    ∃ ws, writesOfE idOf mkE rows = .ok ws ∧ tb = applyRows carryO t ws := by
  rw [tableFoldE_eq_applyRows] at h
  cases hws : writesOfE idOf mkE rows with
  | error e =>
    rw [hws] at h
    cases h
  | ok ws =>
    rw [hws] at h
    exact ⟨ws, rfl, (Except.ok.inj h).symm⟩

theorem tableFoldE_replay (idOf : Row → Except String (Option K)) (carryO : Option V → C)
    (mkE : Row → Except String (C → V)) (t : List (K × V)) (rows : List Row)
    (ws : List (Write K C V)) (hws : writesOfE idOf mkE rows = .ok ws)
    (hst : CarryStable carryO ws) (hnd : NodupKeys t) :
    tableFoldE idOf carryO mkE (applyRows carryO t ws) rows
      = .ok (applyRows carryO t ws) := by
  rw [tableFoldE_eq_applyRows, hws]
  show Except.ok (applyRows carryO (applyRows carryO t ws) ws) = _
  rw [applyRows_idem _ _ _ hst hnd]

end ReplayLemmas

theorem modTable_keys {P V : Type} (ps : List (String × P)) (u : String → P → V → V)
    (t : List (String × V)) : mkeys (modTable ps u t) = mkeys t := by
  induction ps generalizing t with
  | nil => rfl
  | cons p ps ih =>
    rw [show modTable (p :: ps) u t = modTable ps u (mmodify p.1 (u p.1 p.2) t) from rfl]
    rw [ih, mkeys_mmodify]

theorem modTable_nodup {P V : Type} (ps : List (String × P)) (u : String → P → V → V)
    (t : List (String × V)) (h : NodupKeys t) : NodupKeys (modTable ps u t) := by
  unfold NodupKeys
  rw [modTable_keys]
  exact h

theorem foldl_preserve {α β : Type} (P : β → Prop) (f : β → α → β)
    (hf : ∀ b a, P b → P (f b a)) (l : List α) (b : β) (hb : P b) : P (l.foldl f b) := by
  induction l generalizing b with
  | nil => exact hb
  | cons a t ih =>
    rw [List.foldl_cons]
    exact ih _ (hf b a hb)

/-! ## Claim C6: the persisted API-availability flag -/

/-- C6 counterexample: for the cell text "non" the ingested indicator's
`api_available` is true (any non-null normalized text is truthy), while
the `_flag` truthy-token test is false — the attribute is not derived via
`parse_flag`. -/
theorem c6_counterexample :
    (mlookup (ingest_indicators Store.empty
        ⟨["ID_indicateurs", "API disponible"], [[Cell.str "i1", Cell.str "non"]]⟩).indicators
      "i001").map IndicatorR.api_available = some true
    ∧ flagOf (Cell.str "non") = false := ⟨rfl, rfl⟩

/-- C6 amended: for every row of the indicators sheet, the persisted
indicator's `api_available` is `bool(normalise_str(cell))` — true iff
the cell normalizes to non-null text (the last row with a given id
wins). -/
theorem c6_amended (s : Store) (df : DataFrame) (k : String) (r : Row)
    (hr : lastRowWith indicatorIdOf (iter_rows df) k = some r) :
    (mlookup (ingest_indicators s df).indicators k).map IndicatorR.api_available
      = some (normalise_str (rowGet r "API disponible")).isSome := by
  have hchar := tableFold_lookup indicatorIdOf indicatorCarry indicatorMk
    s.indicators (iter_rows df) k (fun r c => rfl)
  rw [show (ingest_indicators s df).indicators
      = tableFold indicatorIdOf indicatorCarry indicatorMk s.indicators (iter_rows df)
      from rfl]
  rw [hchar, hr]
  rfl

/-! ## Option and accumulator lemmas for the link builders -/

theorem pyOr_none_left {α : Type} (b : Option α) : pyOr none b = b := rfl

theorem pyOr_some {α : Type} (a : α) (b : Option α) : pyOr (some a) b = some a := rfl

theorem pyOr_none_right {α : Type} (a : Option α) : pyOr a none = a := by
  cases a <;> rfl

theorem pyOr_assoc {α : Type} (a b c : Option α) :
    pyOr (pyOr a b) c = pyOr a (pyOr b c) := by
  cases a <;> rfl

theorem mlookup_append {K V : Type} [DecidableEq K] (a b : List (K × V)) (j : K) :
    mlookup (a ++ b) j = pyOr (mlookup a j) (mlookup b j) := by
  induction a with
  | nil => rfl
  | cons p t ih =>
    by_cases h : p.1 = j <;> simp [mlookup, h, ih, pyOr]

theorem mlookup_setDefault (m : List (String × String)) (k v j : String) :
    mlookup (setDefault m k v) j
      = pyOr (mlookup m j)
          (if j = k then
            (match mlookup m k with
             | some _ => none
             | none => some v)
           else none) := by
  unfold setDefault
  cases hk : mlookup m k with
  | some x =>
    by_cases hj : j = k <;> simp [hj, hk, pyOr_none_right]
  | none =>
    rw [mlookup_append]
    by_cases hj : j = k
    · subst hj
      simp [hk, mlookup]
    · have : ¬ k = j := fun h => hj h.symm
      simp [hj, mlookup, this]

theorem mlookup_addLink (m : List (String × List String)) (k x j : String) :
    mlookup (addLink m k x) j
      = if j = k then
          some (match mlookup m k with
            | some xs => if x ∈ xs then xs else xs ++ [x]
            | none => [x])
        else mlookup m j := by
  induction m with
  | nil =>
    by_cases hj : j = k
    · subst hj
      simp [addLink, mlookup]
    · have : ¬ k = j := fun h => hj h.symm
      simp [addLink, mlookup, hj, this]
  | cons p t ih =>
    by_cases hpk : p.1 = k
    · rw [show addLink (p :: t) k x
          = (p.1, if x ∈ p.2 then p.2 else p.2 ++ [x]) :: t from by
        simp [addLink, hpk]]
      by_cases hj : j = k
      · subst hj
        simp [mlookup, hpk]
      · have : ¬ p.1 = j := by rw [hpk]; exact fun h => hj h.symm
        simp [mlookup, this, hj]
    · rw [show addLink (p :: t) k x = p :: addLink t k x from by simp [addLink, hpk]]
      by_cases hpj : p.1 = j
      · have : ¬ j = k := by rw [← hpj]; exact fun h => hpk h
        simp [mlookup, hpj, this]
      · simp [mlookup, hpj, ih, hpk]

theorem mkeys_addLink (m : List (String × List String)) (k x : String) :
    mkeys (addLink m k x) = if k ∈ mkeys m then mkeys m else mkeys m ++ [k] := by
  induction m with
  | nil => simp [addLink, mkeys_nil, mkeys_cons]
  | cons p t ih =>
    by_cases hpk : p.1 = k
    · rw [show addLink (p :: t) k x
          = (p.1, if x ∈ p.2 then p.2 else p.2 ++ [x]) :: t from by simp [addLink, hpk]]
      simp [mkeys_cons, hpk]
    · rw [show addLink (p :: t) k x = p :: addLink t k x from by simp [addLink, hpk]]
      have : ¬ k = p.1 := fun h => hpk h.symm
      by_cases hkt : k ∈ mkeys t <;> simp [mkeys_cons, ih, hkt, this]

theorem nodupKeys_addLink (m : List (String × List String)) (k x : String)
    (h : NodupKeys m) : NodupKeys (addLink m k x) := by
  unfold NodupKeys
  rw [mkeys_addLink]
  by_cases hk : k ∈ mkeys m
  · rw [if_pos hk]
    exact h
  · rw [if_neg hk, List.nodup_append]
    refine ⟨h, List.nodup_singleton k, ?_⟩
    intro a ha hb
    rw [List.mem_singleton] at hb
    subst hb
    exact hk ha

theorem needLinkStep_none (keys : List String) (a : NeedLinkAcc) (r : Row)
    (h : normalise_indicator_id (rowGet r "ID_Indicateurs") = none) :
    needLinkStep keys a r = a := by
  unfold needLinkStep
  rw [h]

theorem needLinkStep_some (keys : List String) (a : NeedLinkAcc) (r : Row) (ind : String)
    (h : normalise_indicator_id (rowGet r "ID_Indicateurs") = some ind) :
    needLinkStep keys a r
      = if (rowNeeds keys r).isEmpty then a
        else (rowNeeds keys r).foldl
          (needLinkInner ind (pyOr (normalise_str (rowGet r "Type_de_besoins"))
            (normalise_str (rowGet r "Type de besoins")))) a := by
  unfold needLinkStep
  rw [h]

theorem firstCatFor_none (keys : List String) (r : Row) (rs : List Row) (n : String)
    (h : normalise_indicator_id (rowGet r "ID_Indicateurs") = none) :
    firstCatFor keys (r :: rs) n = firstCatFor keys rs n := by
  conv_lhs => unfold firstCatFor
  rw [h]

theorem firstCatFor_some (keys : List String) (r : Row) (rs : List Row) (n : String)
    (ind : String) (h : normalise_indicator_id (rowGet r "ID_Indicateurs") = some ind) :
    firstCatFor keys (r :: rs) n
      = if (rowNeeds keys r).isEmpty then firstCatFor keys rs n
        else
          match pyOr (normalise_str (rowGet r "Type_de_besoins"))
              (normalise_str (rowGet r "Type de besoins")) with
          | some c => if n ∈ rowNeeds keys r then some c else firstCatFor keys rs n
          | none => firstCatFor keys rs n := by
  conv_lhs => unfold firstCatFor
  rw [h]

theorem firstCatFor_some_empty (keys : List String) (r : Row) (rs : List Row) (n : String)
    (ind : String) (h : normalise_indicator_id (rowGet r "ID_Indicateurs") = some ind)
    (hemp : (rowNeeds keys r).isEmpty = true) :
    firstCatFor keys (r :: rs) n = firstCatFor keys rs n := by
  rw [firstCatFor_some keys r rs n ind h, if_pos hemp]

theorem firstCatFor_some_nocat (keys : List String) (r : Row) (rs : List Row) (n : String)
    (ind : String) (h : normalise_indicator_id (rowGet r "ID_Indicateurs") = some ind)
    (hemp : ¬ (rowNeeds keys r).isEmpty = true)
    (hcat : pyOr (normalise_str (rowGet r "Type_de_besoins"))
      (normalise_str (rowGet r "Type de besoins")) = none) :
    firstCatFor keys (r :: rs) n = firstCatFor keys rs n := by
  rw [firstCatFor_some keys r rs n ind h, if_neg hemp, hcat]

theorem firstCatFor_some_somecat (keys : List String) (r : Row) (rs : List Row) (n : String)
    (ind c : String) (h : normalise_indicator_id (rowGet r "ID_Indicateurs") = some ind)
    (hemp : ¬ (rowNeeds keys r).isEmpty = true)
    (hcat : pyOr (normalise_str (rowGet r "Type_de_besoins"))
      (normalise_str (rowGet r "Type de besoins")) = some c) :
    firstCatFor keys (r :: rs) n
      = if n ∈ rowNeeds keys r then some c else firstCatFor keys rs n := by
  rw [firstCatFor_some keys r rs n ind h, if_neg hemp, hcat]

theorem linkedNeed_none (keys : List String) (r : Row) (rs : List Row) (n : String)
    (h : normalise_indicator_id (rowGet r "ID_Indicateurs") = none) :
    linkedNeed keys (r :: rs) n = linkedNeed keys rs n := by
  conv_lhs => unfold linkedNeed
  rw [h]

theorem linkedNeed_some (keys : List String) (r : Row) (rs : List Row) (n : String)
    (ind : String) (h : normalise_indicator_id (rowGet r "ID_Indicateurs") = some ind) :
    linkedNeed keys (r :: rs) n
      = (decide (n ∈ rowNeeds keys r) || linkedNeed keys rs n) := by
  conv_lhs => unfold linkedNeed
  rw [h]

theorem inner_needCats (ind : String) (cat : Option String) (ns : List String)
    (a : NeedLinkAcc) (n : String) :
    mlookup ((ns.foldl (needLinkInner ind cat) a).needCats) n
      = pyOr (mlookup a.needCats n)
          (match cat with
           | some c => if n ∈ ns then some c else none
           | none => none) := by
  induction ns generalizing a with
  | nil => cases cat <;> simp [pyOr_none_right]
  | cons m ns ih =>
    rw [List.foldl_cons, ih]
    cases cat with
    | none => rfl
    | some c =>
      show pyOr (mlookup (setDefault a.needCats m c) n) _ = _
      rw [mlookup_setDefault]
      by_cases hnm : n = m
      · subst hnm
        cases hl : mlookup a.needCats n with
        | some x => simp [pyOr]
        | none => simp [pyOr, hl]
      · simp [hnm, pyOr_none_right, List.mem_cons]

theorem inner_need2inds_lookup (ind : String) (cat : Option String) (ns : List String)
    (a : NeedLinkAcc) (n : String) :
    (mlookup ((ns.foldl (needLinkInner ind cat) a).need2inds) n).isSome
      = ((mlookup a.need2inds n).isSome || decide (n ∈ ns)) := by
  induction ns generalizing a with
  | nil => simp
  | cons m ns ih =>
    rw [List.foldl_cons, ih]
    show ((mlookup (addLink a.need2inds m ind) n).isSome || _) = _
    rw [mlookup_addLink]
    by_cases hnm : n = m
    · subst hnm
      simp
    · simp [hnm, List.mem_cons]

theorem rows_needCats (keys : List String) (rows : List Row) (a : NeedLinkAcc) (n : String) :
    mlookup ((rows.foldl (needLinkStep keys) a).needCats) n
      = pyOr (mlookup a.needCats n) (firstCatFor keys rows n) := by
  induction rows generalizing a with
  | nil => simp [firstCatFor, pyOr_none_right]
  | cons r rs ih =>
    rw [List.foldl_cons, ih]
    cases hid : normalise_indicator_id (rowGet r "ID_Indicateurs") with
    | none => rw [needLinkStep_none keys a r hid, firstCatFor_none keys r rs n hid]
    | some ind =>
      rw [needLinkStep_some keys a r ind hid, firstCatFor_some keys r rs n ind hid]
      by_cases hemp : (rowNeeds keys r).isEmpty
      · rw [if_pos hemp, if_pos hemp]
      · rw [if_neg hemp, if_neg hemp, inner_needCats]
        cases hcat : pyOr (normalise_str (rowGet r "Type_de_besoins"))
            (normalise_str (rowGet r "Type de besoins")) with
        | none => simp [pyOr_assoc, pyOr_none_left]
        | some c =>
          by_cases hn : n ∈ rowNeeds keys r
          · simp [hn, pyOr_assoc, pyOr_some]
          · simp [hn, pyOr_assoc, pyOr_none_left]

theorem rows_need2inds_isSome (keys : List String) (rows : List Row)
    (a : NeedLinkAcc) (n : String) :
    (mlookup ((rows.foldl (needLinkStep keys) a).need2inds) n).isSome
      = ((mlookup a.need2inds n).isSome || linkedNeed keys rows n) := by
  induction rows generalizing a with
  | nil => simp [linkedNeed]
  | cons r rs ih =>
    rw [List.foldl_cons, ih]
    cases hid : normalise_indicator_id (rowGet r "ID_Indicateurs") with
    | none => rw [needLinkStep_none keys a r hid, linkedNeed_none keys r rs n hid]
    | some ind =>
      rw [needLinkStep_some keys a r ind hid, linkedNeed_some keys r rs n ind hid]
      by_cases hemp : (rowNeeds keys r).isEmpty
      · have hn : decide (n ∈ rowNeeds keys r) = false := by
          rw [List.isEmpty_iff] at hemp
          simp [hemp]
        rw [if_pos hemp, hn]
        simp
      · rw [if_neg hemp, inner_need2inds_lookup]
        rw [Bool.or_assoc, Bool.or_comm (decide (n ∈ rowNeeds keys r)), ← Bool.or_assoc]

theorem firstCatFor_linked (keys : List String) (rows : List Row) (n : String) (c : String)
    (h : firstCatFor keys rows n = some c) : linkedNeed keys rows n = true := by
  induction rows with
  | nil => cases h
  | cons r rs ih =>
    cases hid : normalise_indicator_id (rowGet r "ID_Indicateurs") with
    | none =>
      rw [firstCatFor_none keys r rs n hid] at h
      rw [linkedNeed_none keys r rs n hid]
      exact ih h
    | some ind =>
      rw [linkedNeed_some keys r rs n ind hid]
      by_cases hemp : (rowNeeds keys r).isEmpty
      · rw [firstCatFor_some_empty keys r rs n ind hid hemp] at h
        simp [ih h]
      · cases hcat : pyOr (normalise_str (rowGet r "Type_de_besoins"))
            (normalise_str (rowGet r "Type de besoins")) with
        | none =>
          rw [firstCatFor_some_nocat keys r rs n ind hid hemp hcat] at h
          simp [ih h]
        | some c2 =>
          rw [firstCatFor_some_somecat keys r rs n ind c2 hid hemp hcat] at h
          by_cases hn : n ∈ rowNeeds keys r
          · simp [hn]
          · rw [if_neg hn] at h
            simp [ih h]

theorem needLinkInner_nodup (ind : String) (cat : Option String) (ns : List String)
    (a : NeedLinkAcc) (h1 : NodupKeys a.ind2needs) (h2 : NodupKeys a.need2inds) :
    NodupKeys (ns.foldl (needLinkInner ind cat) a).ind2needs
      ∧ NodupKeys (ns.foldl (needLinkInner ind cat) a).need2inds := by
  induction ns generalizing a with
  | nil => exact ⟨h1, h2⟩
  | cons m ns ih =>
    rw [List.foldl_cons]
    exact ih _ (nodupKeys_addLink _ _ _ h1) (nodupKeys_addLink _ _ _ h2)

theorem needLinkAcc_nodup (keys : List String) (rows : List Row) :
    NodupKeys (needLinkAcc keys rows).ind2needs
      ∧ NodupKeys (needLinkAcc keys rows).need2inds := by
  suffices h : ∀ a : NeedLinkAcc, NodupKeys a.ind2needs → NodupKeys a.need2inds →
      NodupKeys (rows.foldl (needLinkStep keys) a).ind2needs
        ∧ NodupKeys (rows.foldl (needLinkStep keys) a).need2inds by
    exact h ⟨[], [], []⟩ List.nodup_nil List.nodup_nil
  induction rows with
  | nil => exact fun a h1 h2 => ⟨h1, h2⟩
  | cons r rs ih =>
    intro a h1 h2
    rw [List.foldl_cons]
    cases hid : normalise_indicator_id (rowGet r "ID_Indicateurs") with
    | none =>
      rw [needLinkStep_none keys a r hid]
      exact ih a h1 h2
    | some ind =>
      rw [needLinkStep_some keys a r ind hid]
      by_cases hemp : (rowNeeds keys r).isEmpty
      · rw [if_pos hemp]
        exact ih a h1 h2
      · rw [if_neg hemp]
        have := needLinkInner_nodup ind
          (pyOr (normalise_str (rowGet r "Type_de_besoins"))
            (normalise_str (rowGet r "Type de besoins"))) (rowNeeds keys r) a h1 h2
        exact ih _ this.1 this.2

/-! ## Store component fold lemmas -/

theorem store_foldl_needs {α : Type} (ps : List α)
    (g : α → List (String × NeedR) → List (String × NeedR)) (s : Store) :
    ps.foldl (fun st p => { st with needs := g p st.needs }) s
      = { s with needs := ps.foldl (fun t p => g p t) s.needs } := by
  induction ps generalizing s with
  | nil => rfl
  | cons p ps ih =>
    rw [List.foldl_cons, ih]
    rfl

theorem store_foldl_needs_proj {α : Type} (ps : List α)
    (g : α → List (String × NeedR) → List (String × NeedR)) (s : Store) :
    (ps.foldl (fun st p => { st with needs := g p st.needs }) s).needs
      = ps.foldl (fun t p => g p t) s.needs := by
  rw [store_foldl_needs]

theorem store_foldl_indicators {α : Type} (ps : List α)
    (g : α → List (String × IndicatorR) → List (String × IndicatorR)) (s : Store) :
    ps.foldl (fun st p => { st with indicators := g p st.indicators }) s
      = { s with indicators := ps.foldl (fun t p => g p t) s.indicators } := by
  induction ps generalizing s with
  | nil => rfl
  | cons p ps ih =>
    rw [List.foldl_cons, ih]
    rfl

theorem store_foldl_indicators_proj {α : Type} (ps : List α)
    (g : α → List (String × IndicatorR) → List (String × IndicatorR)) (s : Store) :
    (ps.foldl (fun st p => { st with indicators := g p st.indicators }) s).indicators
      = ps.foldl (fun t p => g p t) s.indicators := by
  rw [store_foldl_indicators]

theorem store_foldl_objectives {α : Type} (ps : List α)
    (g : α → List (String × ObjectiveR) → List (String × ObjectiveR)) (s : Store) :
    ps.foldl (fun st p => { st with objectives := g p st.objectives }) s
      = { s with objectives := ps.foldl (fun t p => g p t) s.objectives } := by
  induction ps generalizing s with
  | nil => rfl
  | cons p ps ih =>
    rw [List.foldl_cons, ih]
    rfl

theorem store_foldl_objectives_proj {α : Type} (ps : List α)
    (g : α → List (String × ObjectiveR) → List (String × ObjectiveR)) (s : Store) :
    (ps.foldl (fun st p => { st with objectives := g p st.objectives }) s).objectives
      = ps.foldl (fun t p => g p t) s.objectives := by
  rw [store_foldl_objectives]

theorem store_foldl_types {α : Type} (ps : List α)
    (g : α → List (String × IndicatorTypeR) → List (String × IndicatorTypeR)) (s : Store) :
    ps.foldl (fun st p => { st with indicator_types := g p st.indicator_types }) s
      = { s with indicator_types := ps.foldl (fun t p => g p t) s.indicator_types } := by
  induction ps generalizing s with
  | nil => rfl
  | cons p ps ih =>
    rw [List.foldl_cons, ih]
    rfl

theorem store_foldl_types_proj {α : Type} (ps : List α)
    (g : α → List (String × IndicatorTypeR) → List (String × IndicatorTypeR)) (s : Store) :
    (ps.foldl (fun st p => { st with indicator_types := g p st.indicator_types }) s).indicator_types
      = ps.foldl (fun t p => g p t) s.indicator_types := by
  rw [store_foldl_types]

/-- Lookup after the per-entry write-back fold: each accumulator entry
updates its own row once (keys are distinct). -/
theorem foldl_mmodify_lookup {P V : Type} (ps : List (String × P))
    (hnd : NodupKeys ps) (u : String → P → V → V)
    (t : List (String × V)) (n : String) :
    mlookup (ps.foldl (fun t p => mmodify p.1 (u p.1 p.2) t) t) n
      = match mlookup ps n with
        | some pl => (mlookup t n).map (u n pl)
        | none => mlookup t n := by
  induction ps generalizing t with
  | nil => rfl
  | cons p ps ih =>
    have hnd2 : NodupKeys ps := (List.nodup_cons.mp hnd).2
    have hp : ¬ p.1 ∈ mkeys ps := by
      simpa [mkeys] using (List.nodup_cons.mp hnd).1
    rw [List.foldl_cons, ih hnd2]
    by_cases hn : p.1 = n
    · subst hn
      rw [mlookup_not_mem_keys ps p.1 hp]
      simp [mlookup, mlookup_mmodify_self]
    · rw [show mlookup (p :: ps) n = mlookup ps n from by simp [mlookup, hn]]
      rw [mlookup_mmodify_ne _ _ _ _ hn]

theorem modTable_lookup {P V : Type} (ps : List (String × P)) (u : String → P → V → V)
    (t : List (String × V)) (n : String) (hnd : NodupKeys ps) :
    mlookup (modTable ps u t) n
      = match mlookup ps n with
        | some p => (mlookup t n).map (u n p)
        | none => mlookup t n :=
  foldl_mmodify_lookup ps hnd u t n

theorem addPair_nodup (a : LinkAcc) (i x : String)
    (h1 : NodupKeys a.fwd) (h2 : NodupKeys a.rev) :
    NodupKeys (addPair a i x).fwd ∧ NodupKeys (addPair a i x).rev :=
  ⟨nodupKeys_addLink _ _ _ h1, nodupKeys_addLink _ _ _ h2⟩

theorem objLinkAcc_nodup (keys : List String) (rows : List Row) :
    NodupKeys (objLinkAcc keys rows).fwd ∧ NodupKeys (objLinkAcc keys rows).rev := by
  unfold objLinkAcc
  apply foldl_preserve (fun a : LinkAcc => NodupKeys a.fwd ∧ NodupKeys a.rev)
  · intro a r ha
    unfold objLinkStep
    cases normalise_indicator_id (rowGet r "ID_Indicateurs") with
    | none => exact ha
    | some ind =>
      apply foldl_preserve (fun a : LinkAcc => NodupKeys a.fwd ∧ NodupKeys a.rev)
      · intro b p hb
        by_cases hc : p.1 ∈ keys ∧ flagOf p.2
        · rw [if_pos hc]
          exact addPair_nodup b ind p.1 hb.1 hb.2
        · rw [if_neg hc]
          exact hb
      · exact ha
  · exact ⟨List.nodup_nil, List.nodup_nil⟩

theorem typeLinkAcc_nodup (keys : List String) (rows : List Row) :
    NodupKeys (typeLinkAcc keys rows).fwd ∧ NodupKeys (typeLinkAcc keys rows).rev := by
  unfold typeLinkAcc
  apply foldl_preserve (fun a : LinkAcc => NodupKeys a.fwd ∧ NodupKeys a.rev)
  · intro a r ha
    unfold typeLinkStep
    cases normalise_indicator_id (rowGet r "ID_indicateurs") with
    | none => exact ha
    | some ind =>
      apply foldl_preserve (fun a : LinkAcc => NodupKeys a.fwd ∧ NodupKeys a.rev)
      · intro b p hb
        by_cases hc : p.2 ∧ p.1 ∈ keys
        · rw [if_pos hc]
          exact addPair_nodup b ind p.1 hb.1 hb.2
        · rw [if_neg hc]
          exact hb
      · exact ha
  · exact ⟨List.nodup_nil, List.nodup_nil⟩

/-! ## Per-sheet store shapes -/

theorem applySheet_needs (dfo : Option DataFrame) (s : Store) :
    applySheet ingest_needs dfo s
      = { s with needs := tableFold needIdOf needCarry needMk s.needs (sheetRows dfo) } := by
  cases dfo <;> rfl

theorem applySheet_objectives (dfo : Option DataFrame) (s : Store) :
    applySheet ingest_objectives dfo s
      = { s with objectives :=
          tableFold objectiveIdOf objectiveCarry objectiveMk s.objectives (sheetRows dfo) } := by
  cases dfo <;> rfl

theorem applySheet_types (dfo : Option DataFrame) (s : Store) :
    applySheet ingest_indicator_types dfo s
      = { s with indicator_types :=
          tableFold typeIdOf typeCarry typeMk s.indicator_types (sheetRows dfo) } := by
  cases dfo <;> rfl

theorem applySheet_indicators (dfo : Option DataFrame) (s : Store) :
    applySheet ingest_indicators dfo s
      = { s with indicators :=
          tableFold indicatorIdOf indicatorCarry indicatorMk s.indicators (sheetRows dfo) } := by
  cases dfo <;> rfl

theorem applySheet_needLinks (dfo : Option DataFrame) (s : Store) :
    applySheet ingest_indicator_need_links dfo s
      = { s with
          needs := modTable (needLinkAcc (mkeys s.needs) (sheetRows dfo)).need2inds
            (needUpd (needLinkAcc (mkeys s.needs) (sheetRows dfo)).needCats) s.needs
          indicators := modTable (needLinkAcc (mkeys s.needs) (sheetRows dfo)).ind2needs
            indNeedUpd s.indicators } := by
  cases dfo with
  | none => rfl
  | some df =>
    show needWriteBackNeed (needLinkAcc (mkeys s.needs) (iter_rows df))
        (needWriteBackInd (needLinkAcc (mkeys s.needs) (iter_rows df)) s) = _
    unfold needWriteBackInd needWriteBackNeed
    rw [store_foldl_indicators, store_foldl_needs]
    rfl

theorem applySheet_objLinks (dfo : Option DataFrame) (s : Store) :
    applySheet ingest_indicator_objective_links dfo s
      = { s with
          objectives := modTable (objLinkAcc (mkeys s.objectives) (sheetRows dfo)).rev
            objUpd s.objectives
          indicators := modTable (objLinkAcc (mkeys s.objectives) (sheetRows dfo)).fwd
            indObjUpd s.indicators } := by
  cases dfo with
  | none => rfl
  | some df =>
    show objWriteBackObj (objLinkAcc (mkeys s.objectives) (iter_rows df))
        (objWriteBackInd (objLinkAcc (mkeys s.objectives) (iter_rows df)) s) = _
    unfold objWriteBackInd objWriteBackObj
    rw [store_foldl_indicators, store_foldl_objectives]
    rfl

theorem applySheet_typeLinks (dfo : Option DataFrame) (s : Store) :
    applySheet ingest_indicator_type_links dfo s
      = { s with
          indicator_types := modTable (typeLinkAcc (mkeys s.indicator_types) (sheetRows dfo)).rev
            typeUpd s.indicator_types
          indicators := modTable (typeLinkAcc (mkeys s.indicator_types) (sheetRows dfo)).fwd
            indTypeUpd s.indicators } := by
  cases dfo with
  | none => rfl
  | some df =>
    show typeWriteBackType (typeLinkAcc (mkeys s.indicator_types) (iter_rows df))
        (typeWriteBackInd (typeLinkAcc (mkeys s.indicator_types) (iter_rows df)) s) = _
    unfold typeWriteBackInd typeWriteBackType
    rw [store_foldl_indicators, store_foldl_types]
    rfl

/-- The seven pure sheets of one run, assembled: each of the four entity
tables ends as its staged fold followed by its link write-back, and the
indicator table additionally carries the three link write-backs. -/
theorem pure7_shape (wb : Workbook) (s : Store) :
    applySheet ingest_indicator_type_links wb.corr_types
      (applySheet ingest_indicator_objective_links wb.corr_objectifs
        (applySheet ingest_indicator_need_links wb.corr_besoins
          (applySheet ingest_indicators wb.indicateurs_sources
            (applySheet ingest_indicator_types wb.type_indicateurs
              (applySheet ingest_objectives wb.objectifs
                (applySheet ingest_needs wb.besoins s))))))
      = { s with
          needs := modTable (needLinkAcc (mkeys (tableFold needIdOf needCarry needMk s.needs
              (sheetRows wb.besoins))) (sheetRows wb.corr_besoins)).need2inds
            (needUpd (needLinkAcc (mkeys (tableFold needIdOf needCarry needMk s.needs
              (sheetRows wb.besoins))) (sheetRows wb.corr_besoins)).needCats)
            (tableFold needIdOf needCarry needMk s.needs (sheetRows wb.besoins))
          objectives := modTable (objLinkAcc (mkeys (tableFold objectiveIdOf objectiveCarry
              objectiveMk s.objectives (sheetRows wb.objectifs))) (sheetRows wb.corr_objectifs)).rev
            objUpd (tableFold objectiveIdOf objectiveCarry objectiveMk s.objectives
              (sheetRows wb.objectifs))
          indicator_types := modTable (typeLinkAcc (mkeys (tableFold typeIdOf typeCarry typeMk
              s.indicator_types (sheetRows wb.type_indicateurs))) (sheetRows wb.corr_types)).rev
            typeUpd (tableFold typeIdOf typeCarry typeMk s.indicator_types
              (sheetRows wb.type_indicateurs))
          indicators := modTable (typeLinkAcc (mkeys (tableFold typeIdOf typeCarry typeMk
              s.indicator_types (sheetRows wb.type_indicateurs))) (sheetRows wb.corr_types)).fwd
            indTypeUpd
            (modTable (objLinkAcc (mkeys (tableFold objectiveIdOf objectiveCarry objectiveMk
                s.objectives (sheetRows wb.objectifs))) (sheetRows wb.corr_objectifs)).fwd
              indObjUpd
              (modTable (needLinkAcc (mkeys (tableFold needIdOf needCarry needMk s.needs
                  (sheetRows wb.besoins))) (sheetRows wb.corr_besoins)).ind2needs
                indNeedUpd
                (tableFold indicatorIdOf indicatorCarry indicatorMk s.indicators
                  (sheetRows wb.indicateurs_sources)))) } := by
  rw [applySheet_needs, applySheet_objectives, applySheet_types, applySheet_indicators,
    applySheet_needLinks, applySheet_objLinks, applySheet_typeLinks]

/-! ## Second-run convergence of the entity tables -/

theorem needUpd_idem (cats : List (String × String)) (k : String) (xs : List String)
    (v : NeedR) : needUpd cats k xs (needUpd cats k xs v) = needUpd cats k xs v := by
  unfold needUpd
  cases mlookup cats k <;> rfl

theorem needUpd_needMk (cats : List (String × String)) (k : String) (xs : List String)
    (r : Row) (c c2 : List String) :
    needUpd cats k xs (needMk r c) = needUpd cats k xs (needMk r c2) := by
  unfold needUpd needMk
  cases mlookup cats k <;> rfl

theorem needs_composite (rows_b rows_c : List Row) (x A B A2 : List (String × NeedR))
    (hnd : NodupKeys x)
    (hA : A = tableFold needIdOf needCarry needMk x rows_b)
    (hB : B = modTable (needLinkAcc (mkeys A) rows_c).need2inds
        (needUpd (needLinkAcc (mkeys A) rows_c).needCats) A)
    (hA2 : A2 = tableFold needIdOf needCarry needMk B rows_b) :
    modTable (needLinkAcc (mkeys A2) rows_c).need2inds
      (needUpd (needLinkAcc (mkeys A2) rows_c).needCats) A2 = B := by
  have hmk : ∀ (r : Row) (c : List String), needCarry (some (needMk r c)) = c :=
    fun r c => rfl
  have hndA : NodupKeys A := by
    rw [hA]
    exact tableFold_nodup _ _ _ _ _ hnd
  have hndB : NodupKeys B := by
    rw [hB]
    exact modTable_nodup _ _ _ hndA
  have hndA2 : NodupKeys A2 := by
    rw [hA2]
    exact tableFold_nodup _ _ _ _ _ hndB
  have hkBA : mkeys B = mkeys A := by
    rw [hB]
    exact modTable_keys _ _ _
  have hkA2 : mkeys A2 = mkeys B := by
    rw [hA2]
    apply stage_again_keys needIdOf needCarry needMk rows_b x B
    intro k hk
    rw [← hA] at hk
    rw [hkBA]
    exact hk
  have hACC : needLinkAcc (mkeys A2) rows_c = needLinkAcc (mkeys A) rows_c := by
    rw [hkA2, hkBA]
  rw [hACC]
  have hndacc := (needLinkAcc_nodup (mkeys A) rows_c).2
  apply table_ext _ _ (modTable_nodup _ _ _ hndA2)
  · rw [modTable_keys, hkA2]
  · intro n
    rw [modTable_lookup _ _ _ n hndacc]
    have hBl := modTable_lookup (needLinkAcc (mkeys A) rows_c).need2inds
      (needUpd (needLinkAcc (mkeys A) rows_c).needCats) A n hndacc
    rw [← hB] at hBl
    have hA2l := tableFold_lookup needIdOf needCarry needMk B rows_b n hmk
    rw [← hA2] at hA2l
    have hAl := tableFold_lookup needIdOf needCarry needMk x rows_b n hmk
    rw [← hA] at hAl
    cases hacc : mlookup (needLinkAcc (mkeys A) rows_c).need2inds n <;>
      simp only [hacc] at hBl ⊢ <;>
      cases hlr : lastRowWith needIdOf rows_b n <;>
      simp only [hlr] at hA2l hAl <;>
      rw [hA2l, hBl, hAl] <;>
      cases mlookup x n <;>
      first
        | rfl
        | exact congrArg some (needUpd_idem _ _ _ _)
        | exact congrArg some (needUpd_needMk _ _ _ _ _ _)

theorem objs_composite (rows_b rows_c : List Row) (x A B A2 : List (String × ObjectiveR))
    (hnd : NodupKeys x)
    (hA : A = tableFold objectiveIdOf objectiveCarry objectiveMk x rows_b)
    (hB : B = modTable (objLinkAcc (mkeys A) rows_c).rev objUpd A)
    (hA2 : A2 = tableFold objectiveIdOf objectiveCarry objectiveMk B rows_b) :
    modTable (objLinkAcc (mkeys A2) rows_c).rev objUpd A2 = B := by
  have hmk : ∀ (r : Row) (c : List String), objectiveCarry (some (objectiveMk r c)) = c :=
    fun r c => rfl
  have hndA : NodupKeys A := by
    rw [hA]
    exact tableFold_nodup _ _ _ _ _ hnd
  have hndB : NodupKeys B := by
    rw [hB]
    exact modTable_nodup _ _ _ hndA
  have hndA2 : NodupKeys A2 := by
    rw [hA2]
    exact tableFold_nodup _ _ _ _ _ hndB
  have hkBA : mkeys B = mkeys A := by
    rw [hB]
    exact modTable_keys _ _ _
  have hkA2 : mkeys A2 = mkeys B := by
    rw [hA2]
    apply stage_again_keys objectiveIdOf objectiveCarry objectiveMk rows_b x B
    intro k hk
    rw [← hA] at hk
    rw [hkBA]
    exact hk
  have hACC : objLinkAcc (mkeys A2) rows_c = objLinkAcc (mkeys A) rows_c := by
    rw [hkA2, hkBA]
  rw [hACC]
  have hndacc := (objLinkAcc_nodup (mkeys A) rows_c).2
  apply table_ext _ _ (modTable_nodup _ _ _ hndA2)
  · rw [modTable_keys, hkA2]
  · intro n
    rw [modTable_lookup _ _ _ n hndacc]
    have hBl := modTable_lookup (objLinkAcc (mkeys A) rows_c).rev objUpd A n hndacc
    rw [← hB] at hBl
    have hA2l := tableFold_lookup objectiveIdOf objectiveCarry objectiveMk B rows_b n hmk
    rw [← hA2] at hA2l
    have hAl := tableFold_lookup objectiveIdOf objectiveCarry objectiveMk x rows_b n hmk
    rw [← hA] at hAl
    cases hacc : mlookup (objLinkAcc (mkeys A) rows_c).rev n <;>
      simp only [hacc] at hBl ⊢ <;>
      cases hlr : lastRowWith objectiveIdOf rows_b n <;>
      simp only [hlr] at hA2l hAl <;>
      rw [hA2l, hBl, hAl] <;>
      cases mlookup x n <;>
      rfl

theorem types_composite (rows_b rows_c : List Row)
    (x A B A2 : List (String × IndicatorTypeR)) (hnd : NodupKeys x)
    (hA : A = tableFold typeIdOf typeCarry typeMk x rows_b)
    (hB : B = modTable (typeLinkAcc (mkeys A) rows_c).rev typeUpd A)
    (hA2 : A2 = tableFold typeIdOf typeCarry typeMk B rows_b) :
    modTable (typeLinkAcc (mkeys A2) rows_c).rev typeUpd A2 = B := by
  have hmk : ∀ (r : Row) (c : List String), typeCarry (some (typeMk r c)) = c :=
    fun r c => rfl
  have hndA : NodupKeys A := by
    rw [hA]
    exact tableFold_nodup _ _ _ _ _ hnd
  have hndB : NodupKeys B := by
    rw [hB]
    exact modTable_nodup _ _ _ hndA
  have hndA2 : NodupKeys A2 := by
    rw [hA2]
    exact tableFold_nodup _ _ _ _ _ hndB
  have hkBA : mkeys B = mkeys A := by
    rw [hB]
    exact modTable_keys _ _ _
  have hkA2 : mkeys A2 = mkeys B := by
    rw [hA2]
    apply stage_again_keys typeIdOf typeCarry typeMk rows_b x B
    intro k hk
    rw [← hA] at hk
    rw [hkBA]
    exact hk
  have hACC : typeLinkAcc (mkeys A2) rows_c = typeLinkAcc (mkeys A) rows_c := by
    rw [hkA2, hkBA]
  rw [hACC]
  have hndacc := (typeLinkAcc_nodup (mkeys A) rows_c).2
  apply table_ext _ _ (modTable_nodup _ _ _ hndA2)
  · rw [modTable_keys, hkA2]
  · intro n
    rw [modTable_lookup _ _ _ n hndacc]
    have hBl := modTable_lookup (typeLinkAcc (mkeys A) rows_c).rev typeUpd A n hndacc
    rw [← hB] at hBl
    have hA2l := tableFold_lookup typeIdOf typeCarry typeMk B rows_b n hmk
    rw [← hA2] at hA2l
    have hAl := tableFold_lookup typeIdOf typeCarry typeMk x rows_b n hmk
    rw [← hA] at hAl
    cases hacc : mlookup (typeLinkAcc (mkeys A) rows_c).rev n <;>
      simp only [hacc] at hBl ⊢ <;>
      cases hlr : lastRowWith typeIdOf rows_b n <;>
      simp only [hlr] at hA2l hAl <;>
      rw [hA2l, hBl, hAl] <;>
      cases mlookup x n <;>
      rfl

theorem inds_composite (rows_i cb co ct : List Row) (nk okk tk : List String)
    (x A M5 M6 B A2 M5x M6x : List (String × IndicatorR)) (hnd : NodupKeys x)
    (hA : A = tableFold indicatorIdOf indicatorCarry indicatorMk x rows_i)
    (hM5 : M5 = modTable (needLinkAcc nk cb).ind2needs indNeedUpd A)
    (hM6 : M6 = modTable (objLinkAcc okk co).fwd indObjUpd M5)
    (hB : B = modTable (typeLinkAcc tk ct).fwd indTypeUpd M6)
    (hA2 : A2 = tableFold indicatorIdOf indicatorCarry indicatorMk B rows_i)
    (hM5x : M5x = modTable (needLinkAcc nk cb).ind2needs indNeedUpd A2)
    (hM6x : M6x = modTable (objLinkAcc okk co).fwd indObjUpd M5x) :
    modTable (typeLinkAcc tk ct).fwd indTypeUpd M6x = B := by
  have hmk : ∀ (r : Row) (c : IndicatorCarry), indicatorCarry (some (indicatorMk r c)) = c :=
    fun r c => rfl
  have hndacc5 := (needLinkAcc_nodup nk cb).1
  have hndacc6 := (objLinkAcc_nodup okk co).1
  have hndacc7 := (typeLinkAcc_nodup tk ct).1
  have hndA : NodupKeys A := by
    rw [hA]
    exact tableFold_nodup _ _ _ _ _ hnd
  have hndM5 : NodupKeys M5 := by
    rw [hM5]
    exact modTable_nodup _ _ _ hndA
  have hndM6 : NodupKeys M6 := by
    rw [hM6]
    exact modTable_nodup _ _ _ hndM5
  have hndB : NodupKeys B := by
    rw [hB]
    exact modTable_nodup _ _ _ hndM6
  have hndA2 : NodupKeys A2 := by
    rw [hA2]
    exact tableFold_nodup _ _ _ _ _ hndB
  have hndM5x : NodupKeys M5x := by
    rw [hM5x]
    exact modTable_nodup _ _ _ hndA2
  have hndM6x : NodupKeys M6x := by
    rw [hM6x]
    exact modTable_nodup _ _ _ hndM5x
  have hkBA : mkeys B = mkeys A := by
    rw [hB, hM6, hM5, modTable_keys, modTable_keys, modTable_keys]
  have hkA2 : mkeys A2 = mkeys B := by
    rw [hA2]
    apply stage_again_keys indicatorIdOf indicatorCarry indicatorMk rows_i x B
    intro k hk
    rw [← hA] at hk
    rw [hkBA]
    exact hk
  have hkM6x : mkeys M6x = mkeys A2 := by
    rw [hM6x, hM5x, modTable_keys, modTable_keys]
  apply table_ext _ _ (modTable_nodup _ _ _ hndM6x)
  · rw [modTable_keys, hkM6x, hkA2]
  · intro n
    rw [modTable_lookup _ _ _ n hndacc7]
    have hM5l := modTable_lookup (needLinkAcc nk cb).ind2needs indNeedUpd A n hndacc5
    rw [← hM5] at hM5l
    have hM6l := modTable_lookup (objLinkAcc okk co).fwd indObjUpd M5 n hndacc6
    rw [← hM6] at hM6l
    have hBl := modTable_lookup (typeLinkAcc tk ct).fwd indTypeUpd M6 n hndacc7
    rw [← hB] at hBl
    have hM5xl := modTable_lookup (needLinkAcc nk cb).ind2needs indNeedUpd A2 n hndacc5
    rw [← hM5x] at hM5xl
    have hM6xl := modTable_lookup (objLinkAcc okk co).fwd indObjUpd M5x n hndacc6
    rw [← hM6x] at hM6xl
    have hA2l := tableFold_lookup indicatorIdOf indicatorCarry indicatorMk B rows_i n hmk
    rw [← hA2] at hA2l
    have hAl := tableFold_lookup indicatorIdOf indicatorCarry indicatorMk x rows_i n hmk
    rw [← hA] at hAl
    cases hacc5 : mlookup (needLinkAcc nk cb).ind2needs n <;>
      simp only [hacc5] at hM5l hM5xl <;>
      cases hacc6 : mlookup (objLinkAcc okk co).fwd n <;>
      simp only [hacc6] at hM6l hM6xl <;>
      cases hacc7 : mlookup (typeLinkAcc tk ct).fwd n <;>
      simp only [hacc7] at hBl ⊢ <;>
      cases hlr : lastRowWith indicatorIdOf rows_i n <;>
      simp only [hlr] at hA2l hAl <;>
      rw [hM6xl, hM5xl, hA2l, hBl, hM6l, hM5l, hAl] <;>
      cases mlookup x n <;>
      rfl

/-! ## Claim C7: need category from the link sheet -/

/-- C7 counterexample: a need whose category is already set ("A") has it
overwritten by the link sheet's category ("B") — the write is not guarded
by the category being unknown. -/
theorem c7_counterexample :
    (mlookup (ingest_indicator_need_links
        { Store.empty with needs := [("b1", ⟨"Besoin un", some "A", none, []⟩)] }
        ⟨["ID_Indicateurs", "ID_Besoin", "Type_de_besoins"],
          [[Cell.str "i1", Cell.str "b1", Cell.str "B"]]⟩).needs
      "b1").map NeedR.category = some (some "B") := rfl

theorem needWriteBackInd_needs (acc : NeedLinkAcc) (s : Store) :
    (needWriteBackInd acc s).needs = s.needs := by
  unfold needWriteBackInd
  rw [store_foldl_indicators]

theorem needWriteBackNeed_lookup (acc : NeedLinkAcc) (s : Store)
    (hnd : NodupKeys acc.need2inds) (n : String) :
    mlookup (needWriteBackNeed acc s).needs n
      = match mlookup acc.need2inds n with
        | some xs => (mlookup s.needs n).map (fun nd =>
            { nd with
              indicator_ids := sortedStr xs
              category :=
                match mlookup acc.needCats n with
                | some c => some c
                | none => nd.category })
        | none => mlookup s.needs n := by
  have hfold := foldl_mmodify_lookup acc.need2inds hnd
    (fun k xs nd =>
      { nd with
        indicator_ids := sortedStr xs
        category :=
          match mlookup acc.needCats k with
          | some c => some c
          | none => nd.category }) s.needs n
  rw [show (needWriteBackNeed acc s).needs
      = acc.need2inds.foldl (fun t p =>
          mmodify p.1
            (fun nd =>
              { nd with
                indicator_ids := sortedStr p.2
                category :=
                  match mlookup acc.needCats p.1 with
                  | some c => some c
                  | none => nd.category }) t) s.needs from by
    unfold needWriteBackNeed
    rw [store_foldl_needs_proj]]
  rw [hfold]
  cases mlookup acc.need2inds n <;> rfl

/-- C7 amended: among the link sheet's rows the category recorded for a
need is the first one seen (`setdefault`), and when the sheet records one
it overwrites the need's existing category unconditionally; a need for
which the sheet records no category keeps its existing one. -/
theorem c7_amended (s : Store) (df : DataFrame) (n : String) :
    (mlookup (ingest_indicator_need_links s df).needs n).map NeedR.category
      = (mlookup s.needs n).map (fun nd =>
          match firstCatFor (mkeys s.needs) (iter_rows df) n with
          | some c => some c
          | none => nd.category) := by
  unfold ingest_indicator_need_links
  rw [needWriteBackNeed_lookup _ _ (needLinkAcc_nodup (mkeys s.needs) (iter_rows df)).2 n]
  rw [needWriteBackInd_needs]
  have hcats : mlookup (needLinkAcc (mkeys s.needs) (iter_rows df)).needCats n
      = firstCatFor (mkeys s.needs) (iter_rows df) n := by
    unfold needLinkAcc
    rw [rows_needCats]
    rfl
  cases h2 : mlookup (needLinkAcc (mkeys s.needs) (iter_rows df)).need2inds n with
  | some xs =>
    rw [hcats]
    cases mlookup s.needs n with
    | none => rfl
    | some nd =>
      cases firstCatFor (mkeys s.needs) (iter_rows df) n <;> rfl
  | none =>
    have hfc : firstCatFor (mkeys s.needs) (iter_rows df) n = none := by
      cases hf : firstCatFor (mkeys s.needs) (iter_rows df) n with
      | none => rfl
      | some c =>
        have hl := firstCatFor_linked (mkeys s.needs) (iter_rows df) n c hf
        have hiso := rows_need2inds_isSome (mkeys s.needs) (iter_rows df) ⟨[], [], []⟩ n
        rw [show (iter_rows df).foldl (needLinkStep (mkeys s.needs)) ⟨[], [], []⟩
            = needLinkAcc (mkeys s.needs) (iter_rows df) from rfl] at hiso
        rw [h2, hl] at hiso
        simp [mlookup] at hiso
    rw [hfc]

/-- C7 witness: the amended theorem evaluated on a store holding one
categorized need and a one-row link sheet. -/
theorem c7_amended_witness :
    (mlookup (ingest_indicator_need_links
        { Store.empty with needs := [("b1", ⟨"Besoin un", some "A", none, []⟩)] }
        ⟨["ID_Indicateurs", "ID_Besoin", "Type_de_besoins"],
          [[Cell.str "i1", Cell.str "b1", Cell.str "B"]]⟩).needs
      "b1").map NeedR.category
      = (mlookup [("b1", (⟨"Besoin un", some "A", none, []⟩ : NeedR))] "b1").map (fun nd =>
          match firstCatFor ["b1"]
            (iter_rows ⟨["ID_Indicateurs", "ID_Besoin", "Type_de_besoins"],
              [[Cell.str "i1", Cell.str "b1", Cell.str "B"]]⟩) "b1" with
          | some c => some c
          | none => nd.category) :=
  c7_amended
    { Store.empty with needs := [("b1", ⟨"Besoin un", some "A", none, []⟩)] }
    ⟨["ID_Indicateurs", "ID_Besoin", "Type_de_besoins"],
      [[Cell.str "i1", Cell.str "b1", Cell.str "B"]]⟩ "b1"

/-! ## Claim C5: schema detection failure aborts and rolls back -/

theorem except_bind_ok {ε α β : Type} (x : α) (f : α → Except ε β) :
    (Except.ok x >>= f) = f x := rfl

theorem except_bind_error {ε α β : Type} (e : ε) (f : α → Except ε β) :
    ((Except.error e : Except ε α) >>= f) = Except.error e := rfl

theorem sheetStep_pure (f : Store → DataFrame → Store) (dfo : Option DataFrame) (s : Store) :
    sheetStep (pureSheet f) dfo s
      = .ok (match dfo with
             | none => s
             | some df => f s df) := by
  cases dfo <;> rfl

theorem detect_epci_column_fails (df : DataFrame)
    (hnc : ∀ c ∈ df.cols,
      ¬ (normalizeColumnName c = "id_epci" ∨ normalizeColumnName c = "code_epci")) :
    detect_epci_column df
      = .error "ValueError: colonne ID_EPCI introuvable dans la Table Valeurs" := by
  unfold detect_epci_column
  rw [List.find?_eq_none.mpr ?_]
  intro c hc
  have := hnc c hc
  simp only [Bool.or_eq_true, beq_iff_eq]
  exact fun h => this h

theorem ingest_indicator_values_fails (s1 : Store) (df : DataFrame)
    (hnc : ∀ c ∈ (normaliseColumns df).cols,
      ¬ (normalizeColumnName c = "id_epci" ∨ normalizeColumnName c = "code_epci")) :
    ingest_indicator_values s1 df
      = .error "ValueError: colonne ID_EPCI introuvable dans la Table Valeurs" := by
  unfold ingest_indicator_values
  rw [detect_epci_column_fails (normaliseColumns df) hnc]
  rfl

theorem runSheets_tail_error (wb : Workbook) (df : DataFrame) (T : Except String Store)
    (hdf : wb.valeurs = some df)
    (hval : ∀ s1, ingest_indicator_values s1 df
      = .error "ValueError: colonne ID_EPCI introuvable dans la Table Valeurs") :
    ∃ e, (T >>= fun s8 =>
        sheetStep ingest_indicator_values wb.valeurs s8 >>= fun s9 =>
          sheetStep ingest_indicator_scores wb.scores_indicateurs s9 >>= fun s10 =>
            pure s10) = Except.error e := by
  cases T with
  | error e => exact ⟨e, rfl⟩
  | ok s8 =>
    rw [except_bind_ok,
      show sheetStep ingest_indicator_values wb.valeurs s8
        = Except.error "ValueError: colonne ID_EPCI introuvable dans la Table Valeurs" from by
        rw [hdf]
        exact hval s8,
      except_bind_error]
    exact ⟨_, rfl⟩

/-- C5: when no column of the values matrix sheet normalizes to a unit-id
candidate ("id_epci"/"code_epci"), `_detect_epci_column` raises, the run
aborts, the transaction is rolled back (the visible store is unchanged and
nothing is committed) and the exception is re-raised; and whenever the
sheets all succeed, the staged state is committed exactly once. -/
theorem c5_schema_detection_aborts (s : Store) (wb : Workbook) (df : DataFrame)
    (hdf : wb.valeurs = some df)
    (hnc : ∀ c ∈ (normaliseColumns df).cols,
      ¬ (normalizeColumnName c = "id_epci" ∨ normalizeColumnName c = "code_epci")) :
    (∃ e, ingest_workbook s wb = (s, some e, 0))
    ∧ ∀ s2, runSheets s wb = .ok s2 → ingest_workbook s wb = (s2, none, 1) := by
  constructor
  · have herr : ∃ e, runSheets s wb = .error e := by
      unfold runSheets
      rw [sheetStep_pure, except_bind_ok, sheetStep_pure, except_bind_ok,
        sheetStep_pure, except_bind_ok, sheetStep_pure, except_bind_ok,
        sheetStep_pure, except_bind_ok, sheetStep_pure, except_bind_ok,
        sheetStep_pure, except_bind_ok]
      exact runSheets_tail_error wb df _ hdf
        (fun s1 => ingest_indicator_values_fails s1 df hnc)
    obtain ⟨e, he⟩ := herr
    refine ⟨e, ?_⟩
    unfold ingest_workbook
    rw [he]
  · intro s2 h
    unfold ingest_workbook
    rw [h]

/-- C5 witness: a workbook whose values sheet has no unit-id candidate
column is rolled back, and a trivially successful workbook (all sheets
absent) commits once. -/
theorem c5_witness :
    (∃ e, ingest_workbook Store.empty
        ⟨none, none, none, none, none, none, none, none,
          some ⟨["X", "i001"], []⟩, none⟩ = (Store.empty, some e, 0))
    ∧ ∀ s2, runSheets Store.empty
        ⟨none, none, none, none, none, none, none, none,
          some ⟨["X", "i001"], []⟩, none⟩ = .ok s2 →
        ingest_workbook Store.empty
          ⟨none, none, none, none, none, none, none, none,
            some ⟨["X", "i001"], []⟩, none⟩ = (s2, none, 1) :=
  c5_schema_detection_aborts Store.empty
    ⟨none, none, none, none, none, none, none, none, some ⟨["X", "i001"], []⟩, none⟩
    ⟨["X", "i001"], []⟩ rfl (by decide)

/-! ## Claim C10: unparseable cells are persisted with a null value -/

theorem rowGet_three (a b c3 : String) (x y z : Cell) (q : String) :
    rowGet [(a, x), (b, y), (c3, z)] q
      = if c3 = q then z else if b = q then y else if a = q then x else Cell.null := by
  unfold rowGet
  by_cases h3 : c3 = q <;> by_cases hb : b = q <;> by_cases ha : a = q <;>
    simp [List.filter_cons, h3, hb, ha]

theorem melt_ok_mem (df : DataFrame) (valueCols : List String) (idCol valueName : String)
    (long : List Row)
    (h1 : idCol ≠ valueName) (h2 : valueName ≠ "indicator_id") (h3 : idCol ≠ "indicator_id")
    (hok : melt_indicator_values df valueCols idCol valueName = .ok long) (r : Row) :
    r ∈ long ↔ ∃ c ∈ valueCols, ∃ row ∈ iter_rows df,
      r = [(idCol, rowGet row idCol), ("indicator_id", Cell.str c), (valueName, rowGet row c)]
        ∧ (rowGet row c).isna = false ∧ (rowGet row idCol).isna = false := by
  unfold melt_indicator_values at hok
  by_cases hcols : (valueCols.all (fun c => c ∈ df.cols) ∧ idCol ∈ df.cols)
  · rw [if_pos hcols] at hok
    have hlong : (meltRows df valueCols idCol valueName).filter
        (fun r => !(rowGet r valueName).isna && !(rowGet r idCol).isna) = long :=
      Except.ok.inj hok
    subst hlong
    rw [List.mem_filter]
    unfold meltRows
    rw [List.mem_flatMap]
    have hval3 : ∀ row : Row, ∀ c : String,
        rowGet [(idCol, rowGet row idCol), ("indicator_id", Cell.str c),
          (valueName, rowGet row c)] valueName = rowGet row c := by
      intro row c
      rw [rowGet_three]
      simp
    have hid3 : ∀ row : Row, ∀ c : String,
        rowGet [(idCol, rowGet row idCol), ("indicator_id", Cell.str c),
          (valueName, rowGet row c)] idCol = rowGet row idCol := by
      intro row c
      rw [rowGet_three]
      simp [Ne.symm h1, Ne.symm h3]
    constructor
    · rintro ⟨⟨c, hc, hr⟩, hpred⟩
      rcases List.mem_map.mp hr with ⟨row, hrow, hreq⟩
      subst hreq
      rw [Bool.and_eq_true] at hpred
      have hp1 := hpred.1
      have hp2 := hpred.2
      rw [hval3 row c] at hp1
      rw [hid3 row c] at hp2
      exact ⟨c, hc, row, hrow, rfl, by simpa using hp1, by simpa using hp2⟩
    · rintro ⟨c, hc, row, hrow, hreq, hv, hi⟩
      subst hreq
      refine ⟨⟨c, hc, List.mem_map.mpr ⟨row, hrow, rfl⟩⟩, ?_⟩
      rw [Bool.and_eq_true, hval3 row c, hid3 row c, hv, hi]
      exact ⟨rfl, rfl⟩
  · rw [if_neg hcols] at hok
    cases hok

theorem fold_value_none (long : List Row) (t t2 : List (FactKey × IndicatorValueR))
    (key : FactKey)
    (hok : tableFoldE valueIdOf valueCarry valueMkE t long = .ok t2)
    (hstart : (∃ rec, mlookup t key = some rec ∧ rec.value = none)
      ∨ ∃ r ∈ long, valueIdOf r = .ok (some key))
    (hall : ∀ r2 ∈ long, valueIdOf r2 = .ok (some key) →
      to_float (rowGet r2 "value") = .ok none) :
    ∃ rec, mlookup t2 key = some rec ∧ rec.value = none := by
  induction long generalizing t with
  | nil =>
    rw [tableFoldE_nil] at hok
    obtain rfl : t = t2 := Except.ok.inj hok
    rcases hstart with h | ⟨r, hr, _⟩
    · exact h
    · cases hr
  | cons r rest ih =>
    rw [tableFoldE_cons] at hok
    cases hid : valueIdOf r with
    | error e => rw [hid] at hok; cases hok
    | ok o =>
      rw [hid] at hok
      cases o with
      | none =>
        refine ih t hok ?_ (fun r2 h => hall r2 (List.mem_cons_of_mem r h))
        rcases hstart with h | ⟨r3, hr3, hw3⟩
        · exact Or.inl h
        · rcases List.mem_cons.mp hr3 with h3 | h3
          · subst h3
            rw [hid] at hw3
            cases hw3
          · exact Or.inr ⟨r3, h3, hw3⟩
      | some k =>
        cases hmk : valueMkE r with
        | error e => rw [hmk] at hok; cases hok
        | ok g =>
          rw [hmk] at hok
          by_cases hkey : k = key
          · subst hkey
            have hvf : to_float (rowGet r "value") = .ok none :=
              hall r (List.mem_cons_self r rest) hid
            have hg : g = fun unitCarry =>
                { value := none
                  unit := unitCarry
                  source := some "Excel/Table Valeurs"
                  libelle_epci := normalise_str (rowGet r "LIBELLE_EPCI") } := by
              have : valueMkE r = .ok (fun unitCarry =>
                  { value := none
                    unit := unitCarry
                    source := some "Excel/Table Valeurs"
                    libelle_epci := normalise_str (rowGet r "LIBELLE_EPCI") }) := by
                unfold valueMkE
                rw [hvf]
                rfl
              rw [this] at hmk
              exact (Except.ok.inj hmk).symm
            refine ih _ hok (Or.inl ?_) (fun r2 h => hall r2 (List.mem_cons_of_mem r h))
            refine ⟨_, mlookup_mupsert_self t k _, ?_⟩
            rw [hg]
          · refine ih _ hok ?_ (fun r2 h => hall r2 (List.mem_cons_of_mem r h))
            rcases hstart with h | ⟨r3, hr3, hw3⟩
            · rcases h with ⟨rec, hrec, hval⟩
              exact Or.inl ⟨rec, by rw [mlookup_mupsert_ne t k key _ hkey]; exact hrec, hval⟩
            · rcases List.mem_cons.mp hr3 with h3 | h3
              · subst h3
                rw [hid] at hw3
                exact absurd (Option.some.inj (Except.ok.inj hw3)) hkey
              · exact Or.inr ⟨r3, h3, hw3⟩

/-- C10: in the value/score matrix ingestion, the melt step drops exactly
the cells that are already NA (and the rows whose unit id is NA) — every
other (unit, column) pair yields a long row — and the persistence fold
stores a fact for every surviving row whose key resolves, with a null
value when the cell text does not parse as a number. -/
theorem c10_unparseable_cell_persisted :
    (∀ (df : DataFrame) (valueCols : List String) (idCol valueName : String)
        (long : List Row),
      idCol ≠ valueName → valueName ≠ "indicator_id" → idCol ≠ "indicator_id" →
      melt_indicator_values df valueCols idCol valueName = .ok long →
      ∀ r, r ∈ long ↔ ∃ c ∈ valueCols, ∃ row ∈ iter_rows df,
        r = [(idCol, rowGet row idCol), ("indicator_id", Cell.str c), (valueName, rowGet row c)]
          ∧ (rowGet row c).isna = false ∧ (rowGet row idCol).isna = false)
    ∧ (∀ (long : List Row) (t t2 : List (FactKey × IndicatorValueR)) (key : FactKey),
      tableFoldE valueIdOf valueCarry valueMkE t long = .ok t2 →
      (∃ r ∈ long, valueIdOf r = .ok (some key)) →
      (∀ r2 ∈ long, valueIdOf r2 = .ok (some key) →
        to_float (rowGet r2 "value") = .ok none) →
      ∃ rec, mlookup t2 key = some rec ∧ rec.value = none) :=
  ⟨fun df valueCols idCol valueName long h1 h2 h3 hok r =>
      melt_ok_mem df valueCols idCol valueName long h1 h2 h3 hok r,
    fun long t t2 key hok hmem hall => fold_value_none long t t2 key hok (Or.inr hmem) hall⟩

/-- C10 witness: a sheet whose only value cell is the unparseable text
"abc" melts to one long row, and the persistence fold stores the fact
with a null value. -/
theorem c10_witness :
    ([(("ID_EPCI" : String), Cell.str "200012345"),
        (("indicator_id" : String), Cell.str "i001"),
        (("value" : String), Cell.str "abc")]
      ∈ [[(("ID_EPCI" : String), Cell.str "200012345"),
        (("indicator_id" : String), Cell.str "i001"),
        (("value" : String), Cell.str "abc")]])
    ∧ ∃ rec, mlookup
        [((("200012345" : String), ("i001" : String), (0 : ℤ)),
          (⟨none, none, some "Excel/Table Valeurs", none⟩ : IndicatorValueR))]
        (("200012345" : String), ("i001" : String), (0 : ℤ)) = some rec
      ∧ rec.value = none := by
  constructor
  · exact (c10_unparseable_cell_persisted.1
      ⟨["ID_EPCI", "i001"], [[Cell.str "200012345", Cell.str "abc"]]⟩
      ["i001"] "ID_EPCI" "value"
      [[("ID_EPCI", Cell.str "200012345"), ("indicator_id", Cell.str "i001"),
        ("value", Cell.str "abc")]]
      (by decide) (by decide) (by decide) rfl _).mpr
      ⟨"i001", by decide, [("ID_EPCI", Cell.str "200012345"), ("i001", Cell.str "abc")],
        by decide, rfl, rfl, rfl⟩
  · exact c10_unparseable_cell_persisted.2
      [[("ID_EPCI", Cell.str "200012345"), ("indicator_id", Cell.str "i001"),
        ("value", Cell.str "abc")]]
      [] _ ("200012345", "i001", 0) rfl
      ⟨[("ID_EPCI", Cell.str "200012345"), ("indicator_id", Cell.str "i001"),
        ("value", Cell.str "abc")], by decide, rfl⟩
      (fun r2 h hk => by
        rw [List.mem_singleton] at h
        subst h
        rfl)

/-! ## Deduplication and grouping lemmas -/

theorem mem_dedupFirstAux {α : Type} [DecidableEq α] (seen : List α) (l : List α) (x : α) :
    x ∈ dedupFirstAux seen l ↔ x ∈ l ∧ ¬ x ∈ seen := by
  induction l generalizing seen with
  | nil => simp [dedupFirstAux]
  | cons a t ih =>
    by_cases ha : a ∈ seen
    · rw [show dedupFirstAux seen (a :: t) = dedupFirstAux seen t from by
        simp [dedupFirstAux, ha]]
      rw [ih]
      constructor
      · rintro ⟨hx, hs⟩
        exact ⟨List.mem_cons_of_mem _ hx, hs⟩
      · rintro ⟨hx, hs⟩
        rcases List.mem_cons.mp hx with rfl | hx
        · exact absurd ha hs
        · exact ⟨hx, hs⟩
    · rw [show dedupFirstAux seen (a :: t) = a :: dedupFirstAux (a :: seen) t from by
        simp [dedupFirstAux, ha]]
      rw [List.mem_cons, ih]
      constructor
      · rintro (rfl | ⟨hx, hs⟩)
        · exact ⟨List.mem_cons_self _ _, ha⟩
        · exact ⟨List.mem_cons_of_mem _ hx, fun hc => hs (List.mem_cons_of_mem _ hc)⟩
      · rintro ⟨hx, hs⟩
        by_cases hxa : x = a
        · exact Or.inl hxa
        · rcases List.mem_cons.mp hx with rfl | hx
          · exact Or.inl rfl
          · refine Or.inr ⟨hx, ?_⟩
            rw [List.mem_cons]
            push_neg
            exact ⟨hxa, hs⟩

theorem mem_dedupFirst {α : Type} [DecidableEq α] (l : List α) (x : α) :
    x ∈ dedupFirst l ↔ x ∈ l := by
  unfold dedupFirst
  rw [mem_dedupFirstAux]
  simp

theorem nodup_dedupFirstAux {α : Type} [DecidableEq α] (seen : List α) (l : List α) :
    (dedupFirstAux seen l).Nodup := by
  induction l generalizing seen with
  | nil => exact List.nodup_nil
  | cons a t ih =>
    by_cases ha : a ∈ seen
    · rw [show dedupFirstAux seen (a :: t) = dedupFirstAux seen t from by
        simp [dedupFirstAux, ha]]
      exact ih seen
    · rw [show dedupFirstAux seen (a :: t) = a :: dedupFirstAux (a :: seen) t from by
        simp [dedupFirstAux, ha]]
      rw [List.nodup_cons]
      refine ⟨?_, ih (a :: seen)⟩
      intro hc
      exact ((mem_dedupFirstAux (a :: seen) t a).mp hc).2 (List.mem_cons_self a seen)

theorem nodup_dedupFirst {α : Type} [DecidableEq α] (l : List α) : (dedupFirst l).Nodup :=
  nodup_dedupFirstAux [] l

theorem filter_eq_singleton {α : Type} (l : List α) (p : α → Bool) (k : α)
    (hnd : l.Nodup) (hmem : k ∈ l) (hpk : p k = true)
    (huniq : ∀ x ∈ l, p x = true → x = k) : l.filter p = [k] := by
  induction l with
  | nil => cases hmem
  | cons a t ih =>
    rw [List.nodup_cons] at hnd
    rcases List.mem_cons.mp hmem with rfl | hmem2
    · rw [List.filter_cons_of_pos hpk]
      refine congrArg (k :: ·) ?_
      rw [List.filter_eq_nil_iff]
      intro x hx hpx
      exact hnd.1 (huniq x (List.mem_cons_of_mem _ hx) hpx ▸ hx)
    · have hpa : ¬ p a = true := fun hpa => hnd.1 (by
        rw [huniq a (List.mem_cons_self a t) hpa]
        exact hmem2)
      rw [List.filter_cons_of_neg hpa]
      exact ih hnd.2 hmem2 (fun x hx hpx => huniq x (List.mem_cons_of_mem _ hx) hpx)

theorem join_filter_unit (epcis : List EpciRef) (l : List ScoreFact) (u : String)
    (e : EpciRef) (he : epcis.filter (fun x => x.id = u) = [e]) :
    (l.flatMap (fun f =>
        (epcis.filter (fun e2 => e2.id = f.epci_id)).map (fun e2 => (f, e2)))).filter
      (fun p => p.1.epci_id = u)
      = (l.filter (fun f => f.epci_id = u)).map (fun f => (f, e)) := by
  induction l with
  | nil => rfl
  | cons f fs ih =>
    rw [List.flatMap_cons, List.filter_append, ih]
    by_cases hu : f.epci_id = u
    · rw [List.filter_cons_of_pos (by simpa using hu), List.filter_map]
      have hconst : List.filter
          ((fun p : ScoreFact × EpciRef => decide (p.1.epci_id = u)) ∘ (fun e2 => (f, e2)))
          (epcis.filter (fun e2 => e2.id = f.epci_id))
          = epcis.filter (fun e2 => e2.id = f.epci_id) := by
        rw [List.filter_eq_self]
        intro a ha
        simpa using hu
      rw [hconst]
      have hfe : epcis.filter (fun e2 => e2.id = f.epci_id) = [e] := by
        rw [List.filter_congr (fun x hx => by rw [hu]), he]
      rw [hfe]
      rfl
    · rw [List.filter_cons_of_neg (by simpa using hu), List.filter_map]
      have hconst : List.filter
          ((fun p : ScoreFact × EpciRef => decide (p.1.epci_id = u)) ∘ (fun e2 => (f, e2)))
          (epcis.filter (fun e2 => e2.id = f.epci_id)) = [] := by
        rw [List.filter_eq_nil_iff]
        intro a ha
        simpa using hu
      rw [hconst]
      rfl

/-! ## Replay of the exception-raising sheets -/

theorem except_ok_of_bind {ε α β : Type} (x : Except ε α) (f : α → Except ε β) (b : β)
    (h : (x >>= f) = .ok b) : ∃ a, x = .ok a ∧ f a = .ok b := by
  cases x with
  | error e =>
    rw [except_bind_error] at h
    cases h
  | ok a =>
    rw [except_bind_ok] at h
    exact ⟨a, rfl, h⟩

theorem sheetStep_pure_applySheet (f : Store → DataFrame → Store) (dfo : Option DataFrame)
    (s : Store) : sheetStep (pureSheet f) dfo s = .ok (applySheet f dfo s) := by
  cases dfo <;> rfl

theorem epciMkE_carry : ∀ (r : Row) (g : Option String → EpciR),
    epciMkE r = .ok g → ∀ c, epciCarry (some (g c)) = c := by
  intro r g hg c
  unfold epciMkE at hg
  obtain ⟨a1, h1, hg⟩ := except_ok_of_bind _ _ _ hg
  obtain ⟨a2, h2, hg⟩ := except_ok_of_bind _ _ _ hg
  obtain ⟨a3, h3, hg⟩ := except_ok_of_bind _ _ _ hg
  obtain ⟨a4, h4, hg⟩ := except_ok_of_bind _ _ _ hg
  obtain ⟨a5, h5, hg⟩ := except_ok_of_bind _ _ _ hg
  obtain ⟨a6, h6, hg⟩ := except_ok_of_bind _ _ _ hg
  obtain ⟨a7, h7, hg⟩ := except_ok_of_bind _ _ _ hg
  obtain ⟨a8, h8, hg⟩ := except_ok_of_bind _ _ _ hg
  obtain ⟨a9, h9, hg⟩ := except_ok_of_bind _ _ _ hg
  obtain ⟨a10, h10, hg⟩ := except_ok_of_bind _ _ _ hg
  obtain ⟨a11, h11, hg⟩ := except_ok_of_bind _ _ _ hg
  obtain ⟨a12, h12, hg⟩ := except_ok_of_bind _ _ _ hg
  obtain ⟨a13, h13, hg⟩ := except_ok_of_bind _ _ _ hg
  obtain ⟨a14, h14, hg⟩ := except_ok_of_bind _ _ _ hg
  obtain ⟨a15, h15, hg⟩ := except_ok_of_bind _ _ _ hg
  rw [← Except.ok.inj hg]
  rfl

theorem valueMkE_carry : ∀ (r : Row) (g : Option String → IndicatorValueR),
    valueMkE r = .ok g → ∀ c, valueCarry (some (g c)) = c := by
  intro r g hg c
  unfold valueMkE at hg
  obtain ⟨a1, h1, hg⟩ := except_ok_of_bind _ _ _ hg
  rw [← Except.ok.inj hg]
  rfl

theorem scoreMkE_carry : ∀ (r : Row) (g : ScoreCarry → IndicatorScoreR),
    scoreMkE r = .ok g → ∀ c, scoreCarry (some (g c)) = c := by
  intro r g hg c
  unfold scoreMkE at hg
  obtain ⟨a1, h1, hg⟩ := except_ok_of_bind _ _ _ hg
  rw [← Except.ok.inj hg]
  rfl

theorem epci_replay (dfo : Option DataFrame) (s u : Store)
    (h : sheetStep ingest_epcis dfo s = .ok u) (hnd : NodupKeys s.epcis) :
    u = { s with epcis := u.epcis }
      ∧ ∀ w : Store, w.epcis = u.epcis → sheetStep ingest_epcis dfo w = .ok w := by
  cases dfo with
  | none =>
    have hs : s = u := Except.ok.inj h
    subst hs
    exact ⟨rfl, fun w hw => rfl⟩
  | some df =>
    rw [show sheetStep ingest_epcis (some df) s = ingest_epcis s df from rfl] at h
    unfold ingest_epcis at h
    cases htf : tableFoldE epciIdOf epciCarry epciMkE s.epcis (iter_rows (lowerCols df)) with
    | error e =>
      rw [htf] at h
      cases h
    | ok tb =>
      rw [htf] at h
      have hu : { s with epcis := tb } = u :=
        Except.ok.inj (show Except.ok { s with epcis := tb } = Except.ok u from h)
      obtain ⟨ws, hws, htb⟩ := tableFoldE_ok_shape _ _ _ _ _ _ htf
      have hst := carryStable_writesOfE epciIdOf epciCarry epciMkE _ ws epciMkE_carry hws
      constructor
      · rw [← hu]
      · intro w hw
        have hwtb : w.epcis = tb := by rw [hw, ← hu]
        rw [show sheetStep ingest_epcis (some df) w = ingest_epcis w df from rfl]
        unfold ingest_epcis
        rw [hwtb, htb, tableFoldE_replay epciIdOf epciCarry epciMkE s.epcis _ ws hws hst hnd,
          ← htb, ← hwtb]
        rfl

theorem values_replay (dfo : Option DataFrame) (s u : Store)
    (h : sheetStep ingest_indicator_values dfo s = .ok u) (hnd : NodupKeys s.values) :
    u = { s with values := u.values }
      ∧ ∀ w : Store, w.values = u.values → sheetStep ingest_indicator_values dfo w = .ok w := by
  cases dfo with
  | none =>
    have hs : s = u := Except.ok.inj h
    subst hs
    exact ⟨rfl, fun w hw => rfl⟩
  | some df =>
    rw [show sheetStep ingest_indicator_values (some df) s
        = ingest_indicator_values s df from rfl] at h
    unfold ingest_indicator_values at h
    cases hic : detect_epci_column (normaliseColumns df) with
    | error e =>
      rw [hic, except_bind_error] at h
      cases h
    | ok idCol =>
      rw [hic, except_bind_ok] at h
      by_cases hemp : (detect_indicator_columns (normaliseColumns df)).isEmpty = true
      · rw [if_pos hemp] at h
        have hs : s = u := Except.ok.inj h
        subst hs
        refine ⟨rfl, fun w hw => ?_⟩
        rw [show sheetStep ingest_indicator_values (some df) w
            = ingest_indicator_values w df from rfl]
        unfold ingest_indicator_values
        rw [hic, except_bind_ok, if_pos hemp]
        rfl
      · rw [if_neg hemp] at h
        cases hml : melt_indicator_values
            (attachEpciMetadata (normaliseColumns df) idCol
              (detect_epci_label_column (normaliseColumns df))).1
            (detect_indicator_columns (normaliseColumns df)) "ID_EPCI" "value" with
        | error e =>
          rw [hml, except_bind_error] at h
          cases h
        | ok long =>
          rw [hml, except_bind_ok] at h
          cases htf : tableFoldE valueIdOf valueCarry valueMkE s.values
              (mergeMeta long
                (attachEpciMetadata (normaliseColumns df) idCol
                  (detect_epci_label_column (normaliseColumns df))).2) with
          | error e =>
            rw [htf, except_bind_error] at h
            cases h
          | ok tb =>
            rw [htf, except_bind_ok] at h
            have hu : { s with values := tb } = u :=
              Except.ok.inj (show Except.ok { s with values := tb } = Except.ok u from h)
            obtain ⟨ws, hws, htb⟩ := tableFoldE_ok_shape _ _ _ _ _ _ htf
            have hst := carryStable_writesOfE valueIdOf valueCarry valueMkE _ ws
              valueMkE_carry hws
            constructor
            · rw [← hu]
            · intro w hw
              have hwtb : w.values = tb := by rw [hw, ← hu]
              rw [show sheetStep ingest_indicator_values (some df) w
                  = ingest_indicator_values w df from rfl]
              unfold ingest_indicator_values
              rw [hic, except_bind_ok, if_neg hemp, hml, except_bind_ok, hwtb, htb,
                tableFoldE_replay valueIdOf valueCarry valueMkE s.values _ ws hws hst hnd,
                except_bind_ok, ← htb, ← hwtb]
              rfl

theorem scores_replay (dfo : Option DataFrame) (s u : Store)
    (h : sheetStep ingest_indicator_scores dfo s = .ok u) (hnd : NodupKeys s.scores) :
    u = { s with scores := u.scores }
      ∧ ∀ w : Store, w.scores = u.scores → sheetStep ingest_indicator_scores dfo w = .ok w := by
  cases dfo with
  | none =>
    have hs : s = u := Except.ok.inj h
    subst hs
    exact ⟨rfl, fun w hw => rfl⟩
  | some df =>
    rw [show sheetStep ingest_indicator_scores (some df) s
        = ingest_indicator_scores s df from rfl] at h
    unfold ingest_indicator_scores at h
    cases hic : detect_epci_column (normaliseColumns df) with
    | error e =>
      rw [hic, except_bind_error] at h
      cases h
    | ok idCol =>
      rw [hic, except_bind_ok] at h
      by_cases hemp : (detect_indicator_columns (normaliseColumns df)).isEmpty = true
      · rw [if_pos hemp] at h
        have hs : s = u := Except.ok.inj h
        subst hs
        refine ⟨rfl, fun w hw => ?_⟩
        rw [show sheetStep ingest_indicator_scores (some df) w
            = ingest_indicator_scores w df from rfl]
        unfold ingest_indicator_scores
        rw [hic, except_bind_ok, if_pos hemp]
        rfl
      · rw [if_neg hemp] at h
        cases hml : melt_indicator_values
            (attachEpciMetadata (normaliseColumns df) idCol
              (detect_epci_label_column (normaliseColumns df))).1
            (detect_indicator_columns (normaliseColumns df)) "ID_EPCI" "score" with
        | error e =>
          rw [hml, except_bind_error] at h
          cases h
        | ok long =>
          rw [hml, except_bind_ok] at h
          cases htf : tableFoldE valueIdOf scoreCarry scoreMkE s.scores
              (mergeMeta long
                (attachEpciMetadata (normaliseColumns df) idCol
                  (detect_epci_label_column (normaliseColumns df))).2) with
          | error e =>
            rw [htf, except_bind_error] at h
            cases h
          | ok tb =>
            rw [htf, except_bind_ok] at h
            have hu : { s with scores := tb } = u :=
              Except.ok.inj (show Except.ok { s with scores := tb } = Except.ok u from h)
            obtain ⟨ws, hws, htb⟩ := tableFoldE_ok_shape _ _ _ _ _ _ htf
            have hst := carryStable_writesOfE valueIdOf scoreCarry scoreMkE _ ws
              scoreMkE_carry hws
            constructor
            · rw [← hu]
            · intro w hw
              have hwtb : w.scores = tb := by rw [hw, ← hu]
              rw [show sheetStep ingest_indicator_scores (some df) w
                  = ingest_indicator_scores w df from rfl]
              unfold ingest_indicator_scores
              rw [hic, except_bind_ok, if_neg hemp, hml, except_bind_ok, hwtb, htb,
                tableFoldE_replay valueIdOf scoreCarry scoreMkE s.scores _ ws hws hst hnd,
                except_bind_ok, ← htb, ← hwtb]
              rfl

/-- Replaying the whole sheet chain on its own successful output returns
that output unchanged. -/
theorem runSheets_replay (s t : Store) (wb : Workbook) (hwk : WellKeyed s)
    (h : runSheets s wb = .ok t) : runSheets t wb = .ok t := by
  obtain ⟨hn, ho, hty, hi, he, hv, hsc⟩ := hwk
  unfold runSheets at h
  simp only [sheetStep_pure_applySheet, except_bind_ok] at h
  rw [pure7_shape] at h
  obtain ⟨s8, h8, h⟩ := except_ok_of_bind _ _ _ h
  obtain ⟨s9, h9, h⟩ := except_ok_of_bind _ _ _ h
  obtain ⟨s10, h10, h⟩ := except_ok_of_bind _ _ _ h
  have ht10 : s10 = t := Except.ok.inj h
  subst ht10
  obtain ⟨hsh8, hrep8⟩ := epci_replay wb.epci _ s8 h8 he
  have hv8 : NodupKeys s8.values := by
    rw [hsh8]
    exact hv
  obtain ⟨hsh9, hrep9⟩ := values_replay wb.valeurs s8 s9 h9 hv8
  have hsc9 : NodupKeys s9.scores := by
    rw [hsh9, hsh8]
    exact hsc
  obtain ⟨hsh10, hrep10⟩ := scores_replay wb.scores_indicateurs s9 s10 h10 hsc9
  have htn : s10.needs
      = modTable (needLinkAcc (mkeys (tableFold needIdOf needCarry needMk s.needs
          (sheetRows wb.besoins))) (sheetRows wb.corr_besoins)).need2inds
        (needUpd (needLinkAcc (mkeys (tableFold needIdOf needCarry needMk s.needs
          (sheetRows wb.besoins))) (sheetRows wb.corr_besoins)).needCats)
        (tableFold needIdOf needCarry needMk s.needs (sheetRows wb.besoins)) := by
    rw [hsh10, hsh9, hsh8]
  have hto : s10.objectives
      = modTable (objLinkAcc (mkeys (tableFold objectiveIdOf objectiveCarry objectiveMk
          s.objectives (sheetRows wb.objectifs))) (sheetRows wb.corr_objectifs)).rev
        objUpd (tableFold objectiveIdOf objectiveCarry objectiveMk s.objectives
          (sheetRows wb.objectifs)) := by
    rw [hsh10, hsh9, hsh8]
  have htt : s10.indicator_types
      = modTable (typeLinkAcc (mkeys (tableFold typeIdOf typeCarry typeMk s.indicator_types
          (sheetRows wb.type_indicateurs))) (sheetRows wb.corr_types)).rev
        typeUpd (tableFold typeIdOf typeCarry typeMk s.indicator_types
          (sheetRows wb.type_indicateurs)) := by
    rw [hsh10, hsh9, hsh8]
  have hti : s10.indicators
      = modTable (typeLinkAcc (mkeys (tableFold typeIdOf typeCarry typeMk s.indicator_types
          (sheetRows wb.type_indicateurs))) (sheetRows wb.corr_types)).fwd indTypeUpd
        (modTable (objLinkAcc (mkeys (tableFold objectiveIdOf objectiveCarry objectiveMk
            s.objectives (sheetRows wb.objectifs))) (sheetRows wb.corr_objectifs)).fwd
          indObjUpd
          (modTable (needLinkAcc (mkeys (tableFold needIdOf needCarry needMk s.needs
              (sheetRows wb.besoins))) (sheetRows wb.corr_besoins)).ind2needs
            indNeedUpd
            (tableFold indicatorIdOf indicatorCarry indicatorMk s.indicators
              (sheetRows wb.indicateurs_sources)))) := by
    rw [hsh10, hsh9, hsh8]
  have hte : s10.epcis = s8.epcis := by
    rw [hsh10, hsh9]
  have htv : s10.values = s9.values := by
    rw [hsh10]
  have hneedsfield := needs_composite (sheetRows wb.besoins) (sheetRows wb.corr_besoins)
    s.needs _ s10.needs _ hn rfl htn rfl
  have hobjsfield := objs_composite (sheetRows wb.objectifs) (sheetRows wb.corr_objectifs)
    s.objectives _ s10.objectives _ ho rfl hto rfl
  have htypesfield := types_composite (sheetRows wb.type_indicateurs) (sheetRows wb.corr_types)
    s.indicator_types _ s10.indicator_types _ hty rfl htt rfl
  have hsubn : ∀ k ∈ mkeys (tableFold needIdOf needCarry needMk s.needs
      (sheetRows wb.besoins)), k ∈ mkeys s10.needs := by
    intro k hk
    rw [htn, modTable_keys]
    exact hk
  have hkn : mkeys (tableFold needIdOf needCarry needMk s10.needs (sheetRows wb.besoins))
      = mkeys (tableFold needIdOf needCarry needMk s.needs (sheetRows wb.besoins)) := by
    rw [stage_again_keys needIdOf needCarry needMk (sheetRows wb.besoins) s.needs
      s10.needs hsubn, htn, modTable_keys]
  have hsubo : ∀ k ∈ mkeys (tableFold objectiveIdOf objectiveCarry objectiveMk s.objectives
      (sheetRows wb.objectifs)), k ∈ mkeys s10.objectives := by
    intro k hk
    rw [hto, modTable_keys]
    exact hk
  have hko : mkeys (tableFold objectiveIdOf objectiveCarry objectiveMk s10.objectives
      (sheetRows wb.objectifs))
      = mkeys (tableFold objectiveIdOf objectiveCarry objectiveMk s.objectives
        (sheetRows wb.objectifs)) := by
    rw [stage_again_keys objectiveIdOf objectiveCarry objectiveMk (sheetRows wb.objectifs)
      s.objectives s10.objectives hsubo, hto, modTable_keys]
  have hsubt : ∀ k ∈ mkeys (tableFold typeIdOf typeCarry typeMk s.indicator_types
      (sheetRows wb.type_indicateurs)), k ∈ mkeys s10.indicator_types := by
    intro k hk
    rw [htt, modTable_keys]
    exact hk
  have hkt : mkeys (tableFold typeIdOf typeCarry typeMk s10.indicator_types
      (sheetRows wb.type_indicateurs))
      = mkeys (tableFold typeIdOf typeCarry typeMk s.indicator_types
        (sheetRows wb.type_indicateurs)) := by
    rw [stage_again_keys typeIdOf typeCarry typeMk (sheetRows wb.type_indicateurs)
      s.indicator_types s10.indicator_types hsubt, htt, modTable_keys]
  have hindsfield := inds_composite (sheetRows wb.indicateurs_sources)
    (sheetRows wb.corr_besoins) (sheetRows wb.corr_objectifs) (sheetRows wb.corr_types)
    (mkeys (tableFold needIdOf needCarry needMk s.needs (sheetRows wb.besoins)))
    (mkeys (tableFold objectiveIdOf objectiveCarry objectiveMk s.objectives
      (sheetRows wb.objectifs)))
    (mkeys (tableFold typeIdOf typeCarry typeMk s.indicator_types
      (sheetRows wb.type_indicateurs)))
    s.indicators _ _ _ s10.indicators _ _ _ hi rfl rfl rfl hti rfl rfl rfl
  unfold runSheets
  simp only [sheetStep_pure_applySheet, except_bind_ok]
  rw [pure7_shape, hneedsfield, hobjsfield, htypesfield, hkn, hko, hkt, hindsfield]
  rw [show Store.mk s10.needs s10.objectives s10.indicator_types s10.indicators
      s10.epcis s10.values s10.scores = s10 from rfl]
  rw [hrep8 s10 hte, except_bind_ok, hrep9 s10 htv, except_bind_ok,
    hrep10 s10 rfl, except_bind_ok]
  rfl

/-- C2: importing the same workbook twice leaves the store in the state
one import produces — the replay of every sheet overwrites each row
(facts keyed by unit, indicator and year included) with the value it
already has, no row is duplicated, and the run commits exactly once. -/
theorem c2_import_idempotent (s t : Store) (wb : Workbook) (hwk : WellKeyed s)
    (h : ingest_workbook s wb = (t, none, 1)) :
    ingest_workbook t wb = (t, none, 1) := by
  unfold ingest_workbook at h ⊢
  cases hr : runSheets s wb with
  | error e =>
    simp only [hr] at h
    injection h with h1 h2
    injection h2 with h2a h2b
    cases h2a
  | ok s2 =>
    simp only [hr] at h
    injection h with h1 h2
    subst h1
    rw [runSheets_replay s s2 wb hwk hr]

/-- C2 witness: a one-sheet workbook imported from the empty store, then
re-imported from its own output. -/
theorem c2_witness :
    WellKeyed Store.empty ∧
    ingest_workbook Store.empty c2Workbook = (c2Target, none, 1) ∧
    ingest_workbook c2Target c2Workbook = (c2Target, none, 1) := by
  refine ⟨⟨List.nodup_nil, List.nodup_nil, List.nodup_nil, List.nodup_nil,
    List.nodup_nil, List.nodup_nil, List.nodup_nil⟩, rfl, ?_⟩
  exact c2_import_idempotent Store.empty c2Target c2Workbook
    ⟨List.nodup_nil, List.nodup_nil, List.nodup_nil, List.nodup_nil,
      List.nodup_nil, List.nodup_nil, List.nodup_nil⟩ rfl

/-! ## Link accumulator symmetry -/

theorem linkMem_addLink (m : List (String × List String)) (k x j w : String) :
    linkMem (addLink m k x) j w = (linkMem m j w || (decide (j = k) && decide (w = x))) := by
  unfold linkMem
  rw [mlookup_addLink]
  by_cases hj : j = k
  · subst hj
    rw [if_pos rfl]
    cases hm : mlookup m j with
    | none => simp
    | some l =>
      by_cases hx : x ∈ l
      · by_cases hw : w = x
        · subst hw
          simp [hx]
        · simp [hx, hw]
      · simp [hx, List.mem_append]
  · rw [if_neg hj]
    simp [hj]

theorem needLinkInner_symm (ind : String) (cat : Option String) (ns : List String)
    (a : NeedLinkAcc) (n x : String)
    (h : linkMem a.need2inds n x = linkMem a.ind2needs x n) :
    linkMem (ns.foldl (needLinkInner ind cat) a).need2inds n x
      = linkMem (ns.foldl (needLinkInner ind cat) a).ind2needs x n := by
  induction ns generalizing a with
  | nil => exact h
  | cons m ms ih =>
    rw [List.foldl_cons]
    apply ih
    show linkMem (addLink a.need2inds m ind) n x = linkMem (addLink a.ind2needs ind m) x n
    rw [linkMem_addLink, linkMem_addLink, h]
    refine congrArg (linkMem a.ind2needs x n || ·) ?_
    exact Bool.and_comm _ _

theorem needLinkStep_symm (keys : List String) (r : Row) (a : NeedLinkAcc) (n x : String)
    (h : linkMem a.need2inds n x = linkMem a.ind2needs x n) :
    linkMem (needLinkStep keys a r).need2inds n x
      = linkMem (needLinkStep keys a r).ind2needs x n := by
  cases hid : normalise_indicator_id (rowGet r "ID_Indicateurs") with
  | none =>
    rw [needLinkStep_none keys a r hid]
    exact h
  | some ind =>
    rw [needLinkStep_some keys a r ind hid]
    by_cases hemp : (rowNeeds keys r).isEmpty
    · rw [if_pos hemp]
      exact h
    · rw [if_neg hemp]
      exact needLinkInner_symm ind _ _ a n x h

theorem needLinkAcc_symm (keys : List String) (rows : List Row) (n x : String) :
    linkMem (needLinkAcc keys rows).need2inds n x
      = linkMem (needLinkAcc keys rows).ind2needs x n := by
  suffices hgen : ∀ a : NeedLinkAcc, linkMem a.need2inds n x = linkMem a.ind2needs x n →
      linkMem (rows.foldl (needLinkStep keys) a).need2inds n x
        = linkMem (rows.foldl (needLinkStep keys) a).ind2needs x n by
    exact hgen ⟨[], [], []⟩ rfl
  induction rows with
  | nil => exact fun a h => h
  | cons r rs ih =>
    intro a h
    rw [List.foldl_cons]
    exact ih _ (needLinkStep_symm keys r a n x h)

theorem needWriteBackInd_lookup (acc : NeedLinkAcc) (s : Store)
    (hnd : NodupKeys acc.ind2needs) (x : String) :
    mlookup (needWriteBackInd acc s).indicators x
      = match mlookup acc.ind2needs x with
        | some ns => (mlookup s.indicators x).map (fun ind =>
            { ind with need_ids := sortedStr ns })
        | none => mlookup s.indicators x := by
  have hfold := foldl_mmodify_lookup acc.ind2needs hnd
    (fun k ns ind => { ind with need_ids := sortedStr ns }) s.indicators x
  rw [show (needWriteBackInd acc s).indicators
      = acc.ind2needs.foldl (fun t p =>
          mmodify p.1 (fun ind => { ind with need_ids := sortedStr p.2 }) t) s.indicators from by
    unfold needWriteBackInd
    rw [store_foldl_indicators_proj]]
  rw [hfold]
  cases mlookup acc.ind2needs x <;> rfl

theorem needWriteBackNeed_indicators (acc : NeedLinkAcc) (s : Store) :
    (needWriteBackNeed acc s).indicators = s.indicators := by
  unfold needWriteBackNeed
  rw [store_foldl_needs]

theorem addPair_symm (a : LinkAcc) (i y j w : String)
    (h : linkMem a.fwd j w = linkMem a.rev w j) :
    linkMem (addPair a i y).fwd j w = linkMem (addPair a i y).rev w j := by
  show linkMem (addLink a.fwd i y) j w = linkMem (addLink a.rev y i) w j
  rw [linkMem_addLink, linkMem_addLink, h]
  refine congrArg (linkMem a.rev w j || ·) ?_
  exact Bool.and_comm _ _

theorem objLinkStep_symm (keys : List String) (r : Row) (a : LinkAcc) (j w : String)
    (h : linkMem a.fwd j w = linkMem a.rev w j) :
    linkMem (objLinkStep keys a r).fwd j w = linkMem (objLinkStep keys a r).rev w j := by
  unfold objLinkStep
  cases normalise_indicator_id (rowGet r "ID_Indicateurs") with
  | none => exact h
  | some ind =>
    apply foldl_preserve (fun b : LinkAcc => linkMem b.fwd j w = linkMem b.rev w j)
    · intro b p hb
      by_cases hc : p.1 ∈ keys ∧ flagOf p.2
      · rw [if_pos hc]
        exact addPair_symm b ind p.1 j w hb
      · rw [if_neg hc]
        exact hb
    · exact h

theorem typeLinkStep_symm (keys : List String) (r : Row) (a : LinkAcc) (j w : String)
    (h : linkMem a.fwd j w = linkMem a.rev w j) :
    linkMem (typeLinkStep keys a r).fwd j w = linkMem (typeLinkStep keys a r).rev w j := by
  unfold typeLinkStep
  cases normalise_indicator_id (rowGet r "ID_indicateurs") with
  | none => exact h
  | some ind =>
    apply foldl_preserve (fun b : LinkAcc => linkMem b.fwd j w = linkMem b.rev w j)
    · intro b p hb
      by_cases hc : p.2 ∧ p.1 ∈ keys
      · rw [if_pos hc]
        exact addPair_symm b ind p.1 j w hb
      · rw [if_neg hc]
        exact hb
    · exact h

theorem objLinkAcc_symm (keys : List String) (rows : List Row) (j w : String) :
    linkMem (objLinkAcc keys rows).fwd j w = linkMem (objLinkAcc keys rows).rev w j := by
  unfold objLinkAcc
  apply foldl_preserve (fun b : LinkAcc => linkMem b.fwd j w = linkMem b.rev w j)
  · intro b r hb
    exact objLinkStep_symm keys r b j w hb
  · rfl

theorem typeLinkAcc_symm (keys : List String) (rows : List Row) (j w : String) :
    linkMem (typeLinkAcc keys rows).fwd j w = linkMem (typeLinkAcc keys rows).rev w j := by
  unfold typeLinkAcc
  apply foldl_preserve (fun b : LinkAcc => linkMem b.fwd j w = linkMem b.rev w j)
  · intro b r hb
    exact typeLinkStep_symm keys r b j w hb
  · rfl

theorem objWriteBackInd_lookup (acc : LinkAcc) (s : Store)
    (hnd : NodupKeys acc.fwd) (x : String) :
    mlookup (objWriteBackInd acc s).indicators x
      = match mlookup acc.fwd x with
        | some os => (mlookup s.indicators x).map (fun ind =>
            { ind with objective_ids := sortedStr os })
        | none => mlookup s.indicators x := by
  have hfold := foldl_mmodify_lookup acc.fwd hnd
    (fun k os ind => { ind with objective_ids := sortedStr os }) s.indicators x
  rw [show (objWriteBackInd acc s).indicators
      = acc.fwd.foldl (fun t p =>
          mmodify p.1 (fun ind => { ind with objective_ids := sortedStr p.2 }) t)
        s.indicators from by
    unfold objWriteBackInd
    rw [store_foldl_indicators_proj]]
  rw [hfold]
  cases mlookup acc.fwd x <;> rfl

theorem objWriteBackObj_lookup (acc : LinkAcc) (s : Store)
    (hnd : NodupKeys acc.rev) (o : String) :
    mlookup (objWriteBackObj acc s).objectives o
      = match mlookup acc.rev o with
        | some xs => (mlookup s.objectives o).map (fun ob =>
            { ob with indicator_ids := sortedStr xs })
        | none => mlookup s.objectives o := by
  have hfold := foldl_mmodify_lookup acc.rev hnd
    (fun k xs ob => { ob with indicator_ids := sortedStr xs }) s.objectives o
  rw [show (objWriteBackObj acc s).objectives
      = acc.rev.foldl (fun t p =>
          mmodify p.1 (fun ob => { ob with indicator_ids := sortedStr p.2 }) t)
        s.objectives from by
    unfold objWriteBackObj
    rw [store_foldl_objectives_proj]]
  rw [hfold]
  cases mlookup acc.rev o <;> rfl

theorem objWriteBackInd_objectives (acc : LinkAcc) (s : Store) :
    (objWriteBackInd acc s).objectives = s.objectives := by
  unfold objWriteBackInd
  rw [store_foldl_indicators]

theorem objWriteBackObj_indicators (acc : LinkAcc) (s : Store) :
    (objWriteBackObj acc s).indicators = s.indicators := by
  unfold objWriteBackObj
  rw [store_foldl_objectives]

theorem typeWriteBackInd_lookup (acc : LinkAcc) (s : Store)
    (hnd : NodupKeys acc.fwd) (x : String) :
    mlookup (typeWriteBackInd acc s).indicators x
      = match mlookup acc.fwd x with
        | some ts => (mlookup s.indicators x).map (fun ind =>
            { ind with type_ids := sortedStr ts })
        | none => mlookup s.indicators x := by
  have hfold := foldl_mmodify_lookup acc.fwd hnd
    (fun k ts ind => { ind with type_ids := sortedStr ts }) s.indicators x
  rw [show (typeWriteBackInd acc s).indicators
      = acc.fwd.foldl (fun t p =>
          mmodify p.1 (fun ind => { ind with type_ids := sortedStr p.2 }) t)
        s.indicators from by
    unfold typeWriteBackInd
    rw [store_foldl_indicators_proj]]
  rw [hfold]
  cases mlookup acc.fwd x <;> rfl

theorem typeWriteBackType_lookup (acc : LinkAcc) (s : Store)
    (hnd : NodupKeys acc.rev) (ty : String) :
    mlookup (typeWriteBackType acc s).indicator_types ty
      = match mlookup acc.rev ty with
        | some xs => (mlookup s.indicator_types ty).map (fun t =>
            { t with indicator_ids := sortedStr xs })
        | none => mlookup s.indicator_types ty := by
  have hfold := foldl_mmodify_lookup acc.rev hnd
    (fun k xs t => { t with indicator_ids := sortedStr xs }) s.indicator_types ty
  rw [show (typeWriteBackType acc s).indicator_types
      = acc.rev.foldl (fun t p =>
          mmodify p.1 (fun t0 => { t0 with indicator_ids := sortedStr p.2 }) t)
        s.indicator_types from by
    unfold typeWriteBackType
    rw [store_foldl_types_proj]]
  rw [hfold]
  cases mlookup acc.rev ty <;> rfl

theorem typeWriteBackInd_types (acc : LinkAcc) (s : Store) :
    (typeWriteBackInd acc s).indicator_types = s.indicator_types := by
  unfold typeWriteBackInd
  rw [store_foldl_indicators]

theorem typeWriteBackType_indicators (acc : LinkAcc) (s : Store) :
    (typeWriteBackType acc s).indicators = s.indicators := by
  unfold typeWriteBackType
  rw [store_foldl_types]

/-- C1: counterexample — the link sheet ties indicator i001 to need b1 in
a store that has no indicator i001; after the builder runs, b1's related
indicator set contains i001, yet no indicator row i001 exists, so no
symmetric entry exists on the indicator side. -/
theorem c1_counterexample :
    (mlookup (ingest_indicator_need_links c1exStore c1Sheet).needs "b1").map
        NeedR.indicator_ids = some ["i001"] ∧
    mlookup (ingest_indicator_need_links c1exStore c1Sheet).indicators "i001" = none := by
  constructor
  · show some (sortedStr ["i001"]) = some ["i001"]
    unfold sortedStr
    rw [List.mergeSort_singleton]
  · rfl

/-- C1 (amended): the relationship graph written by each of the three link
builders is symmetric on the entities the sheet touches and which exist in
the store.  For the need axis: if the accumulated maps record a row for
need n and for indicator x, and both persisted records exist after the
builder, then x is in n's related indicator set iff n is in x's related
need set.  The objective and type (category) axes satisfy the analogous
existence-conditioned symmetry for `ingest_indicator_objective_links` and
`ingest_indicator_type_links`.  (Dangling indicator ids remain one-sided,
as the counterexample shows.) -/
theorem c1_amended (s : Store) (df : DataFrame) :
    (∀ (n x : String) (xs ns : List String) (N : NeedR) (X : IndicatorR),
      mlookup (needLinkAcc (mkeys s.needs) (iter_rows df)).need2inds n = some xs →
      mlookup (needLinkAcc (mkeys s.needs) (iter_rows df)).ind2needs x = some ns →
      mlookup (ingest_indicator_need_links s df).needs n = some N →
      mlookup (ingest_indicator_need_links s df).indicators x = some X →
      (x ∈ N.indicator_ids ↔ n ∈ X.need_ids)) ∧
    (∀ (o x : String) (xs os : List String) (O : ObjectiveR) (X : IndicatorR),
      mlookup (objLinkAcc (mkeys s.objectives) (iter_rows df)).rev o = some xs →
      mlookup (objLinkAcc (mkeys s.objectives) (iter_rows df)).fwd x = some os →
      mlookup (ingest_indicator_objective_links s df).objectives o = some O →
      mlookup (ingest_indicator_objective_links s df).indicators x = some X →
      (x ∈ O.indicator_ids ↔ o ∈ X.objective_ids)) ∧
    (∀ (ty x : String) (xs ts : List String) (T : IndicatorTypeR) (X : IndicatorR),
      mlookup (typeLinkAcc (mkeys s.indicator_types) (iter_rows df)).rev ty = some xs →
      mlookup (typeLinkAcc (mkeys s.indicator_types) (iter_rows df)).fwd x = some ts →
      mlookup (ingest_indicator_type_links s df).indicator_types ty = some T →
      mlookup (ingest_indicator_type_links s df).indicators x = some X →
      (x ∈ T.indicator_ids ↔ ty ∈ X.type_ids)) := by
  refine ⟨?_, ?_, ?_⟩
  · intro n x xs ns N X hxs hns hN hX
    have hnod := needLinkAcc_nodup (mkeys s.needs) (iter_rows df)
    have h1 := needWriteBackNeed_lookup (needLinkAcc (mkeys s.needs) (iter_rows df))
      (needWriteBackInd (needLinkAcc (mkeys s.needs) (iter_rows df)) s) hnod.2 n
    rw [hxs, needWriteBackInd_needs] at h1
    rw [show ingest_indicator_need_links s df
        = needWriteBackNeed (needLinkAcc (mkeys s.needs) (iter_rows df))
            (needWriteBackInd (needLinkAcc (mkeys s.needs) (iter_rows df)) s) from rfl] at hN hX
    rw [h1] at hN
    obtain ⟨nd0, hnd0, hNval⟩ := Option.map_eq_some'.mp hN
    have h2 := needWriteBackInd_lookup (needLinkAcc (mkeys s.needs) (iter_rows df)) s hnod.1 x
    rw [hns] at h2
    rw [needWriteBackNeed_indicators, h2] at hX
    obtain ⟨i0, hi0, hXval⟩ := Option.map_eq_some'.mp hX
    have hNids : N.indicator_ids = sortedStr xs := by
      rw [← hNval]
    have hXids : X.need_ids = sortedStr ns := by
      rw [← hXval]
    rw [hNids, hXids]
    unfold sortedStr
    rw [List.mem_mergeSort, List.mem_mergeSort]
    have hsym := needLinkAcc_symm (mkeys s.needs) (iter_rows df) n x
    unfold linkMem at hsym
    simp only [hxs, hns] at hsym
    constructor
    · intro h
      have hd := decide_eq_true h
      have hd2 : decide (n ∈ ns) = true := by
        rw [← hsym]
        exact hd
      exact of_decide_eq_true hd2
    · intro h
      have hd := decide_eq_true h
      have hd2 : decide (x ∈ xs) = true := by
        rw [hsym]
        exact hd
      exact of_decide_eq_true hd2
  · intro o x xs os O X hxs hos hO hX
    have hnod := objLinkAcc_nodup (mkeys s.objectives) (iter_rows df)
    have h1 := objWriteBackObj_lookup (objLinkAcc (mkeys s.objectives) (iter_rows df))
      (objWriteBackInd (objLinkAcc (mkeys s.objectives) (iter_rows df)) s) hnod.2 o
    rw [hxs, objWriteBackInd_objectives] at h1
    rw [show ingest_indicator_objective_links s df
        = objWriteBackObj (objLinkAcc (mkeys s.objectives) (iter_rows df))
            (objWriteBackInd (objLinkAcc (mkeys s.objectives) (iter_rows df)) s) from rfl]
      at hO hX
    rw [h1] at hO
    obtain ⟨ob0, hob0, hOval⟩ := Option.map_eq_some'.mp hO
    have h2 := objWriteBackInd_lookup (objLinkAcc (mkeys s.objectives) (iter_rows df)) s
      hnod.1 x
    rw [hos] at h2
    rw [objWriteBackObj_indicators, h2] at hX
    obtain ⟨i0, hi0, hXval⟩ := Option.map_eq_some'.mp hX
    have hOids : O.indicator_ids = sortedStr xs := by
      rw [← hOval]
    have hXids : X.objective_ids = sortedStr os := by
      rw [← hXval]
    rw [hOids, hXids]
    unfold sortedStr
    rw [List.mem_mergeSort, List.mem_mergeSort]
    have hsym := objLinkAcc_symm (mkeys s.objectives) (iter_rows df) x o
    unfold linkMem at hsym
    simp only [hos, hxs] at hsym
    constructor
    · intro h
      have hd := decide_eq_true h
      have hd2 : decide (o ∈ os) = true := by
        rw [hsym]
        exact hd
      exact of_decide_eq_true hd2
    · intro h
      have hd := decide_eq_true h
      have hd2 : decide (x ∈ xs) = true := by
        rw [← hsym]
        exact hd
      exact of_decide_eq_true hd2
  · intro ty x xs ts T X hxs hts hT hX
    have hnod := typeLinkAcc_nodup (mkeys s.indicator_types) (iter_rows df)
    have h1 := typeWriteBackType_lookup (typeLinkAcc (mkeys s.indicator_types) (iter_rows df))
      (typeWriteBackInd (typeLinkAcc (mkeys s.indicator_types) (iter_rows df)) s) hnod.2 ty
    rw [hxs, typeWriteBackInd_types] at h1
    rw [show ingest_indicator_type_links s df
        = typeWriteBackType (typeLinkAcc (mkeys s.indicator_types) (iter_rows df))
            (typeWriteBackInd (typeLinkAcc (mkeys s.indicator_types) (iter_rows df)) s)
        from rfl] at hT hX
    rw [h1] at hT
    obtain ⟨ty0, hty0, hTval⟩ := Option.map_eq_some'.mp hT
    have h2 := typeWriteBackInd_lookup (typeLinkAcc (mkeys s.indicator_types) (iter_rows df)) s
      hnod.1 x
    rw [hts] at h2
    rw [typeWriteBackType_indicators, h2] at hX
    obtain ⟨i0, hi0, hXval⟩ := Option.map_eq_some'.mp hX
    have hTids : T.indicator_ids = sortedStr xs := by
      rw [← hTval]
    have hXids : X.type_ids = sortedStr ts := by
      rw [← hXval]
    rw [hTids, hXids]
    unfold sortedStr
    rw [List.mem_mergeSort, List.mem_mergeSort]
    have hsym := typeLinkAcc_symm (mkeys s.indicator_types) (iter_rows df) x ty
    unfold linkMem at hsym
    simp only [hts, hxs] at hsym
    constructor
    · intro h
      have hd := decide_eq_true h
      have hd2 : decide (ty ∈ ts) = true := by
        rw [hsym]
        exact hd
      exact of_decide_eq_true hd2
    · intro h
      have hd := decide_eq_true h
      have hd2 : decide (x ∈ xs) = true := by
        rw [← hsym]
        exact hd
      exact of_decide_eq_true hd2

/-- C1 witness: on a store holding need b1, objective o1, type Typ1 and
indicator i001, and a one-row link sheet tying i001 to all three, every
hypothesis of the amended symmetry holds concretely on each axis and the
three bidirectionality conclusions follow. -/
theorem c1_amended_witness :
    (mlookup (needLinkAcc (mkeys c1wStore2.needs) (iter_rows c1Sheet2)).need2inds "b1"
        = some ["i001"] ∧
      mlookup (needLinkAcc (mkeys c1wStore2.needs) (iter_rows c1Sheet2)).ind2needs "i001"
        = some ["b1"] ∧
      mlookup (ingest_indicator_need_links c1wStore2 c1Sheet2).needs "b1" = some c1NeedPost ∧
      mlookup (ingest_indicator_need_links c1wStore2 c1Sheet2).indicators "i001"
        = some c1IndPost ∧
      ("i001" ∈ c1NeedPost.indicator_ids ↔ "b1" ∈ c1IndPost.need_ids)) ∧
    (mlookup (objLinkAcc (mkeys c1wStore2.objectives) (iter_rows c1Sheet2)).rev "o1"
        = some ["i001"] ∧
      mlookup (objLinkAcc (mkeys c1wStore2.objectives) (iter_rows c1Sheet2)).fwd "i001"
        = some ["o1"] ∧
      mlookup (ingest_indicator_objective_links c1wStore2 c1Sheet2).objectives "o1"
        = some c1ObjPost ∧
      mlookup (ingest_indicator_objective_links c1wStore2 c1Sheet2).indicators "i001"
        = some c1IndPostO ∧
      ("i001" ∈ c1ObjPost.indicator_ids ↔ "o1" ∈ c1IndPostO.objective_ids)) ∧
    (mlookup (typeLinkAcc (mkeys c1wStore2.indicator_types) (iter_rows c1Sheet2)).rev "Typ1"
        = some ["i001"] ∧
      mlookup (typeLinkAcc (mkeys c1wStore2.indicator_types) (iter_rows c1Sheet2)).fwd "i001"
        = some ["Typ1"] ∧
      mlookup (ingest_indicator_type_links c1wStore2 c1Sheet2).indicator_types "Typ1"
        = some c1TypePost ∧
      mlookup (ingest_indicator_type_links c1wStore2 c1Sheet2).indicators "i001"
        = some c1IndPostT ∧
      ("i001" ∈ c1TypePost.indicator_ids ↔ "Typ1" ∈ c1IndPostT.type_ids)) := by
  refine ⟨⟨rfl, rfl, rfl, rfl, ?_⟩, ⟨rfl, rfl, rfl, rfl, ?_⟩, ⟨rfl, rfl, rfl, rfl, ?_⟩⟩
  · exact (c1_amended c1wStore2 c1Sheet2).1 "b1" "i001" ["i001"] ["b1"]
      c1NeedPost c1IndPost rfl rfl rfl rfl
  · exact (c1_amended c1wStore2 c1Sheet2).2.1 "o1" "i001" ["i001"] ["o1"]
      c1ObjPost c1IndPostO rfl rfl rfl rfl
  · exact (c1_amended c1wStore2 c1Sheet2).2.2 "Typ1" "i001" ["i001"] ["Typ1"]
      c1TypePost c1IndPostT rfl rfl rfl rfl

/-- C3: counterexample — unit A has two 2025 facts whose indicator-level
scores average 70, yet `list_scores` reports a null per-unit score,
because the service averages the persisted `global_score` column (null
here), not the indicator-level scores. -/
theorem c3_counterexample :
    (list_scores [epciA] c3exFacts none 10 0 "code" (some 2025)).items =
      [{ epci_id := "A", epci_label := "Unit A", department_code := none, region_code := none
         global_score := none, indicator_count := 2, updated_at := some 5 }] ∧
    sqlAvg (c3exFacts.map (fun f => f.indicator_score)) = some 70 := by
  constructor
  · show (((summarySubquery [epciA] c3exFacts none 2025).mergeSort
        (fun a b => pyStrLe a.epci_id b.epci_id)).drop 0).take 10 =
      [{ epci_id := "A", epci_label := "Unit A", department_code := none, region_code := none
         global_score := none, indicator_count := 2, updated_at := some 5 }]
    rw [show summarySubquery [epciA] c3exFacts none 2025 =
      [summaryRow [epciA] c3exFacts none 2025 ("A", "Unit A", none, none)] from rfl]
    rw [List.mergeSort_singleton]
    rfl
  · show some (((80 : ℚ) + (60 + 0)) / ((2 : ℕ) : ℚ)) = some 70
    norm_num

/-- C3 (amended): for a resolved year, per territorial unit that has score
facts for that year (and a unique unit row), the summary row returned for
that unit carries the SQL average of the unit's persisted `global_score`
column over those facts — not of the indicator-level scores — together
with the fact count and the latest update time. -/
theorem c3_amended (epcis : List EpciRef) (facts : List ScoreFact) (y : ℤ)
    (u : String) (e : EpciRef)
    (he : epcis.filter (fun x => x.id = u) = [e])
    (hne : facts.filter (fun f => f.year = y ∧ f.epci_id = u) ≠ []) :
    (summarySubquery epcis facts none y).filter (fun row => row.epci_id = u) =
      [{ epci_id := u
         epci_label := e.label
         department_code := e.department_code
         region_code := e.region_code
         global_score := sqlAvg ((facts.filter (fun f =>
           f.year = y ∧ f.epci_id = u)).map (fun f => f.global_score))
         indicator_count := (facts.filter (fun f => f.year = y ∧ f.epci_id = u)).length
         updated_at := ((facts.filter (fun f =>
           f.year = y ∧ f.epci_id = u)).map (fun f => f.updated_at)).max? }] := by
  have hjoin : summaryJoined epcis facts none y
      = (facts.filter (fun f => f.year = y)).flatMap (fun f =>
          (epcis.filter (fun e2 => e2.id = f.epci_id)).map (fun e2 => (f, e2))) := rfl
  have hff : (facts.filter (fun f => f.year = y)).filter (fun f => f.epci_id = u)
      = facts.filter (fun f => f.year = y ∧ f.epci_id = u) := by
    rw [List.filter_filter]
    exact List.filter_congr (fun f hf => by
      rw [Bool.decide_and]
      exact Bool.and_comm _ _)
  have hjmem : ∀ p : ScoreFact × EpciRef, p ∈ summaryJoined epcis facts none y →
      p.1.year = y ∧ p.2 ∈ epcis ∧ p.2.id = p.1.epci_id := by
    intro p hp
    rw [hjoin] at hp
    obtain ⟨f, hf, hpe⟩ := List.mem_flatMap.mp hp
    obtain ⟨e2, he2, hpeq⟩ := List.mem_map.mp hpe
    have hfm := List.mem_filter.mp hf
    have he2m := List.mem_filter.mp he2
    rw [← hpeq]
    exact ⟨of_decide_eq_true hfm.2, he2m.1, of_decide_eq_true he2m.2⟩
  obtain ⟨f0, hf0⟩ := List.exists_mem_of_ne_nil _ hne
  have hf0m := List.mem_filter.mp hf0
  have hf0p : f0.year = y ∧ f0.epci_id = u := of_decide_eq_true hf0m.2
  have hpj : (f0, e) ∈ summaryJoined epcis facts none y := by
    rw [hjoin]
    refine List.mem_flatMap.mpr ⟨f0, ?_, ?_⟩
    · exact List.mem_filter.mpr ⟨hf0m.1, decide_eq_true hf0p.1⟩
    · have hme : e ∈ epcis.filter (fun e2 => e2.id = f0.epci_id) := by
        rw [hf0p.2, he]
        exact List.mem_cons_self e []
      exact List.mem_map_of_mem _ hme
  have hku : (u, e.label, e.department_code, e.region_code) ∈
      (summaryJoined epcis facts none y).map (fun p =>
        (p.1.epci_id, p.2.label, p.2.department_code, p.2.region_code)) := by
    have h1 := List.mem_map_of_mem (fun p : ScoreFact × EpciRef =>
      (p.1.epci_id, p.2.label, p.2.department_code, p.2.region_code)) hpj
    rw [← hf0p.2]
    exact h1
  have huniq : ∀ k ∈ dedupFirst ((summaryJoined epcis facts none y).map (fun p =>
      (p.1.epci_id, p.2.label, p.2.department_code, p.2.region_code))),
      (fun k : SummaryKey => decide (k.1 = u)) k = true →
      k = (u, e.label, e.department_code, e.region_code) := by
    intro k hk hk1
    have hkm := (mem_dedupFirst _ _).mp hk
    obtain ⟨p, hp, hkey⟩ := List.mem_map.mp hkm
    have hchar := hjmem p hp
    have hk1p : k.1 = u := of_decide_eq_true hk1
    rw [← hkey] at hk1p
    have hfu : p.1.epci_id = u := hk1p
    have hpe : p.2 = e := by
      have h2 : p.2 ∈ epcis.filter (fun x => x.id = u) :=
        List.mem_filter.mpr ⟨hchar.2.1, decide_eq_true (hchar.2.2.trans hfu)⟩
      rw [he] at h2
      exact List.mem_singleton.mp h2
    rw [← hkey, hfu, hpe]
  have hsingle : (dedupFirst ((summaryJoined epcis facts none y).map (fun p =>
      (p.1.epci_id, p.2.label, p.2.department_code, p.2.region_code)))).filter
      (fun k => k.1 = u) = [(u, e.label, e.department_code, e.region_code)] :=
    filter_eq_singleton _ _ _ (nodup_dedupFirst _) ((mem_dedupFirst _ _).mpr hku)
      (decide_eq_true rfl) huniq
  have hgroup : summaryGroup epcis facts none y (u, e.label, e.department_code, e.region_code)
      = (facts.filter (fun f => f.year = y ∧ f.epci_id = u)).map (fun f => (f, e)) := by
    unfold summaryGroup
    have hcongr : List.filter (fun p : ScoreFact × EpciRef =>
        decide ((p.1.epci_id, p.2.label, p.2.department_code, p.2.region_code)
          = (u, e.label, e.department_code, e.region_code)))
        (summaryJoined epcis facts none y)
        = List.filter (fun p => decide (p.1.epci_id = u)) (summaryJoined epcis facts none y) := by
      apply List.filter_congr
      intro p hp
      have hchar := hjmem p hp
      by_cases hc : p.1.epci_id = u
      · have hpe : p.2 = e := by
          have h2 : p.2 ∈ epcis.filter (fun x => x.id = u) :=
            List.mem_filter.mpr ⟨hchar.2.1, decide_eq_true (hchar.2.2.trans hc)⟩
          rw [he] at h2
          exact List.mem_singleton.mp h2
        rw [decide_eq_true hc]
        exact decide_eq_true (by rw [hc, hpe])
      · rw [decide_eq_false hc, decide_eq_false (fun hcontr => hc (congrArg Prod.fst hcontr))]
    rw [hcongr, hjoin, join_filter_unit epcis _ u e he, hff]
  unfold summarySubquery
  rw [List.filter_map]
  rw [show List.filter ((fun row : ScoreSummaryRow => decide (row.epci_id = u)) ∘
      summaryRow epcis facts none y)
      (dedupFirst ((summaryJoined epcis facts none y).map (fun p =>
        (p.1.epci_id, p.2.label, p.2.department_code, p.2.region_code))))
      = List.filter (fun k : SummaryKey => decide (k.1 = u))
        (dedupFirst ((summaryJoined epcis facts none y).map (fun p =>
          (p.1.epci_id, p.2.label, p.2.department_code, p.2.region_code))))
      from List.filter_congr (fun k hk => rfl)]
  rw [hsingle, List.map_cons, List.map_nil]
  unfold summaryRow
  rw [hgroup, List.map_map, List.map_map, List.length_map]
  rfl

/-- C3 witness: the amended summary characterization evaluated on one
unit with one fact. -/
theorem c3_amended_witness :
    ([epciA].filter (fun x => x.id = "A") = [epciA]) ∧
    c3wFacts.filter (fun f => f.year = 2025 ∧ f.epci_id = "A") ≠ [] ∧
    (summarySubquery [epciA] c3wFacts none 2025).filter (fun row => row.epci_id = "A") =
      [{ epci_id := "A", epci_label := "Unit A", department_code := none, region_code := none
         global_score := sqlAvg ((c3wFacts.filter (fun f =>
           f.year = 2025 ∧ f.epci_id = "A")).map (fun f => f.global_score))
         indicator_count := (c3wFacts.filter (fun f => f.year = 2025 ∧ f.epci_id = "A")).length
         updated_at := ((c3wFacts.filter (fun f =>
           f.year = 2025 ∧ f.epci_id = "A")).map (fun f => f.updated_at)).max? }] :=
  ⟨by decide, by decide,
    c3_amended [epciA] c3wFacts 2025 "A" epciA (by decide) (by decide)⟩

/-- C4: counterexample — unit U has two 2025 facts linked to need N with
indicator-level scores 80 and 60 but a null need_score column; the detail
query's need-level score for N is null, not 70, because the rollup
averages the persisted need_score column. -/
theorem c4_counterexample :
    (get_score_detail [epciU]
        [("i001", "Ind 1"), ("i002", "Ind 2")] [("N", "Need N")] [] []
        c4exFacts "U" (some 2025)).toOption.map (fun d => d.needs) =
      some [{ id := "N", label := some "Need N", score := none }] ∧
    sqlAvg (c4exFacts.map (fun f => f.indicator_score)) = some 70 := by
  constructor
  · show some (rollup (fun f => f.need_id) (fun f => f.need_score) [("N", "Need N")]
        c4exFacts 2025 "U") =
      some [{ id := "N", label := some "Need N", score := none }]
    refine congrArg some ?_
    unfold rollup
    rw [show dedupFirst ((c4exFacts.filter (fun f =>
        f.year = 2025 ∧ f.epci_id = "U" ∧ (f.need_id).isSome)).filterMap
        (fun f => f.need_id)) = ["N"] from rfl]
    rw [List.map_cons, List.map_nil, List.mergeSort_singleton]
    rfl
  · show some (((80 : ℚ) + (60 + 0)) / ((2 : ℕ) : ℚ)) = some 70
    norm_num

/-- C4 (amended): in the detail rollup for a unit and year, every relation
id present among the unit's facts (facts with a null relation id being
excluded) yields an aggregated entry whose score is the SQL average of
the corresponding persisted sub-score column — `need_score`,
`objective_score` or `type_score` — over the unit's facts grouped by that
relation id, labelled from the reference table. -/
theorem c4_amended (rel : ScoreFact → Option String) (sub : ScoreFact → Option ℚ)
    (refLabels : List (String × String)) (facts : List ScoreFact) (y : ℤ) (u n : String)
    (hn : n ∈ (facts.filter (fun f =>
      f.year = y ∧ f.epci_id = u ∧ (rel f).isSome)).filterMap rel) :
    ({ id := n, label := mlookup refLabels n,
       score := sqlAvg (((facts.filter (fun f =>
           f.year = y ∧ f.epci_id = u ∧ (rel f).isSome)).filter
         (fun f => rel f = some n)).map sub) } : AggregatedScore) ∈
      rollup rel sub refLabels facts y u := by
  unfold rollup
  rw [List.mem_mergeSort]
  exact List.mem_map_of_mem _ ((mem_dedupFirst _ _).mpr hn)

/-- C4 witness: with need_score values 80 and 60 for unit U linked to need
N, the rolled-up need-level entry for N has score 70. -/
theorem c4_amended_witness :
    ("N" ∈ (c4wFacts.filter (fun f =>
        f.year = 2025 ∧ f.epci_id = "U" ∧ (f.need_id).isSome)).filterMap (fun f => f.need_id)) ∧
    ({ id := "N", label := some "Need N", score := some 70 } : AggregatedScore) ∈
      rollup (fun f => f.need_id) (fun f => f.need_score) [("N", "Need N")] c4wFacts 2025 "U" := by
  refine ⟨by decide, ?_⟩
  have h := c4_amended (fun f => f.need_id) (fun f => f.need_score) [("N", "Need N")]
    c4wFacts 2025 "U" "N" (by decide)
  have hl : ((c4wFacts.filter (fun f =>
      f.year = 2025 ∧ f.epci_id = "U" ∧ (f.need_id).isSome)).filter
    (fun f => f.need_id = some "N")).map (fun f => f.need_score) = [some 80, some 60] := rfl
  rw [hl] at h
  have h70 : sqlAvg [some (80 : ℚ), some 60] = some 70 := by
    show some (((80 : ℚ) + (60 + 0)) / ((2 : ℕ) : ℚ)) = some 70
    norm_num
  rw [h70] at h
  exact h

/-- C6 witness: the amended theorem evaluated on a one-row sheet. -/
theorem c6_amended_witness :
    (mlookup (ingest_indicators Store.empty
        ⟨["ID_indicateurs", "API disponible"], [[Cell.str "i1", Cell.str "oui"]]⟩).indicators
      "i001").map IndicatorR.api_available
      = some (normalise_str (rowGet
          [("ID_indicateurs", Cell.str "i1"), ("API disponible", Cell.str "oui")]
          "API disponible")).isSome :=
  c6_amended Store.empty
    ⟨["ID_indicateurs", "API disponible"], [[Cell.str "i1", Cell.str "oui"]]⟩ "i001"
    [("ID_indicateurs", Cell.str "i1"), ("API disponible", Cell.str "oui")] rfl

end Diag360
